import Mathlib

/-! Zigar native/host bridge: shallow embedding and verified properties.

The development embeds the C++ bridge sources

* `node-zigar-addon/src/addon.cc` (the current, version-checked bridge),
* `src/addon.cc` (an earlier bridge working on a per-call slot object),
* `src/cc/addon.cc` (the oldest bridge, entry-table based),

as pure functions over an explicit model of host (JavaScript) values, the raw
address space and the host environment, and proves properties of them.

Conventions.
* Machine integers are `Int`/`Nat` with explicit wrap-around (`toInt32`, `toUint32`, ...).
* Raw memory is a total map from addresses to byte values.
* A host call is described by what the host does when asked: the property lookup may
  throw or yield a value, and invoking a function may throw or yield a value.
* Loops that need not terminate carry a fuel argument counting loop-body executions.
* The functions of the embedded host script, which is not among the sources, are modelled
  from the specification; each such definition says so in its comment.
-/

namespace Zigar

/-! ## Host values -/

/-- Host (JavaScript) values as far as the bridge can tell them apart.
`dataView data byteOffset byteLength` is a view whose backing store starts at address
`data`; `number` carries integer-valued numbers. -/
inductive JSValue where
  | undefined
  | null
  | boolean (b : Bool)
  | number (n : Int)
  | bigInt (n : Int)
  | string (s : String)
  | object (id : Nat)
  | function (id : Nat)
  | dataView (data : Nat) (byteOffset : Nat) (byteLength : Nat)
  | arrayBuffer (data : Nat) (byteLength : Nat)
  | typedArray (data : Nat) (bufferLength : Nat) (byteOffset : Nat) (byteLength : Nat)
  deriving DecidableEq, Repr

namespace JSValue

/-- Models `Value::IsNullOrUndefined`. -/
def IsNullOrUndefined : JSValue → Bool
  | undefined => true
  | null => true
  | _ => false

/-- Models `Value::IsObject`: everything that is not a primitive. -/
def IsObject : JSValue → Bool
  | object _ => true
  | function _ => true
  | dataView _ _ _ => true
  | arrayBuffer _ _ => true
  | typedArray _ _ _ _ => true
  | _ => false

/-- Models `Value::IsFunction`. -/
def IsFunction : JSValue → Bool
  | function _ => true
  | _ => false

/-- Models `Value::IsDataView`. -/
def IsDataView : JSValue → Bool
  | dataView _ _ _ => true
  | _ => false

/-- Models `Value::IsBigInt`. -/
def IsBigInt : JSValue → Bool
  | bigInt _ => true
  | _ => false

/-- Models `Value::IsString`. -/
def IsString : JSValue → Bool
  | string _ => true
  | _ => false

end JSValue

/-! ## Machine arithmetic -/

/-- The constant `INT32_MAX`. -/
def INT32_MAX : Int := 2147483647

/-- Conversion of an integer to `int32_t` (two's complement wrap-around). -/
def toInt32 (x : Int) : Int := (x + 2147483648) % 4294967296 - 2147483648

/-- Conversion of an integer to `uint32_t`. -/
def toUint32 (x : Int) : Nat := (x % 4294967296).toNat

/-- Conversion of an integer to `uint64_t`, as done by `BigInt::Uint64Value`. -/
def toUint64 (x : Int) : Nat := (x % 18446744073709551616).toNat

/-! ## Raw memory and `findSentinel` (node-zigar-addon/src/addon.cc) -/

/-- The raw address space: a byte value at every address. -/
abbrev AddressSpace := Int → Nat

/-- Models `memcmp(p, q, n)`: zero when the `n` bytes at `p` and at `q` agree, otherwise the
sign of the first difference. -/
def memcmp (mem : AddressSpace) (p q : Int) : Nat → Int
  | 0 => 0
  | n + 1 =>
    if mem p = mem q then memcmp mem (p + 1) (q + 1) n
    else if mem p < mem q then -1 else 1

/-- What a `FunctionCallbackInfo` callback leaves behind: the message of the error it threw
with `isolate->ThrowException`, if any, and the value handed to `GetReturnValue().Set`,
if any. -/
structure CallbackResult where
  exception : Option String
  returnValue : Option JSValue
  deriving DecidableEq, Repr

/-- Argument `i` of a callback; V8 yields `undefined` past the end. -/
def argAt (info : List JSValue) (i : Nat) : JSValue := info.getD i JSValue.undefined

/-- Result of the scanning loop of `findSentinel`: the value of `j` handed to the return
value on a match, or a normal loop exit without a match, each with the number of loop-body
executions (one `memcmp` each); `outOfFuel` when the loop is still running after the
allotted number of body executions. -/
inductive Scan where
  | found (j : Int) (iterations : Nat)
  | notFound (iterations : Nat)
  | outOfFuel
  deriving DecidableEq, Repr

/-- The loop
`for (int32_t i = 0, j = 0; i < INT32_MAX; i += sentinel_len, j++) { if (memcmp(...) == 0) {...; break;} }`
started in state `(i, j)` after `n` body executions. `i += sentinel_len` is computed in
`size_t` and converted back to `int32_t`. -/
def scanLoop (mem : AddressSpace) (src sentinel : Int) (len : Nat) :
    Nat → Int → Int → Nat → Scan
  | 0, i, _, n => if i < INT32_MAX then Scan.outOfFuel else Scan.notFound n
  | fuel + 1, i, j, n =>
    if i < INT32_MAX then
      if memcmp mem (src + i) sentinel len = 0 then Scan.found j (n + 1)
      else scanLoop mem src sentinel len fuel (toInt32 (i + len)) (toInt32 (j + 1)) (n + 1)
    else Scan.notFound n

/-- The `findSentinel` callback installed by `OverrideEnvironmentFunctions`. The result is
`none` when the scan needs more than `fuel` loop-body executions; otherwise the callback
result together with the number of loop-body executions performed. -/
def findSentinel (mem : AddressSpace) (info : List JSValue) (fuel : Nat) :
    Option (CallbackResult × Nat) :=
  match argAt info 0 with
  | JSValue.bigInt a =>
    match argAt info 1 with
    | JSValue.dataView data byteOffset byteLength =>
      let address : Int := toUint64 a
      let sentinel_bytes : Int := (data : Int) + byteOffset
      let sentinel_len := byteLength
      if sentinel_len > 0 then
        match scanLoop mem address sentinel_bytes sentinel_len fuel 0 0 0 with
        | Scan.found j n => some (⟨none, some (JSValue.number j)⟩, n)
        | Scan.notFound n => some (⟨none, none⟩, n)
        | Scan.outOfFuel => none
      else some (⟨none, none⟩, 0)
    | _ => some (⟨some "Sentinel value must be DataView", none⟩, 0)
  | _ => some (⟨some "Address must be bigInt", none⟩, 0)

/-- Memory holding the bytes `1, 2, 3, 0, 5` at addresses `100 .. 104` and the one-byte
sentinel `0` at address `200`; every other byte is `255`. -/
def sampleMemory : AddressSpace := fun p =>
  if p = 100 then 1 else if p = 101 then 2 else if p = 102 then 3 else if p = 103 then 0
  else if p = 104 then 5 else if p = 200 then 0 else 255

/-! ## Results and the host environment -/

/-- The `Result` enumeration shared by the bridge and the native module. -/
inductive Result where
  | OK
  | Failure
  deriving DecidableEq, Repr

/-- A `Local<T>` handle: `none` is the empty handle. -/
abbrev Handle := Option JSValue

/-- The host environment object as seen through `Object::Get` and `Function::Call`.
`get s name` is the property lookup in host state `s` (`none`: the lookup threw);
`call s f argv` invokes the function value `f` (`none`: the call threw) and yields the
host state afterwards. -/
structure HostEnv (σ : Type) where
  get : σ → String → Option JSValue
  call : σ → JSValue → List JSValue → Option JSValue × σ

/-- What `CallFunction` leaves behind: its result code, the value stored through `dest`
(when the call succeeded), whether a host exception is pending, and the host state. -/
structure CallFunctionResult (σ : Type) where
  result : Result
  value : Handle
  pending : Bool
  state : σ

/-- Conversion of a `size_t` to `double` (round to nearest, ties to even), as performed when
a length is handed to `Number::New`; the result is an integer value. -/
def toDouble (n : Nat) : Int :=
  if n < 9007199254740992 then (n : Int)
  else
    let e := Nat.log2 n - 52
    let q := n / 2 ^ e
    let r := n % 2 ^ e
    let half := 2 ^ (e - 1)
    let q1 := if r > half ∨ (r = half ∧ q % 2 = 1) then q + 1 else q
    ((q1 * 2 ^ e : Nat) : Int)

/-- Attributes of a memory region (`align : 16`, `is_const : 1`, `is_comptime : 1`). -/
structure MemoryAttributes where
  align : Nat
  is_const : Bool
  is_comptime : Bool
  deriving DecidableEq, Repr

/-- The `Memory` record of the current bridge: start address, length and attributes. -/
structure Memory where
  bytes : Nat
  len : Nat
  attributes : MemoryAttributes
  deriving DecidableEq, Repr

/-- A function-pointer table of a native module: for each field the name of the function
it points to (`none`: a null pointer). -/
abbrev FnTable := String → Option String

/-- The assignment `table->field = p`. -/
def FnTable.assign (t : FnTable) (field : String) (p : Option String) : FnTable :=
  fun f => if f = field then p else t f

/-- A sequence of assignments to a function-pointer table, in program order. -/
def FnTable.assignAll (t : FnTable) (l : List (String × Option String)) : FnTable :=
  l.foldl (fun acc fp => acc.assign fp.1 fp.2) t

/-- The native `Module` record found under the symbol `zig_module`: version, attribute
bits and the table the loader fills in (`exports`, called `callbacks` in the earlier
bridges). -/
structure Module where
  version : Nat
  little_endian : Bool
  runtime_safety : Bool
  table : FnTable

/-- What a `Load` callback leaves behind: the message of the error `Load` itself threw,
whether an exception raised by host code is pending, the value handed to
`GetReturnValue().Set` (if `Set` was called), the native module afterwards (if one was
found), and whether the process was aborted by a failed `ToLocalChecked`. -/
structure LoadResult where
  thrown : Option String
  hostException : Bool
  returnValue : Option JSValue
  module : Option Module
  fatal : Bool

/-- Models `ReturnValue::Set(Local<Value>)`: an empty handle stores the default value
`undefined`. -/
def returnValueSet (h : Handle) : Option JSValue :=
  match h with
  | some v => some v
  | none => some JSValue.undefined

/-- The function value created for the factory thunk (`CreateThunk` / `NewThunk`). -/
def factoryThunk : JSValue := JSValue.function 0

/-! ## The current bridge (node-zigar-addon/src/addon.cc) -/

namespace Node

/-- Models `CallFunction(call, name, argc, argv, dest)`: look the function up on the
environment object and call it. -/
def CallFunction {σ : Type} (env : HostEnv σ) (s : σ) (name : String) (argv : List JSValue) :
    CallFunctionResult σ :=
  match env.get s name with
  | none => ⟨Result.Failure, none, true, s⟩
  | some value =>
    if !value.IsFunction then ⟨Result.Failure, none, false, s⟩
    else
      match env.call s value argv with
      | (none, s1) => ⟨Result.Failure, none, true, s1⟩
      | (some v, s1) => ⟨Result.OK, some v, false, s1⟩

/-- Models `AllocateRelocatableMemory(call, len, align, dest)`; the second component is the
record `*dest` afterwards. -/
def AllocateRelocatableMemory {σ : Type} (env : HostEnv σ) (s : σ) (len : Nat) (align : Nat)
    (dest : Memory) : Result × Memory × σ :=
  let args := [JSValue.number (toDouble len), JSValue.number align]
  let r := CallFunction env s "allocateRelocatableMemory" args
  if r.result ≠ Result.OK then (Result.Failure, dest, r.state)
  else
    match r.value with
    | some (JSValue.dataView data byteOffset _) =>
      (Result.OK, ⟨data + byteOffset, len, ⟨align, false, false⟩⟩, r.state)
    | _ => (Result.Failure, dest, r.state)

/-- Models `ReadSlot(call, object, slot, dest)`; the second component is `*dest`
afterwards. -/
def ReadSlot {σ : Type} (env : HostEnv σ) (s : σ) (object : Handle) (slot : Nat)
    (dest : Handle) : Result × Handle × σ :=
  let args := [object.getD JSValue.null, JSValue.number (toUint32 slot)]
  let r := CallFunction env s "readSlot" args
  if r.result ≠ Result.OK then (Result.Failure, dest, r.state)
  else
    match r.value with
    | some v => if v.IsObject then (Result.OK, some v, r.state) else (Result.Failure, dest, r.state)
    | none => (Result.Failure, dest, r.state)

/-- Models `WriteSlot(call, object, slot, value)`. -/
def WriteSlot {σ : Type} (env : HostEnv σ) (s : σ) (object : Handle) (slot : Nat)
    (value : Handle) : Result × σ :=
  let args := [object.getD JSValue.null, JSValue.number (toUint32 slot),
    value.getD JSValue.null]
  let r := CallFunction env s "writeSlot" args
  if r.result ≠ Result.OK then (Result.Failure, r.state) else (Result.OK, r.state)

/-- The protocol version the current bridge accepts (`module->version != 2`). -/
def hostVersion : Nat := 2

/-- The assignments `exports->... = ...` of `Load`, in program order. -/
def exportAssignments : List (String × Option String) :=
  [("allocate_relocatable_memory", some "AllocateRelocatableMemory"),
   ("free_relocatable_memory", some "FreeRelocatableMemory"),
   ("create_string", some "CreateString"),
   ("create_object", some "CreateObject"),
   ("create_view", some "CreateView"),
   ("cast_view", some "CastView"),
   ("read_slot", some "ReadSlot"),
   ("write_slot", some "WriteSlot"),
   ("begin_structure", some "BeginStructure"),
   ("attach_member", some "AttachMember"),
   ("attach_method", some "AttachMethod"),
   ("attach_template", some "AttachTemplate"),
   ("finalize_structure", some "FinalizeStructure"),
   ("create_template", some "CreateTemplate"),
   ("write_to_console", some "WriteToConsole"),
   ("flush_console", some "FlushConsole")]

/-- Everything `Load` obtains from outside: the call arguments, the outcomes of `dlopen`
and `dlsym` (`none`: a null pointer), of `LoadJavaScript` and of the lookup of
`Environment` (`none`: an empty `MaybeLocal`), of constructing the environment object,
and the behaviour of that environment object. -/
structure LoadInput (σ : Type) where
  info : List JSValue
  handle : Option Nat
  symbol : Option Module
  script : Option JSValue
  envClass : Option JSValue
  envObject : Option JSValue
  env : HostEnv σ
  state : σ

/-- The error `Load` throws on a version mismatch. -/
def versionMismatch : String := "Cached module is compiled for a different version of Zigar"

/-- Models the `Load` callback of the current bridge. -/
def Load {σ : Type} (inp : LoadInput σ) : LoadResult :=
  if inp.info.length < 1 || !(argAt inp.info 0).IsString then
    ⟨some "Invalid arguments", false, none, none, false⟩
  else
    match inp.handle with
    | none => ⟨some "Unable to load shared library", false, none, none, false⟩
    | some _ =>
      match inp.symbol with
      | none => ⟨some "Unable to find the symbol \"zig_module\"", false, none, none, false⟩
      | some module =>
        if !(match inp.script with
            | some result => result.IsObject
            | none => false) then
          ⟨some "Unable to compile embedded JavaScript", inp.script.isNone, none,
            some module, false⟩
        else if !(match inp.envClass with
            | some result => result.IsObject
            | none => false) then
          ⟨some "Unable to find the class \"Environment\"", inp.envClass.isNone, none,
            some module, false⟩
        else if module.version ≠ 2 then
          ⟨some versionMismatch, false, none, some module, false⟩
        else
          let module1 := { module with table := module.table.assignAll exportAssignments }
          match inp.envObject with
          | none => ⟨none, true, none, some module1, true⟩
          | some _ =>
            let r := CallFunction inp.env inp.state "invokeFactory" [factoryThunk]
            if r.result ≠ Result.OK then
              ⟨none, r.pending, none, some module1, false⟩
            else
              ⟨none, false, returnValueSet r.value, some module1, false⟩

end Node

/-! ## The earlier bridge (src/addon.cc) -/

namespace Legacy

/-- The per-call `Host` record, as far as the slot operations use it: the `slots` object,
a plain object whose property at an index is `undefined` until it is set. -/
structure Host where
  slots : Nat → JSValue

/-- Models `Object::Get(context, index)` on a plain object: it never throws. -/
def objectGet (o : Nat → JSValue) (index : Nat) : Option JSValue := some (o index)

/-- Models `Object::Set(context, index, value)` on a plain object. -/
def objectSet (o : Nat → JSValue) (index : Nat) (value : JSValue) : Nat → JSValue :=
  fun k => if k = index then value else o k

/-- Models `ReadSlot(call, slot_id, dest)`; the second component is `*dest` afterwards. -/
def ReadSlot (call : Host) (slot_id : Nat) (dest : Handle) : Result × Handle :=
  match objectGet call.slots slot_id with
  | some value =>
    if !value.IsNullOrUndefined then (Result.OK, some value) else (Result.Failure, dest)
  | none => (Result.Failure, dest)

/-- Models `WriteSlot(call, slot_id, object)`; the second component is the call record
afterwards. -/
def WriteSlot (call : Host) (slot_id : Nat) (object : JSValue) : Result × Host :=
  (Result.OK, { call with slots := objectSet call.slots slot_id object })

/-- A freshly created `slots` object (`Object::New`): no slot has been written. -/
def newSlots : Host := ⟨fun _ => JSValue.undefined⟩

/-- The call record after a sequence of `WriteSlot` calls, in order. -/
def writeAll (call : Host) (writes : List (Nat × JSValue)) : Host :=
  writes.foldl (fun c w => (WriteSlot c w.1 w.2).2) call

/-- Models `CallFunction(call, name, argc, argv, dest)` of the earlier bridge: obtain the
script module first (`GetJavaScript`, which fails unless running the script yields an
object), then look the function up on it and call it. -/
def CallFunction {σ : Type} (script : Option JSValue) (env : HostEnv σ) (s : σ)
    (name : String) (argv : List JSValue) : CallFunctionResult σ :=
  if !(match script with
      | some result => result.IsObject
      | none => false) then ⟨Result.Failure, none, script.isNone, s⟩
  else
    match env.get s name with
    | none => ⟨Result.Failure, none, true, s⟩
    | some value =>
      if !value.IsFunction then ⟨Result.Failure, none, false, s⟩
      else
        match env.call s value argv with
        | (none, s1) => ⟨Result.Failure, none, true, s1⟩
        | (some v, s1) => ⟨Result.OK, some v, false, s1⟩

/-- The assignments `callbacks->... = ...` of `Load`, in program order. -/
def callbackAssignments : List (String × Option String) :=
  [("allocate_memory", some "AllocateMemory"),
   ("get_memory", some "GetMemory"),
   ("get_relocatable", some "GetRelocatable"),
   ("set_relocatable", some "SetRelocatable"),
   ("read_slot", some "ReadSlot"),
   ("write_slot", some "WriteSlot"),
   ("begin_structure", some "BeginStructure"),
   ("attach_member", some "AttachMember"),
   ("attach_method", some "AttachMethod"),
   ("attach_default_values", some "AttachDefaultValues"),
   ("finalize_structure", some "FinalizeStructure")]

/-- Everything `Load` obtains from outside: the call arguments, the outcomes of `dlopen`
and `dlsym`, the outcome of compiling and running the embedded script, and the behaviour
of the script module. -/
structure LoadInput (σ : Type) where
  info : List JSValue
  handle : Option Nat
  symbol : Option Module
  script : Option JSValue
  env : HostEnv σ
  state : σ

/-- Models the `Load` callback of the earlier bridge. -/
def Load {σ : Type} (inp : LoadInput σ) : LoadResult :=
  if inp.info.length < 1 || !(argAt inp.info 0).IsString then
    ⟨some "Invalid arguments", false, none, none, false⟩
  else
    match inp.handle with
    | none => ⟨some "Unable to load shared library", false, none, none, false⟩
    | some _ =>
      match inp.symbol with
      | none => ⟨some "Unable to find the symbol \"zig_module\"", false, none, none, false⟩
      | some module =>
        let module1 := { module with table := module.table.assignAll callbackAssignments }
        let r := CallFunction inp.script inp.env inp.state "invokeFactory" [factoryThunk]
        let notObject := match r.value with
          | some result => !result.IsObject
          | none => true
        let thrown := if r.result ≠ Result.OK || notObject then
          some "Unable to import zig module" else none
        ⟨thrown, r.pending, returnValueSet r.value, some module1, false⟩

end Legacy

/-! ## The oldest bridge (src/cc/addon.cc) -/

namespace CC

/-- The assignments `callbacks->... = ...` of `Load`, in program order. -/
def callbackAssignments : List (String × Option String) :=
  [("get_argument_count", some "GetArgumentCount"),
   ("get_argument", some "GetArgument"),
   ("get_argument_type", some "GetArgumentType"),
   ("get_return_type", some "GetReturnType"),
   ("set_return_value", some "SetReturnValue"),
   ("is_null", some "IsNull"),
   ("is_value_type", some "IsValueType"),
   ("get_property", some "GetProperty"),
   ("set_property", some "SetProperty"),
   ("get_array_length", none),
   ("get_array_item", none),
   ("set_array_item", none),
   ("convert_to_bool", some "ConvertToBool"),
   ("convert_to_integer", some "ConvertToInteger"),
   ("convert_to_float", some "ConvertToFloat"),
   ("convert_to_utf8", some "ConvertToUTF8"),
   ("convert_to_utf16", some "ConvertToUTF16"),
   ("convert_to_typed_array", some "ConvertToTypedArray"),
   ("convert_from_bool", some "ConvertFromBool"),
   ("convert_from_integer", some "ConvertFromInteger"),
   ("convert_from_float", some "ConvertFromFloat"),
   ("convert_from_utf8", none),
   ("convert_from_utf16", none),
   ("convert_from_typed_array", none),
   ("throw_exception", some "ThrowException")]

/-- Everything `Load` obtains from outside: the call arguments, the outcomes of `dlopen`
and `dlsym`, and the object `ProcessEntryTable` builds from the module's entry table. -/
structure LoadInput where
  info : List JSValue
  handle : Option Nat
  symbol : Option Module
  entries : Nat

/-- Models the `Load` callback of the oldest bridge. -/
def Load (inp : LoadInput) : LoadResult :=
  if inp.info.length < 1 || !(argAt inp.info 0).IsString then
    ⟨some "Invalid arguments", false, none, none, false⟩
  else
    match inp.handle with
    | none => ⟨some "Unable to load shared library", false, none, none, false⟩
    | some _ =>
      match inp.symbol with
      | none => ⟨some "Unable to find the symbol \"zig_module\"", false, none, none, false⟩
      | some module =>
        let module1 := { module with table := module.table.assignAll callbackAssignments }
        ⟨none, false, returnValueSet (some (JSValue.object inp.entries)), some module1, false⟩

end CC

/-! ## Concrete hosts and inputs used to exercise the bridge -/

/-- The slot tables kept by the host: for each target (an object, or `null` for the
environment's own table) the value stored under each slot id, `undefined` if none. -/
abbrev SlotStore := JSValue → Nat → JSValue

/-- Modelled from the spec: the `readSlot` and `writeSlot` functions of the host
environment object (they live in the embedded script `addon.js.txt`, which is not among the
sources). Following the spec's slot table, `writeSlot(target, slot, value)` stores `value`
under `slot` in the table of `target` and `readSlot(target, slot)` yields what is stored
there. -/
def slotHost : HostEnv SlotStore where
  get := fun _ name =>
    if name = "readSlot" then some (JSValue.function 1)
    else if name = "writeSlot" then some (JSValue.function 2)
    else some JSValue.undefined
  call := fun store f argv =>
    match f, argv with
    | JSValue.function 1, [target, JSValue.number slot] =>
      (some (store target slot.toNat), store)
    | JSValue.function 2, [target, JSValue.number slot, value] =>
      (some JSValue.undefined,
        fun t k => if t = target ∧ k = slot.toNat then value else store t k)
    | _, _ => (none, store)

/-- A host whose every property is the same function, which answers every call with the
value `reply`. -/
def constantHost (reply : JSValue) : HostEnv Unit where
  get := fun _ _ => some (JSValue.function 1)
  call := fun _ _ _ => (some reply, ())

/-- A host environment object without any function-valued property. -/
def emptyHost : HostEnv Unit where
  get := fun _ _ => some JSValue.undefined
  call := fun _ _ _ => (none, ())

/-- A host whose every property is the same function, which throws on every call. -/
def throwingHost : HostEnv Unit where
  get := fun _ _ => some (JSValue.function 1)
  call := fun _ _ _ => (none, ())

/-- A zeroed `Memory` record. -/
def zeroMemory : Memory := ⟨0, 0, ⟨0, false, false⟩⟩

/-- A native module with the given version and an empty function-pointer table. -/
def blankModule (version : Nat) : Module := ⟨version, true, false, fun _ => none⟩

/-- A well-formed input of the current `Load`: a path argument, library, symbol, script
module and `Environment` class all available, a module of the given version, and a host
whose `invokeFactory` answers with an object. -/
def nodeInput (version : Nat) : Node.LoadInput Unit :=
  { info := [JSValue.string "module.so"], handle := some 1, symbol := some (blankModule version),
    script := some (JSValue.object 10), envClass := some (JSValue.function 11),
    envObject := some (JSValue.object 12), env := constantHost (JSValue.object 13), state := () }

/-- An input of the current `Load` like `nodeInput`, except that the environment object has
no function `invokeFactory`. -/
def nodeInputWithoutFactory (version : Nat) : Node.LoadInput Unit :=
  { nodeInput version with env := emptyHost }

/-- A well-formed input of the earlier `Load` with a module of the given version and a
host whose `invokeFactory` answers with `reply`. -/
def legacyInput (version : Nat) (reply : JSValue) : Legacy.LoadInput Unit :=
  { info := [JSValue.string "module.so"], handle := some 1, symbol := some (blankModule version),
    script := some (JSValue.object 10), env := constantHost reply, state := () }

/-- An input of the earlier `Load` like `legacyInput`, except that `invokeFactory` throws. -/
def legacyInputThrowing (version : Nat) : Legacy.LoadInput Unit :=
  { legacyInput version JSValue.undefined with env := throwingHost }

/-- The marker `missing` for an absent size (`MISSING`, defined as `SIZE_MAX`). -/
def missing : Nat := 18446744073709551615

/-- The closed set of structure kinds (`structure_type`), in the order of their codes. -/
inductive StructureType where
  | Primitive
  | Array
  | Struct
  | ArgStruct
  | ExternUnion
  | BareUnion
  | TaggedUnion
  | ErrorUnion
  | ErrorSet
  | Enumeration
  | Optional
  | Pointer
  | Slice
  | Vector
  | Opaque
  | Function
  deriving DecidableEq, Repr

/-- The numeric code of a structure kind. -/
def StructureType.code : StructureType → Nat
  | .Primitive => 0
  | .Array => 1
  | .Struct => 2
  | .ArgStruct => 3
  | .ExternUnion => 4
  | .BareUnion => 5
  | .TaggedUnion => 6
  | .ErrorUnion => 7
  | .ErrorSet => 8
  | .Enumeration => 9
  | .Optional => 10
  | .Pointer => 11
  | .Slice => 12
  | .Vector => 13
  | .Opaque => 14
  | .Function => 15

/-- The member kinds (`member_type`), in the order of their codes; `TypeKind` is the kind
called `Type` in the source. -/
inductive MemberType where
  | Void
  | Bool
  | Int
  | Uint
  | Float
  | Enum
  | Object
  | TypeKind
  | Comptime
  | Static
  | Literal
  deriving DecidableEq, Repr

/-- The numeric code of a member kind. -/
def MemberType.code : MemberType → Nat
  | .Void => 0
  | .Bool => 1
  | .Int => 2
  | .Uint => 3
  | .Float => 4
  | .Enum => 5
  | .Object => 6
  | .TypeKind => 7
  | .Comptime => 8
  | .Static => 9
  | .Literal => 10

/-- The native structure descriptor (`structure`): `name` is `none` for a null pointer;
`length` and `byte_size` are `size_t`, `align` is `uint16_t`. -/
structure Structure where
  name : Option String
  type : StructureType
  length : Nat
  byte_size : Nat
  align : Nat
  is_const : Bool
  has_pointer : Bool
  deriving DecidableEq, Repr

/-- The native member descriptor (`member`): the sizes, the offset and the slot are `size_t`
and hold `missing` when absent; `structureRef` is the field `structure`, an object handle
that may be empty. -/
structure Member where
  name : Option String
  type : MemberType
  is_required : Bool
  is_signed : Bool
  bit_offset : Nat
  bit_size : Nat
  byte_size : Nat
  slot : Nat
  structureRef : Handle
  deriving DecidableEq, Repr

/-- The own properties of a freshly created host object, in insertion order. -/
abbrev Definition := List (String × JSValue)

/-- Models `Object::Set(context, key, value)` on a plain object: replace the property if it
exists, append it otherwise. -/
def Definition.set (d : Definition) (key : String) (value : JSValue) : Definition :=
  if d.any (fun p => p.1 = key) then d.map (fun p => if p.1 = key then (key, value) else p)
  else d ++ [(key, value)]

/-- The value of property `key`, if the object has it. -/
def Definition.get (d : Definition) (key : String) : Option JSValue := d.lookup key

/-- Whether the object has a property `key`. -/
def Definition.has (d : Definition) (key : String) : Bool := d.any (fun p => p.1 = key)

/-- What a structure-builder call leaves behind: its result code, the value stored through
`dest` (if it has one), the host state, and the properties of the definition object it built
and handed to the host. -/
structure BuilderResult (σ : Type) where
  result : Result
  dest : Handle
  state : σ
  definition : Definition

namespace Node

/-- Models `FreeRelocatableMemory(call, memory)`. -/
def FreeRelocatableMemory {σ : Type} (env : HostEnv σ) (s : σ) (memory : Memory) :
    Result × σ :=
  let address := memory.bytes
  let args := [JSValue.bigInt address, JSValue.number (toDouble memory.len),
    JSValue.number memory.attributes.align]
  let r := CallFunction env s "freeRelocatableMemory" args
  if r.result ≠ Result.OK then (Result.Failure, r.state) else (Result.OK, r.state)

/-- Models `BeginStructure(call, structure, dest)`. `defId` is the identity of the object
made by `Object::New`, `options` the module's option object (`md->js_options`). -/
def BeginStructure {σ : Type} (env : HostEnv σ) (s : σ) (defId : Nat) (options : JSValue)
    (structure_ : Structure) (dest : Handle) : BuilderResult σ :=
  let type := JSValue.number (toInt32 structure_.type.code)
  let length := JSValue.number (toUint32 structure_.length)
  let byte_size := JSValue.number (toUint32 structure_.byte_size)
  let align := JSValue.number (toUint32 structure_.align)
  let is_const := JSValue.boolean structure_.is_const
  let has_pointer := JSValue.boolean structure_.has_pointer
  let def0 : Definition := []
  let def1 := def0.set "type" type
  let def2 :=
    if structure_.type = StructureType.Array ∨ structure_.type = StructureType.Vector then
      def1.set "length" length
    else def1
  let def3 := def2.set "byteSize" byte_size
  let def4 := def3.set "align" align
  let def5 := def4.set "isConst" is_const
  let def6 := def5.set "hasPointer" has_pointer
  let def7 :=
    match structure_.name with
    | some name => def6.set "name" (JSValue.string name)
    | none => def6
  let args := [JSValue.object defId, options]
  let r := CallFunction env s "beginStructure" args
  if r.result ≠ Result.OK then ⟨Result.Failure, dest, r.state, def7⟩
  else
    match r.value with
    | some v =>
      if v.IsObject then ⟨Result.OK, some v, r.state, def7⟩
      else ⟨Result.Failure, dest, r.state, def7⟩
    | none => ⟨Result.Failure, dest, r.state, def7⟩

/-- Models `AttachMember(call, structure, member, is_static)`. `defId` is the identity of the
object made by `Object::New`. -/
def AttachMember {σ : Type} (env : HostEnv σ) (s : σ) (defId : Nat) (structure_ : JSValue)
    (member : Member) (is_static : Bool) : BuilderResult σ :=
  let type := JSValue.number (toInt32 member.type.code)
  let is_required := JSValue.boolean member.is_required
  let def0 : Definition := []
  let def1 := def0.set "type" type
  let def2 := def1.set "isRequired" is_required
  let def3 :=
    if member.bit_size ≠ missing then
      def2.set "bitSize" (JSValue.number (toUint32 member.bit_size))
    else def2
  let def4 :=
    if member.bit_offset ≠ missing then
      def3.set "bitOffset" (JSValue.number (toUint32 member.bit_offset))
    else def3
  let def5 :=
    if member.byte_size ≠ missing then
      def4.set "byteSize" (JSValue.number (toUint32 member.byte_size))
    else def4
  let def6 :=
    if member.slot ≠ missing then def5.set "slot" (JSValue.number (toUint32 member.slot))
    else def5
  let def7 :=
    match member.structureRef with
    | some ref => def6.set "structure" ref
    | none => def6
  let def8 :=
    match member.name with
    | some name => def7.set "name" (JSValue.string name)
    | none => def7
  let args := [structure_, JSValue.object defId, JSValue.boolean is_static]
  let r := CallFunction env s "attachMember" args
  ⟨r.result, none, r.state, def8⟩

/-- Models `FinalizeStructure(call, structure)`. -/
def FinalizeStructure {σ : Type} (env : HostEnv σ) (s : σ) (structure_ : JSValue) :
    CallFunctionResult σ :=
  let args := [structure_]
  CallFunction env s "finalizeStructure" args

end Node

/-- A structure descriptor of four bytes with the given kind and name. -/
def sampleStructure (type : StructureType) (name : Option String) : Structure :=
  ⟨name, type, 3, 4, 4, false, false⟩

/-- A member descriptor of the given kind in which every size, the offset and the slot are
missing and which has neither a structure nor a name. -/
def bareMember (type : MemberType) : Member :=
  ⟨none, type, true, false, missing, missing, missing, missing, none⟩

/-! ## Thunks and raw copies (node-zigar-addon/src/addon.cc) -/

/-- The null pointer. -/
def nullptr : Nat := 0

/-- A native thunk: called with the raw memory and the argument pointer, it leaves the
memory as it wishes and yields a result handle. -/
abbrev Thunk := AddressSpace → Nat → AddressSpace × Handle

/-- What a call of a bridged function leaves behind: the argument pointer the thunk was
given, the raw memory afterwards, and the value handed to `GetReturnValue().Set`, if any. -/
structure ThunkCall where
  arg_ptr : Nat
  memory : AddressSpace
  returnValue : Option JSValue

/-- Models `memcpy(dst, src, n)`: the `n` bytes at `dst` become the `n` bytes that were at
`src` before the call and every other byte is kept. (For overlapping ranges C leaves the
result undefined; the source bytes are taken as they were before the call.) -/
def memcpy (mem : AddressSpace) (dst src : Int) (n : Nat) : AddressSpace :=
  fun p => if dst ≤ p ∧ p < dst + n then mem (src + (p - dst)) else mem p

namespace Node

/-- Models the callback of the function made by `CreateThunk(isolate, fd)`, where `thunk`
is `fd->thunk`. -/
def thunkCallback (thunk : Thunk) (mem : AddressSpace) (info : List JSValue) : ThunkCall :=
  let arg_ptr :=
    match argAt info 0 with
    | JSValue.dataView data byteOffset byteLength =>
      if byteLength > 0 then data + byteOffset else nullptr
    | _ => nullptr
  let out := thunk mem arg_ptr
  match out.2 with
  | some result => ⟨arg_ptr, out.1, some result⟩
  | none => ⟨arg_ptr, out.1, none⟩

/-- Models the `copyBytes` callback installed by `OverrideEnvironmentFunctions`; the second
component is the raw memory afterwards. The length is a `double`: the view's byte length is
converted to `double` for the comparison and the length back to `size_t` for the copy. -/
def copyBytes (mem : AddressSpace) (info : List JSValue) : CallbackResult × AddressSpace :=
  match argAt info 0 with
  | JSValue.dataView data byteOffset byteLength =>
    match argAt info 1 with
    | JSValue.bigInt a =>
      match argAt info 2 with
      | JSValue.number len =>
        if toDouble byteLength ≠ len then (⟨some "Length mismatch", none⟩, mem)
        else
          let address : Int := toUint64 a
          let dst_bytes : Int := (data : Int) + byteOffset
          (⟨none, none⟩, memcpy mem dst_bytes address len.toNat)
      | _ => (⟨some "Length must be number", none⟩, mem)
    | _ => (⟨some "Address must be bigInt", none⟩, mem)
  | _ => (⟨some "Destination must be DataView", none⟩, mem)

end Node

/-- A thunk that stores the byte 7 at offset 2 of its argument region, if it is given one. -/
def storingThunk : Thunk := fun mem arg_ptr =>
  (fun p => if arg_ptr ≠ nullptr ∧ p = (arg_ptr : Int) + 2 then 7 else mem p, none)

/-! ## Shared views and the lifetime of a module -/

/-- Modelled from the spec: the record `ExternalMemoryData`, whose declaration is not among
the sources (they only construct it from the module data and delete it again). Following the
spec, from its construction to its deletion a record holds one strong reference to the
module data of the owning module; `id` is the address of the record. -/
structure ExternalMemoryData where
  id : Nat
  module_data : Nat
  deriving DecidableEq, Repr

/-- A backing store made by `SharedArrayBuffer::NewBackingStore(data, len, deleter,
deleter_data)` over a native range. -/
structure SharedStore where
  data : Nat
  len : Nat
  deleter_data : Nat
  deriving DecidableEq, Repr

/-- The part of the process state the shared views act on: the `ExternalMemoryData` records
constructed and not yet deleted, the shared backing stores not yet released, the address the
next `new` yields, the modules whose library has been unloaded, and the native ranges that
have been freed. -/
structure SharedHeap where
  records : List ExternalMemoryData
  stores : List SharedStore
  next : Nat
  unloaded : List Nat
  freed : List (Nat × Nat)
  deriving DecidableEq, Repr

/-- The state of a process that has created no shared view yet. -/
def SharedHeap.initial : SharedHeap := ⟨[], [], 1, [], []⟩

/-- Models the deleter both bridges pass to `NewBackingStore`:
`[](void*, size_t, void* deleter_data) { delete reinterpret_cast<ExternalMemoryData*>(deleter_data); }`. -/
def sharedDeleter (heap : SharedHeap) (_data : Nat) (_len : Nat) (deleter_data : Nat) :
    SharedHeap :=
  { heap with records := heap.records.filter (fun r => r.id ≠ deleter_data) }

/-- Models `CreateSharedView(isolate, src_bytes, len, module_data)` of the current bridge:
the view made and the state afterwards. -/
def Node.CreateSharedView (heap : SharedHeap) (src_bytes : Nat) (len : Nat)
    (module_data : Nat) : JSValue × SharedHeap :=
  let emd : ExternalMemoryData := ⟨heap.next, module_data⟩
  let store : SharedStore := ⟨src_bytes, len, emd.id⟩
  (JSValue.dataView store.data 0 len,
    { heap with records := emd :: heap.records, stores := store :: heap.stores,
                next := heap.next + 1 })

/-- The `Memory` record of the earlier bridge: start address and length. -/
structure Legacy.Memory where
  bytes : Nat
  len : Nat
  deriving DecidableEq, Repr

/-- Models `CreateSharedBuffer(call, memory, dest)` of the earlier bridge, where
`module_data` is `call->function_data->module_data`: the result code, the backing store of
the buffer stored through `dest`, and the state afterwards. -/
def Legacy.CreateSharedBuffer (heap : SharedHeap) (module_data : Nat) (memory : Legacy.Memory) :
    Result × SharedStore × SharedHeap :=
  let emd : ExternalMemoryData := ⟨heap.next, module_data⟩
  let store : SharedStore := ⟨memory.bytes, memory.len, emd.id⟩
  (Result.OK, store,
    { heap with records := emd :: heap.records, stores := store :: heap.stores,
                next := heap.next + 1 })

/-- Modelled from the spec: what the host engine does when the shared buffer over the store
with deleter data `deleter_data` is collected. It releases that backing store, which runs
the store's deleter; nothing happens if no such store is alive. -/
def releaseStore (heap : SharedHeap) (deleter_data : Nat) : SharedHeap :=
  match heap.stores.find? (fun st => st.deleter_data = deleter_data) with
  | some store =>
    sharedDeleter
      { heap with stores := heap.stores.filter (fun st => st.deleter_data ≠ deleter_data) }
      store.data store.len store.deleter_data
  | none => heap

/-- Modelled from the spec: an attempt to unload a module. Following the spec, the module is
unloaded only when no strong reference to its module data is left. -/
def unloadModule (heap : SharedHeap) (module_data : Nat) : SharedHeap :=
  if heap.records.any (fun r => r.module_data = module_data) then heap
  else { heap with unloaded := module_data :: heap.unloaded }

/-- The events that act on the shared views of a process. -/
inductive HeapEvent where
  | createView (src_bytes : Nat) (len : Nat) (module_data : Nat)
  | createBuffer (module_data : Nat) (memory : Legacy.Memory)
  | release (deleter_data : Nat)
  | unload (module_data : Nat)
  deriving DecidableEq, Repr

/-- One event. A view can be created only over a module that is still loaded: the caller
holds a handle to its module data. -/
def SharedHeap.step (heap : SharedHeap) : HeapEvent → SharedHeap
  | HeapEvent.createView src_bytes len module_data =>
    if module_data ∈ heap.unloaded then heap
    else (Node.CreateSharedView heap src_bytes len module_data).2
  | HeapEvent.createBuffer module_data memory =>
    if module_data ∈ heap.unloaded then heap
    else (Legacy.CreateSharedBuffer heap module_data memory).2.2
  | HeapEvent.release deleter_data => releaseStore heap deleter_data
  | HeapEvent.unload module_data => unloadModule heap module_data

/-- The state after a sequence of events, from the initial state. -/
def SharedHeap.run (events : List HeapEvent) : SharedHeap :=
  events.foldl SharedHeap.step SharedHeap.initial

/-- The invariant of the shared views: the live stores and the live records correspond one
to one, in order; record addresses are below the next fresh address and pairwise distinct; no
live record refers to an unloaded module; no native range has been freed. -/
def SharedHeap.Inv (heap : SharedHeap) : Prop :=
  heap.stores.map (fun st => st.deleter_data) = heap.records.map (fun r => r.id) ∧
  (∀ r ∈ heap.records, r.id < heap.next) ∧
  (heap.records.map (fun r => r.id)).Nodup ∧
  (∀ r ∈ heap.records, r.module_data ∉ heap.unloaded) ∧
  heap.freed = []

/-! ## Value conversions and the memory pool of the oldest bridge (src/cc/addon.cc) -/

/-- The constant `INT64_MIN`. -/
def INT64_MIN : Int := -9223372036854775808

/-- The constant `INT64_MAX`. -/
def INT64_MAX : Int := 9223372036854775807

/-- The constant `INT32_MIN`. -/
def INT32_MIN : Int := -2147483648

/-- Modelled from the spec: the macro `MAX_SAFE_INTEGER`, whose definition is not among the
sources; the upper end of the safe-integer range of host numbers, `2^53 - 1`. -/
def MAX_SAFE_INTEGER : Int := 9007199254740991

/-- Modelled from the spec: the macro `MIN_SAFE_INTEGER`, whose definition is not among the
sources; the lower end of the safe-integer range of host numbers, `-(2^53 - 1)`. -/
def MIN_SAFE_INTEGER : Int := -9007199254740991

/-- Conversion of an integer to `int64_t` (two's complement wrap-around), as done by
`BigInt::Int64Value`. -/
def toInt64 (x : Int) : Int :=
  (x + 9223372036854775808) % 18446744073709551616 - 9223372036854775808

/-- Models `static_cast<int64_t>(d)` for an integer-valued `double` `d`: the value itself when
it fits. (Out of range C++ leaves the result undefined; the result of the x86-64 conversion
instruction, `INT64_MIN`, is taken.) -/
def doubleToInt64 (d : Int) : Int :=
  if INT64_MIN ≤ d ∧ d ≤ INT64_MAX then d else INT64_MIN

/-- Conversion of an `int64_t` to `double` (round to nearest, ties to even), as performed when
an integer is handed to `Number::New`. -/
def int64ToDouble (v : Int) : Int :=
  if 0 ≤ v then toDouble v.toNat else -toDouble (-v).toNat

/-- Models `Value::IsNumber`. -/
def JSValue.IsNumber : JSValue → Bool
  | JSValue.number _ => true
  | _ => false

/-- Models `Value::IsInt32`: a number whose value is an integer of the 32-bit range. -/
def JSValue.IsInt32 : JSValue → Bool
  | JSValue.number n => decide (INT32_MIN ≤ n ∧ n ≤ INT32_MAX)
  | _ => false

/-- Models `Value::IsArrayBuffer`. -/
def JSValue.IsArrayBuffer : JSValue → Bool
  | JSValue.arrayBuffer _ _ => true
  | _ => false

/-- Models `Value::IsTypedArray`. -/
def JSValue.IsTypedArray : JSValue → Bool
  | JSValue.typedArray _ _ _ _ => true
  | _ => false

/-- A `double` as far as the conversions tell them apart: a finite integer value, or a value
that is not finite. -/
inductive Double where
  | finite (value : Int)
  | notFinite
  deriving DecidableEq, Repr

/-- Number of UTF-16 code units of a string (`String::Length`). -/
def utf16Length (s : String) : Nat :=
  (s.toList.map (fun c => if c.toNat < 65536 then 1 else 2)).sum

/-- Number of bytes of the UTF-8 encoding of a string. -/
def utf8Length (s : String) : Nat :=
  (s.toList.map (fun c =>
    if c.toNat < 128 then 1 else if c.toNat < 2048 then 2 else if c.toNat < 65536 then 3
    else 4)).sum

/-- Models `Array::Set(context, index, value)` on a host array: store at `index`, growing
the array (with `undefined` in between) when `index` is past the end. -/
def arraySet (a : List JSValue) (index : Nat) (value : JSValue) : List JSValue :=
  if index < a.length then a.set index value
  else a ++ List.replicate (index - a.length) JSValue.undefined ++ [value]

namespace CC

/-- The result codes of the oldest bridge, as far as the sources name them. -/
inductive Result where
  | ok
  | eGeneric
  | eOverflow
  deriving DecidableEq, Repr

/-- The element types of a `TypedArray` record, as far as the sources name them. -/
inductive ElementType where
  | u8
  deriving DecidableEq, Repr

/-- The `TypedArray` record: element type, start address and length in bytes. -/
structure TypedArray where
  type : ElementType
  bytes : Nat
  len : Nat
  deriving DecidableEq, Repr

/-- Models `GetMemory(arBuf)` for a buffer whose backing store starts at `data` and is
`byteLength` bytes long. -/
def GetMemory (data : Nat) (byteLength : Nat) : TypedArray :=
  ⟨ElementType.u8, data, byteLength⟩

/-- Models `AllocateMemory(call, size, dest)`. `mem_pool` is the field `call->mem_pool`
(`none`: the empty handle) and `data` the address of the backing store of the buffer
`ArrayBuffer::New` makes; the result is the result code, `*dest` and the pool afterwards. -/
def AllocateMemory (mem_pool : Option (List JSValue)) (data : Nat) (size : Nat) :
    Result × TypedArray × Option (List JSValue) :=
  let pool :=
    match mem_pool with
    | none => []
    | some p => p
  let buffer := JSValue.arrayBuffer data size
  let index := pool.length
  let pool1 := arraySet pool index buffer
  (Result.ok, GetMemory data size, some pool1)

/-- Models `ConvertToInteger(call, value, dest)`; the second component is `*dest`
afterwards. -/
def ConvertToInteger (value : JSValue) (dest : Int) : Result × Int :=
  if value.IsInt32 then
    match value with
    | JSValue.number n => (Result.ok, n)
    | _ => (Result.ok, dest)
  else if value.IsNumber then
    match value with
    | JSValue.number fvalue => (Result.ok, doubleToInt64 fvalue)
    | _ => (Result.ok, dest)
  else if value.IsBigInt then
    match value with
    | JSValue.bigInt n =>
      let lossless := decide (INT64_MIN ≤ n ∧ n ≤ INT64_MAX)
      let ivalue := toInt64 n
      if !lossless then (Result.eOverflow, dest) else (Result.ok, ivalue)
    | _ => (Result.ok, dest)
  else (Result.eGeneric, dest)

/-- Models `ConvertFromInteger(call, value, dest)` for an `int64_t` `value`; the second
component is `*dest` afterwards. -/
def ConvertFromInteger (value : Int) : Result × JSValue :=
  if INT32_MIN ≤ value ∧ value ≤ INT32_MAX then (Result.ok, JSValue.number value)
  else if MIN_SAFE_INTEGER ≤ value ∧ value ≤ MAX_SAFE_INTEGER then
    (Result.ok, JSValue.number (int64ToDouble value))
  else (Result.ok, JSValue.bigInt value)

/-- Models `ConvertToFloat(call, value, dest)`; the second component is `*dest` afterwards.
`toNumber` is the engine's conversion of a BigInt to a number (`none`: it threw). -/
def ConvertToFloat (toNumber : Int → Option Double) (value : JSValue) (dest : Double) :
    Result × Double :=
  match value with
  | JSValue.number n => (Result.ok, Double.finite n)
  | JSValue.bigInt n =>
    match toNumber n with
    | none => (Result.eGeneric, dest)
    | some Double.notFinite => (Result.eOverflow, dest)
    | some (Double.finite fvalue) => (Result.ok, Double.finite fvalue)
  | _ => (Result.ok, dest)

/-- What `ConvertToUTF8` leaves behind: the result code, `*dest`, the memory pool, and the
number of bytes `String::WriteUtf8` has written from `dest->bytes` on. -/
structure Utf8Result where
  result : Result
  dest : TypedArray
  mem_pool : Option (List JSValue)
  written : Nat
  deriving DecidableEq, Repr

/-- Models `ConvertToUTF8(call, value, dest)`. `toStringOf` is the engine's conversion of a
value that is not a string (`none`: it threw); `data` is the address of the buffer
`AllocateMemory` makes. `WriteUtf8`, called without a capacity, writes the whole UTF-8
encoding and a terminating zero byte. -/
def ConvertToUTF8 (toStringOf : JSValue → Option String) (mem_pool : Option (List JSValue))
    (data : Nat) (value : JSValue) (dest : TypedArray) : Utf8Result :=
  let string :=
    match value with
    | JSValue.string s => some s
    | _ => toStringOf value
  match string with
  | none => ⟨Result.eGeneric, dest, mem_pool, 0⟩
  | some s =>
    let len := utf16Length s
    let r := AllocateMemory mem_pool data ((len + 1) * 1)
    if r.1 ≠ Result.ok then ⟨Result.eGeneric, r.2.1, r.2.2, 0⟩
    else ⟨Result.ok, r.2.1, r.2.2, utf8Length s + 1⟩

/-- Models `ConvertToTypedArray(call, value, dest)`; the second component is `*dest`
afterwards. -/
def ConvertToTypedArray (value : JSValue) (dest : TypedArray) : Result × TypedArray :=
  match value with
  | JSValue.arrayBuffer data byteLength => (Result.ok, GetMemory data byteLength)
  | JSValue.typedArray data bufferLength byteOffset _ =>
    let offset := byteOffset
    let dest1 := GetMemory data bufferLength
    if offset > 0 then
      (Result.ok, { dest1 with bytes := dest1.bytes + offset, len := dest1.len - offset })
    else (Result.ok, dest1)
  | _ => (Result.eGeneric, dest)

end CC

/-- Models `AllocateMemory(call, size, dest)` of the earlier bridge (src/addon.cc).
`mem_pool` is the field `call->mem_pool` (`none`: the empty handle) and `data` the address
of the backing store of the buffer `ArrayBuffer::New` makes; the result is the result code,
`*dest` and the pool afterwards. -/
def Legacy.AllocateMemory (mem_pool : Option (List JSValue)) (data : Nat) (size : Nat) :
    Result × Legacy.Memory × Option (List JSValue) :=
  let pool :=
    match mem_pool with
    | none => []
    | some p => p
  let buffer := JSValue.arrayBuffer data size
  let index := pool.length
  let pool1 := arraySet pool index buffer
  (Result.OK, ⟨data, size⟩, some pool1)

/-- The pool after a sequence of `AllocateMemory` calls of the earlier bridge in one call
context, each request given as the address of its buffer and its size. -/
def Legacy.allocateAll (mem_pool : Option (List JSValue)) (requests : List (Nat × Nat)) :
    Option (List JSValue) :=
  requests.foldl (fun pool r => (Legacy.AllocateMemory pool r.1 r.2).2.2) mem_pool

/-- The pool after a sequence of `AllocateMemory` calls of the oldest bridge in one call
context, each request given as the address of its buffer and its size. -/
def CC.allocateAll (mem_pool : Option (List JSValue)) (requests : List (Nat × Nat)) :
    Option (List JSValue) :=
  requests.foldl (fun pool r => (CC.AllocateMemory pool r.1 r.2).2.2) mem_pool

/-! ## Live-object counters and `GetGCStatistics` (src/addon.h, src/addon.cc) -/

/-- The static counters `AddonData::script_count`, `ModuleData::count`,
`FunctionData::count` and `ExternalMemoryData::count`, all of type `int`. -/
structure Counters where
  script_count : Int
  ModuleData_count : Int
  FunctionData_count : Int
  ExternalMemoryData_count : Int
  deriving DecidableEq, Repr

/-- The program start: `int ModuleData::count = 0;` and so on. -/
def Counters.initial : Counters := ⟨0, 0, 0, 0⟩

/-- Construction and destruction of the counted objects, each object known by its
identity. -/
inductive ObjectEvent where
  | newModuleData
  | deleteModuleData (object : Nat)
  | newFunctionData
  | deleteFunctionData (object : Nat)
  deriving DecidableEq, Repr

/-- The effect of the constructor `ModuleData(isolate, so_handle)` on the counters:
`count++`. -/
def constructModuleData (c : Counters) : Counters :=
  { c with ModuleData_count := toInt32 (c.ModuleData_count + 1) }

/-- The effect of the destructor `~ModuleData()` on the counters: `count--`. -/
def destroyModuleData (c : Counters) : Counters :=
  { c with ModuleData_count := toInt32 (c.ModuleData_count - 1) }

/-- The effect of the constructor `FunctionData(isolate, thunk, module_data)` on the
counters: `count++`. -/
def constructFunctionData (c : Counters) : Counters :=
  { c with FunctionData_count := toInt32 (c.FunctionData_count + 1) }

/-- The effect of the destructor `~FunctionData()` on the counters: `count--`. -/
def destroyFunctionData (c : Counters) : Counters :=
  { c with FunctionData_count := toInt32 (c.FunctionData_count - 1) }

/-- The effect of one construction or destruction on the counters: the constructor or
destructor of the class runs. -/
def Counters.step (c : Counters) : ObjectEvent → Counters
  | ObjectEvent.newModuleData => constructModuleData c
  | ObjectEvent.deleteModuleData _ => destroyModuleData c
  | ObjectEvent.newFunctionData => constructFunctionData c
  | ObjectEvent.deleteFunctionData _ => destroyFunctionData c

/-- The counters after a sequence of constructions and destructions, from the program
start. -/
def Counters.run (events : List ObjectEvent) : Counters :=
  events.foldl Counters.step Counters.initial

/-- Models `GetGCStatistics`: the `stats` object handed to the return value. The helper
`set(name, count)` stores `Int32::NewFromUnsigned(isolate, count)`, which takes its argument
as `uint32_t`. -/
def GetGCStatistics (c : Counters) : Definition :=
  let set := fun (stats : Definition) (name : String) (count : Int) =>
    stats.set name (JSValue.number (toUint32 count))
  let stats : Definition := []
  let stats := set stats "scripts" c.script_count
  let stats := set stats "modules" c.ModuleData_count
  let stats := set stats "functions" c.FunctionData_count
  let stats := set stats "buffers" c.ExternalMemoryData_count
  stats

/-- The claim's measure, written from its words and not from the counters: the `ModuleData`
and `FunctionData` objects constructed and not yet destroyed, by identity; `next` is the
identity the next constructed object gets. -/
structure LiveObjects where
  modules : List Nat
  functions : List Nat
  next : Nat
  deriving DecidableEq, Repr

/-- No object has been constructed. -/
def LiveObjects.initial : LiveObjects := ⟨[], [], 1⟩

/-- A construction adds a new object to the live objects of its class, a destruction takes
the object away. -/
def LiveObjects.step (l : LiveObjects) : ObjectEvent → LiveObjects
  | ObjectEvent.newModuleData => ⟨l.next :: l.modules, l.functions, l.next + 1⟩
  | ObjectEvent.deleteModuleData object => ⟨l.modules.erase object, l.functions, l.next⟩
  | ObjectEvent.newFunctionData => ⟨l.modules, l.next :: l.functions, l.next + 1⟩
  | ObjectEvent.deleteFunctionData object => ⟨l.modules, l.functions.erase object, l.next⟩

/-- The objects constructed and not yet destroyed after a sequence of events. -/
def liveObjects (events : List ObjectEvent) : LiveObjects :=
  events.foldl LiveObjects.step LiveObjects.initial

/-- Whether a sequence of events, started with the live objects `l`, is one a program can
perform: every destruction is that of an object of the class that has been constructed and
not yet destroyed (a destructor runs once, on a constructed object). -/
def reachableFrom (l : LiveObjects) : List ObjectEvent → Bool
  | [] => true
  | e :: es =>
    (match e with
      | ObjectEvent.deleteModuleData object => decide (object ∈ l.modules)
      | ObjectEvent.deleteFunctionData object => decide (object ∈ l.functions)
      | _ => true) && reachableFrom (l.step e) es

/-- Whether a sequence of events from the program start is one a program can perform. -/
def reachable (events : List ObjectEvent) : Bool := reachableFrom LiveObjects.initial events

/-! ## The effects of `Load` (node-zigar-addon/src/addon.cc) -/

/-- The effects `Load` of the current bridge has on the native module and on the objects of
the bridge, one constructor per kind of statement. -/
inductive LoadStep where
  | throwError (message : String)
  | assignExport (field : String) (value : Option String)
  | newModuleData
  | overrideEnvironmentFunctions
  | newFunctionData
  | createThunk
  | constructEnvironment
  | callFunction (name : String)
  | setReturnValue
  deriving DecidableEq, Repr

/-- The effects of the `Load` callback of the current bridge, in program order: the errors
thrown by `Load` itself, the assignments `exports->... = ...`, `new ModuleData`,
`OverrideEnvironmentFunctions`, `new FunctionData`, `CreateThunk`, the construction of the
environment object, the call of `invokeFactory` and `GetReturnValue().Set`. -/
def Node.LoadSteps {σ : Type} (inp : Node.LoadInput σ) : List LoadStep :=
  if inp.info.length < 1 || !(argAt inp.info 0).IsString then
    [LoadStep.throwError "Invalid arguments"]
  else
    match inp.handle with
    | none => [LoadStep.throwError "Unable to load shared library"]
    | some _ =>
      match inp.symbol with
      | none => [LoadStep.throwError "Unable to find the symbol \"zig_module\""]
      | some module =>
        if !(match inp.script with
            | some result => result.IsObject
            | none => false) then
          [LoadStep.throwError "Unable to compile embedded JavaScript"]
        else if !(match inp.envClass with
            | some result => result.IsObject
            | none => false) then
          [LoadStep.throwError "Unable to find the class \"Environment\""]
        else if module.version ≠ 2 then
          [LoadStep.throwError Node.versionMismatch]
        else
          let steps := Node.exportAssignments.map (fun p => LoadStep.assignExport p.1 p.2)
            ++ [LoadStep.newModuleData, LoadStep.overrideEnvironmentFunctions,
                LoadStep.newFunctionData, LoadStep.createThunk, LoadStep.constructEnvironment]
          match inp.envObject with
          | none => steps
          | some _ =>
            let r := Node.CallFunction inp.env inp.state "invokeFactory" [factoryThunk]
            if r.result ≠ Result.OK then steps ++ [LoadStep.callFunction "invokeFactory"]
            else steps ++ [LoadStep.callFunction "invokeFactory", LoadStep.setReturnValue]

/-! ## Memories used to exercise the scan of `findSentinel` -/

/-- Memory holding the two-byte sentinel `0, 0` at addresses `1` and `2`; every other byte
is `1`. -/
def plainMemory : AddressSpace := fun p => if p = 1 ∨ p = 2 then 0 else 1

/-- Memory holding the two-byte sentinel `0, 0` at addresses `1` and `2` and the same two
bytes at addresses `2147483648` and `2147483649`; every other byte is `1`. -/
def wrappedMemory : AddressSpace := fun p =>
  if p = 1 ∨ p = 2 ∨ p = 2147483648 ∨ p = 2147483649 then 0 else 1

/-! ## The host allocator and the host structure builder (embedded script) -/

/-- Modelled from the spec: the largest size the host can satisfy, the buffer limit of the
host (a buffer or view holds at most `2^53 - 1` bytes). -/
def hostBufferLimit : Nat := 9007199254740991

/-- Modelled from the spec: a relocatable region as the host allocator keeps it, the triple
(address, size, align). -/
structure Region where
  address : Nat
  size : Nat
  align : Nat
  deriving DecidableEq, Repr

/-- Modelled from the spec: the state of the host allocator, which is the address at which
the engine places the next buffer and the regions allocated and not yet freed. -/
structure AllocatorState where
  next : Nat
  regions : List Region
  deriving DecidableEq, Repr

/-- Modelled from the spec: the functions `allocateRelocatableMemory` and
`freeRelocatableMemory` of the host environment object (they live in the embedded script
`addon.js.txt`, which is not among the sources). Following the spec,
`allocate_relocatable(size, align)` fails when the size or the alignment is unsatisfiable
and otherwise yields a view of exactly `size` bytes whose first byte lies at a multiple of
`align` (the view starts at the first such address of a fresh buffer);
`free_relocatable` takes the exact triple originally returned and fails on any other. -/
def allocatorHost : HostEnv AllocatorState where
  get := fun _ name =>
    if name = "allocateRelocatableMemory" then some (JSValue.function 1)
    else if name = "freeRelocatableMemory" then some (JSValue.function 2)
    else some JSValue.undefined
  call := fun st f argv =>
    match f, argv with
    | JSValue.function 1, [JSValue.number len, JSValue.number align] =>
      if 0 ≤ len ∧ len ≤ (hostBufferLimit : Int) ∧ 0 < align then
        let byteOffset := (align.toNat - st.next % align.toNat) % align.toNat
        (some (JSValue.dataView st.next byteOffset len.toNat),
          { next := st.next + byteOffset + len.toNat,
            regions := ⟨st.next + byteOffset, len.toNat, align.toNat⟩ :: st.regions })
      else (none, st)
    | JSValue.function 2, [JSValue.bigInt address, JSValue.number len, JSValue.number align] =>
      if (⟨address.toNat, len.toNat, align.toNat⟩ : Region) ∈ st.regions then
        (some JSValue.undefined,
          { st with regions := st.regions.erase ⟨address.toNat, len.toNat, align.toNat⟩ })
      else (none, st)
    | _, _ => (none, st)

/-- Modelled from the spec: the state of the host structure builder, which is the properties
of the plain objects the bridge has created (by identity), the structures begun (identity and descriptor), the members
attached (structure and member definition, in order), the structures finalized, the identity
of the next structure, and the error the host raised last. -/
structure BuilderState where
  objects : List (Nat × Definition)
  begun : List (Nat × Definition)
  members : List (Nat × Definition)
  finalized : List Nat
  next : Nat
  error : Option String
  deriving DecidableEq, Repr

/-- Modelled from the spec: the member kinds that require a slot (Object, Type and
Comptime), their value being resolved through the slot table. -/
def slotKinds : List MemberType := [MemberType.Object, MemberType.TypeKind, MemberType.Comptime]

/-- Modelled from the spec: whether a member definition is of a kind that requires a
slot. -/
def requiresSlot (d : Definition) : Bool :=
  slotKinds.any (fun k => d.get "type" = some (JSValue.number k.code))

/-- Modelled from the spec: `beginStructure` of the host (embedded script, not among the
sources). The descriptor must supply kind, size and alignment; the structure enters the
state Begun. -/
def hostBeginStructure (st : BuilderState) (defId : Nat) : Option JSValue × BuilderState :=
  let d := (st.objects.lookup defId).getD []
  if d.has "type" && d.has "byteSize" && d.has "align" then
    (some (JSValue.object st.next),
      { st with begun := (st.next, d) :: st.begun, next := st.next + 1 })
  else (none, { st with error := some "ProtocolError" })

/-- Modelled from the spec: `attachMember` of the host (embedded script, not among the
sources). Attaching to something that is not a begun structure is a protocol violation;
attaching after Finalized is reported as `AlreadyFinalized`; a member whose kind is Object,
Type or Comptime requires a slot, and a member definition lacking a required field aborts;
otherwise the member is attached. -/
def hostAttachMember (st : BuilderState) (structure_ : Nat) (defId : Nat) :
    Option JSValue × BuilderState :=
  let d := (st.objects.lookup defId).getD []
  if !(st.begun.any (fun b => b.1 = structure_)) then
    (none, { st with error := some "ProtocolError" })
  else if structure_ ∈ st.finalized then
    (none, { st with error := some "AlreadyFinalized" })
  else if requiresSlot d && !d.has "slot" then
    (none, { st with error := some "ProtocolError" })
  else (some JSValue.undefined, { st with members := st.members ++ [(structure_, d)] })

/-- Modelled from the spec: `finalizeStructure` of the host (embedded script, not among the
sources). A begun structure that is not yet finalized enters the terminal state Finalized;
any other call is out of sequence. -/
def hostFinalizeStructure (st : BuilderState) (structure_ : Nat) :
    Option JSValue × BuilderState :=
  if !(st.begun.any (fun b => b.1 = structure_)) then
    (none, { st with error := some "ProtocolError" })
  else if structure_ ∈ st.finalized then
    (none, { st with error := some "ProtocolError" })
  else (some JSValue.undefined, { st with finalized := structure_ :: st.finalized })

/-- Modelled from the spec: the structure-builder functions of the host environment object,
dispatched by name (embedded script `addon.js.txt`, not among the sources). -/
def builderHost : HostEnv BuilderState where
  get := fun _ name =>
    if name = "beginStructure" then some (JSValue.function 1)
    else if name = "attachMember" then some (JSValue.function 2)
    else if name = "finalizeStructure" then some (JSValue.function 3)
    else some JSValue.undefined
  call := fun st f argv =>
    match f, argv with
    | JSValue.function 1, [JSValue.object defId, _] => hostBeginStructure st defId
    | JSValue.function 2, [JSValue.object structure_, JSValue.object defId, JSValue.boolean _] =>
      hostAttachMember st structure_ defId
    | JSValue.function 3, [JSValue.object structure_] => hostFinalizeStructure st structure_
    | _, _ => (none, { st with error := some "ProtocolError" })

/-- The host state after the bridge has created the plain object `defId` with the
properties `d` (`Object::New` followed by `Set` for each property). -/
def BuilderState.withObject (st : BuilderState) (defId : Nat) (d : Definition) : BuilderState :=
  { st with objects := (defId, d) :: st.objects }

/-- What happens to the host state between two calls of the bridge: the bridge creates a
plain object (`Object::New` followed by `Set` for each property), or it calls a function of
the host. -/
inductive BuilderStep where
  | newObject (id : Nat) (d : Definition)
  | call (f : JSValue) (argv : List JSValue)
  deriving DecidableEq, Repr

/-- One step on the host state. -/
def BuilderState.step (st : BuilderState) : BuilderStep → BuilderState
  | BuilderStep.newObject id d => st.withObject id d
  | BuilderStep.call f argv => (builderHost.call st f argv).2

/-- The host state after a sequence of steps. -/
def BuilderState.after (st : BuilderState) (steps : List BuilderStep) : BuilderState :=
  steps.foldl BuilderState.step st

/-- A builder state in which one structure, of identity `20`, has been begun. -/
def begunState : BuilderState :=
  ⟨[], [(20, [("type", JSValue.number 2), ("byteSize", JSValue.number 8),
    ("align", JSValue.number 4)])], [], [], 21, none⟩

/-! # Theorems -/

theorem toInt32_of_range (x : Int) (h0 : 0 ≤ x) (h1 : x < INT32_MAX) : toInt32 x = x := by
  unfold toInt32
  unfold INT32_MAX at h1
  omega

theorem memcmp_eq_zero_iff (mem : AddressSpace) (n : Nat) (p q : Int) :
    memcmp mem p q n = 0 ↔ ∀ t : Nat, t < n → mem (p + t) = mem (q + t) := by
  induction n generalizing p q with
  | zero => simp [memcmp]
  | succ n ih =>
    unfold memcmp
    by_cases h : mem p = mem q
    · rw [if_pos h, ih]
      constructor
      · intro H t ht
        cases t with
        | zero => simpa using h
        | succ t =>
          have := H t (by omega)
          have e1 : p + ((t + 1 : Nat) : Int) = p + 1 + (t : Int) := by push_cast; ring
          have e2 : q + ((t + 1 : Nat) : Int) = q + 1 + (t : Int) := by push_cast; ring
          rw [e1, e2]; exact this
      · intro H t ht
        have := H (t + 1) (by omega)
        have e1 : p + ((t + 1 : Nat) : Int) = p + 1 + (t : Int) := by push_cast; ring
        have e2 : q + ((t + 1 : Nat) : Int) = q + 1 + (t : Int) := by push_cast; ring
        rw [e1, e2] at this; exact this
    · rw [if_neg h]
      constructor
      · intro H
        exfalso
        split at H <;> omega
      · intro H
        exfalso
        exact h (by simpa using H 0 (by omega))

theorem scanLoop_first_match (mem : AddressSpace) (src sentinel : Int) (len k : Nat)
    (hk : memcmp mem (src + k * len) sentinel len = 0)
    (hbound : ((k * len : Nat) : Int) < INT32_MAX) :
    ∀ (d j fuel n : Nat) (i c : Int), i = ((j * len : Nat) : Int) → c = (j : Int) →
      j + d = k → d < fuel →
      (∀ m, j ≤ m → m < k → memcmp mem (src + m * len) sentinel len ≠ 0) →
      scanLoop mem src sentinel len fuel i c n = Scan.found k (n + d + 1) := by
  intro d
  induction d with
  | zero =>
    intro j fuel n i c hi hc hj hf _
    obtain ⟨f, rfl⟩ : ∃ f, fuel = f + 1 := ⟨fuel - 1, by omega⟩
    have hjk : j = k := by omega
    subst hjk
    subst hc
    have hlt : i < INT32_MAX := by rw [hi]; exact hbound
    have hm : memcmp mem (src + i) sentinel len = 0 := by
      have : src + i = src + (j : Int) * (len : Int) := by rw [hi]; push_cast; ring
      rw [this]; exact hk
    unfold scanLoop
    rw [if_pos hlt, if_pos hm]
  | succ d ih =>
    intro j fuel n i c hi hc hj hf hne
    obtain ⟨f, rfl⟩ : ∃ f, fuel = f + 1 := ⟨fuel - 1, by omega⟩
    have hjk : j < k := by omega
    have hle : (j + 1) * len ≤ k * len := Nat.mul_le_mul_right len (by omega)
    have hb1 : (((j + 1) * len : Nat) : Int) < INT32_MAX := by
      have : (((j + 1) * len : Nat) : Int) ≤ ((k * len : Nat) : Int) := by exact_mod_cast hle
      omega
    have hb0 : i < INT32_MAX := by
      have h1 : j * len ≤ (j + 1) * len := Nat.mul_le_mul_right len (by omega)
      have h2 : ((j * len : Nat) : Int) ≤ (((j + 1) * len : Nat) : Int) := by exact_mod_cast h1
      omega
    have hm : ¬ memcmp mem (src + i) sentinel len = 0 := by
      have : src + i = src + (j : Int) * (len : Int) := by rw [hi]; push_cast; ring
      rw [this]; exact hne j (le_refl j) hjk
    have hlenpos : 0 < len := by
      rcases Nat.eq_zero_or_pos len with h0 | h0
      · subst h0
        exact absurd rfl hm
      · exact h0
    have hkpos : (k : Int) < INT32_MAX := by
      have h1 : k ≤ k * len := Nat.le_mul_of_pos_right k hlenpos
      have h2 : (k : Int) ≤ ((k * len : Nat) : Int) := by exact_mod_cast h1
      omega
    have e1 : toInt32 (i + (len : Int)) = (((j + 1) * len : Nat) : Int) := by
      have : i + (len : Int) = (((j + 1) * len : Nat) : Int) := by
        rw [hi]; push_cast; ring
      rw [this]
      exact toInt32_of_range _ (Int.natCast_nonneg _) hb1
    have e2 : toInt32 (c + 1) = ((j + 1 : Nat) : Int) := by
      have : c + 1 = ((j + 1 : Nat) : Int) := by rw [hc]; push_cast; ring
      rw [this]
      exact toInt32_of_range _ (Int.natCast_nonneg _) (by omega)
    have step := ih (j + 1) f (n + 1) (toInt32 (i + (len : Int))) (toInt32 (c + 1)) e1 e2
      (by omega) (by omega) (fun m hm1 hmk => hne m (by omega) hmk)
    have hn : n + 1 + d + 1 = n + (d + 1) + 1 := by omega
    unfold scanLoop
    rw [if_pos hb0, if_neg hm, step, hn]

/-- C1. `findSentinel` returns the first matching block index: for a non-empty sentinel of
length `len`, if block `k` of the memory at `address` equals the sentinel, no earlier block
does, and `k * len < INT32_MAX`, then with any fuel above `k` the call returns the block index
`k` (not the byte offset) after `k + 1` comparisons. -/
theorem findSentinel_first_match (mem : AddressSpace) (a : Int) (data byteOffset len k fuel : Nat)
    (hlen : 0 < len)
    (hk : ∀ t : Nat, t < len →
      mem ((toUint64 a : Int) + (k : Int) * len + t) = mem ((data : Int) + byteOffset + t))
    (hfirst : ∀ j : Nat, j < k → ¬ ∀ t : Nat, t < len →
      mem ((toUint64 a : Int) + (j : Int) * len + t) = mem ((data : Int) + byteOffset + t))
    (hbound : (k : Int) * len < INT32_MAX)
    (hfuel : k < fuel) :
    findSentinel mem [JSValue.bigInt a, JSValue.dataView data byteOffset len] fuel
      = some (⟨none, some (JSValue.number k)⟩, k + 1) := by
  have hk2 := (memcmp_eq_zero_iff mem len _ _).2 hk
  have hb : ((k * len : Nat) : Int) < INT32_MAX := by push_cast; exact hbound
  have hloop := scanLoop_first_match mem (toUint64 a : Int) ((data : Int) + byteOffset) len k hk2 hb
    k 0 fuel 0 0 0 (by simp) (by simp) (by omega) hfuel
    (fun m _ hmk h => hfirst m hmk ((memcmp_eq_zero_iff mem len _ _).1 h))
  simp only [findSentinel, argAt, List.getD_cons_zero, List.getD_cons_succ]
  rw [if_pos (by omega)]
  simp only [Nat.cast_zero, zero_mul, Nat.cast_ofNat] at hloop
  simp at hloop
  rw [hloop]

/-- C2. With an empty sentinel `findSentinel` sets no return value and runs no loop iteration,
whatever the address, the memory and the fuel (zero included), so it terminates. -/
theorem findSentinel_empty_sentinel (mem : AddressSpace) (a : Int) (data byteOffset fuel : Nat) :
    findSentinel mem [JSValue.bigInt a, JSValue.dataView data byteOffset 0] fuel
      = some (⟨none, none⟩, 0) := by
  simp [findSentinel, argAt]


theorem findSentinel_first_match_witness :
    findSentinel sampleMemory [JSValue.bigInt 100, JSValue.dataView 200 0 1] 4
      = some (⟨none, some (JSValue.number 3)⟩, 4) :=
  findSentinel_first_match sampleMemory 100 200 0 1 3 4 (by decide) (by decide) (by decide)
    (by decide) (by decide)


/-! ### Slot table -/

theorem Legacy.readSlot_writeSlot (call : Legacy.Host) (s : Nat) (X : JSValue) (dest : Handle)
    (hX : X.IsNullOrUndefined = false) :
    Legacy.ReadSlot (Legacy.WriteSlot call s X).2 s dest = (Result.OK, some X) := by
  simp [Legacy.ReadSlot, Legacy.WriteSlot, Legacy.objectGet, Legacy.objectSet, hX]

theorem JSValue.not_nullish_of_isObject (X : JSValue) (hX : X.IsObject = true) :
    X.IsNullOrUndefined = false := by
  cases X <;> simp_all [JSValue.IsObject, JSValue.IsNullOrUndefined]

theorem Node.writeSlot_slotHost (store : SlotStore) (object value : Handle) (s : Nat) :
    Node.WriteSlot slotHost store object s value
      = (Result.OK, fun t k =>
          if t = object.getD JSValue.null ∧ k = toUint32 s then value.getD JSValue.null
          else store t k) := by
  simp [Node.WriteSlot, Node.CallFunction, slotHost, JSValue.IsFunction]

theorem Node.readSlot_slotHost (store : SlotStore) (object dest : Handle) (s : Nat) :
    Node.ReadSlot slotHost store object s dest
      = if (store (object.getD JSValue.null) (toUint32 s)).IsObject then
          (Result.OK, some (store (object.getD JSValue.null) (toUint32 s)), store)
        else (Result.Failure, dest, store) := by
  simp [Node.ReadSlot, Node.CallFunction, slotHost, JSValue.IsFunction]

/-- C3. Slot round trip: for every slot table, slot id `s` and object `X`, `WriteSlot(s, X)`
returns OK and a following `ReadSlot(s)` returns OK with exactly `X`; in the earlier bridge on
its own slots object, in the current bridge through the host's slot functions. -/
theorem slot_round_trip (X : JSValue) (hX : X.IsObject = true) (s : Nat) :
    (∀ (call : Legacy.Host) (dest : Handle),
      (Legacy.WriteSlot call s X).1 = Result.OK ∧
      Legacy.ReadSlot (Legacy.WriteSlot call s X).2 s dest = (Result.OK, some X)) ∧
    (∀ (store : SlotStore) (object dest : Handle),
      (Node.WriteSlot slotHost store object s (some X)).1 = Result.OK ∧
      (Node.ReadSlot slotHost (Node.WriteSlot slotHost store object s (some X)).2 object s dest).1
        = Result.OK ∧
      (Node.ReadSlot slotHost (Node.WriteSlot slotHost store object s (some X)).2 object s
        dest).2.1 = some X) := by
  refine ⟨fun call dest => ⟨rfl, Legacy.readSlot_writeSlot call s X dest
    (JSValue.not_nullish_of_isObject X hX)⟩, fun store object dest => ?_⟩
  simp [Node.writeSlot_slotHost, Node.readSlot_slotHost, hX]

theorem slot_round_trip_witness :
    Legacy.ReadSlot (Legacy.WriteSlot Legacy.newSlots 5 (JSValue.object 7)).2 5 none
      = (Result.OK, some (JSValue.object 7)) :=
  ((slot_round_trip (JSValue.object 7) rfl 5).1 Legacy.newSlots none).2

theorem Legacy.writeAll_slots_of_not_written (writes : List (Nat × JSValue)) (s : Nat) :
    ∀ call : Legacy.Host, (∀ w ∈ writes, w.1 ≠ s) →
      (Legacy.writeAll call writes).slots s = call.slots s := by
  induction writes with
  | nil => intro call _; rfl
  | cons w ws ih =>
    intro call h
    have hw : w.1 ≠ s := h w (List.mem_cons_self _ _)
    have := ih (Legacy.WriteSlot call w.1 w.2).2 (fun x hx => h x (List.mem_cons_of_mem _ hx))
    simp only [Legacy.writeAll, List.foldl_cons] at this ⊢
    rw [this]
    simp [Legacy.WriteSlot, Legacy.objectSet, Ne.symm hw]

/-- C4. A slot id that has never been written reads as Failure and leaves the destination
unchanged: after any sequence of writes to other slot ids on a fresh slot table,
`ReadSlot(s)` returns Failure with `dest` as it was. -/
theorem readSlot_never_written (writes : List (Nat × JSValue)) (s : Nat) (dest : Handle)
    (h : ∀ w ∈ writes, w.1 ≠ s) :
    Legacy.ReadSlot (Legacy.writeAll Legacy.newSlots writes) s dest = (Result.Failure, dest) := by
  have hs : (Legacy.writeAll Legacy.newSlots writes).slots s = JSValue.undefined :=
    Legacy.writeAll_slots_of_not_written writes s Legacy.newSlots h
  simp [Legacy.ReadSlot, Legacy.objectGet, hs, JSValue.IsNullOrUndefined]

theorem readSlot_never_written_witness :
    Legacy.ReadSlot (Legacy.writeAll Legacy.newSlots [(5, JSValue.object 1)]) 7
      (some (JSValue.number 9)) = (Result.Failure, some (JSValue.number 9)) :=
  readSlot_never_written [(5, JSValue.object 1)] 7 (some (JSValue.number 9)) (by decide)

/-- C5. Clearing a slot: writing null (or, in the current bridge, an empty handle) to any slot,
occupied or not, returns OK, a following `ReadSlot` of it returns Failure with the destination
unchanged, and clearing twice leaves the same table as clearing once. -/
theorem clear_slot (s : Nat) :
    (∀ (call : Legacy.Host) (dest : Handle),
      (Legacy.WriteSlot call s JSValue.null).1 = Result.OK ∧
      Legacy.ReadSlot (Legacy.WriteSlot call s JSValue.null).2 s dest = (Result.Failure, dest) ∧
      (Legacy.WriteSlot (Legacy.WriteSlot call s JSValue.null).2 s JSValue.null).2.slots
        = (Legacy.WriteSlot call s JSValue.null).2.slots) ∧
    (∀ (store : SlotStore) (object dest : Handle),
      (Node.WriteSlot slotHost store object s none).1 = Result.OK ∧
      (Node.ReadSlot slotHost (Node.WriteSlot slotHost store object s none).2 object s dest).1
        = Result.Failure ∧
      (Node.ReadSlot slotHost (Node.WriteSlot slotHost store object s none).2 object s
        dest).2.1 = dest ∧
      (Node.WriteSlot slotHost (Node.WriteSlot slotHost store object s none).2 object s none).2
        = (Node.WriteSlot slotHost store object s none).2) := by
  refine ⟨fun call dest => ⟨rfl, ?_, ?_⟩, fun store object dest => ?_⟩
  · simp [Legacy.ReadSlot, Legacy.WriteSlot, Legacy.objectGet, Legacy.objectSet,
      JSValue.IsNullOrUndefined]
  · funext k
    by_cases hk : k = s <;> simp [Legacy.WriteSlot, Legacy.objectSet, hk]
  · simp only [Node.writeSlot_slotHost, Node.readSlot_slotHost]
    refine ⟨trivial, ?_, ?_, ?_⟩
    · simp [JSValue.IsObject]
    · simp [JSValue.IsObject]
    · funext t k
      by_cases h : t = object.getD JSValue.null ∧ k = toUint32 s <;> simp [h]

/-! ### Loading a module -/

/-- C6. Given that the arguments, the library, the `zig_module` symbol, the embedded script
and the `Environment` class were all found, the current `Load` throws
"Cached module is compiled for a different version of Zigar" and sets no return value if and
only if the module's version differs from the host's protocol version 2. -/
theorem load_version_mismatch_iff {σ : Type} (inp : Node.LoadInput σ) (module : Module)
    (h : Nat) (script envClass : JSValue)
    (hargs : 1 ≤ inp.info.length ∧ (argAt inp.info 0).IsString = true)
    (hlib : inp.handle = some h) (hsym : inp.symbol = some module)
    (hscript : inp.script = some script ∧ script.IsObject = true)
    (hclass : inp.envClass = some envClass ∧ envClass.IsObject = true) :
    ((Node.Load inp).thrown = some Node.versionMismatch ∧ (Node.Load inp).returnValue = none)
      ↔ module.version ≠ Node.hostVersion := by
  obtain ⟨hlen, hstr⟩ := hargs
  obtain ⟨hs1, hs2⟩ := hscript
  obtain ⟨hc1, hc2⟩ := hclass
  have hlen2 : ¬ inp.info.length < 1 := by omega
  by_cases hv : module.version = 2
  · cases hobj : inp.envObject with
    | none => simp [Node.Load, hlen2, hstr, hlib, hsym, hs1, hs2, hc1, hc2, hv, hobj,
        Node.hostVersion]
    | some o =>
      by_cases hr : (Node.CallFunction inp.env inp.state "invokeFactory" [factoryThunk]).result
          = Result.OK
      · simp [Node.Load, hlen2, hstr, hlib, hsym, hs1, hs2, hc1, hc2, hv, hobj, hr,
          Node.hostVersion]
      · simp [Node.Load, hlen2, hstr, hlib, hsym, hs1, hs2, hc1, hc2, hv, hobj, hr,
          Node.hostVersion]
  · simp [Node.Load, hlen2, hstr, hlib, hsym, hs1, hs2, hc1, hc2, hv, Node.hostVersion]

theorem load_version_mismatch_iff_witness :
    ((Node.Load (nodeInput 3)).thrown = some Node.versionMismatch ∧
      (Node.Load (nodeInput 3)).returnValue = none) ↔ (blankModule 3).version ≠ Node.hostVersion :=
  load_version_mismatch_iff (nodeInput 3) (blankModule 3) 1 (JSValue.object 10)
    (JSValue.function 11) ⟨by decide, rfl⟩ rfl rfl ⟨rfl, rfl⟩ ⟨rfl, rfl⟩

/-- C8 (defects). Ways in which `Load` leaves both, or neither, of a value and an error.
In `src/addon.cc`, when `invokeFactory` answers with a non-object (here the number 5), `Load`
throws "Unable to import zig module" and then still hands 5 to the return value; when
`invokeFactory` throws, `Load` throws as well and then still calls `Set` on the return value
(with an empty handle, which stores `undefined`). In `node-zigar-addon`, when the environment
object has no function `invokeFactory`, `Load` returns with no return value although no error
has been raised. -/
theorem load_outcome_defects :
    ((Legacy.Load (legacyInput 2 (JSValue.number 5))).thrown = some "Unable to import zig module" ∧
      (Legacy.Load (legacyInput 2 (JSValue.number 5))).returnValue = some (JSValue.number 5)) ∧
    ((Legacy.Load (legacyInputThrowing 2)).thrown = some "Unable to import zig module" ∧
      (Legacy.Load (legacyInputThrowing 2)).returnValue = some JSValue.undefined) ∧
    ((Node.Load (nodeInputWithoutFactory 2)).thrown = none ∧
      (Node.Load (nodeInputWithoutFactory 2)).hostException = false ∧
      (Node.Load (nodeInputWithoutFactory 2)).fatal = false ∧
      (Node.Load (nodeInputWithoutFactory 2)).returnValue = none) := by
  refine ⟨⟨?_, ?_⟩, ⟨?_, ?_⟩, ?_, ?_, ?_, ?_⟩ <;> decide

/-! ### Relocatable memory -/

theorem Node.allocateRelocatableMemory_ok_iff {σ : Type} (env : HostEnv σ) (s : σ) (n a : Nat)
    (dest : Memory) :
    (Node.AllocateRelocatableMemory env s n a dest).1 = Result.OK ↔
      ∃ f data byteOffset byteLength, env.get s "allocateRelocatableMemory" = some f ∧
        f.IsFunction = true ∧
        (env.call s f [JSValue.number (toDouble n), JSValue.number a]).1
          = some (JSValue.dataView data byteOffset byteLength) ∧
        (Node.AllocateRelocatableMemory env s n a dest).2.1
          = ⟨data + byteOffset, n, ⟨a, false, false⟩⟩ := by
  unfold Node.AllocateRelocatableMemory Node.CallFunction
  cases hg : env.get s "allocateRelocatableMemory" with
  | none => simp
  | some f =>
    by_cases hf : f.IsFunction = true
    · rcases hc : env.call s f [JSValue.number (toDouble n), JSValue.number a] with ⟨r, s1⟩
      cases r with
      | none => simp [hf, hc]
      | some v =>
        cases v with
        | dataView data byteOffset byteLength =>
          simp only [hf, hc]
          simp
          exact ⟨hf, data, byteOffset, ⟨byteLength, by rw [hc]⟩, rfl⟩
        | _ => simp [hf, hc]
    · simp [hf]

theorem Node.allocateRelocatableMemory_failure {σ : Type} (env : HostEnv σ) (s : σ) (n a : Nat)
    (dest : Memory) (h : (Node.AllocateRelocatableMemory env s n a dest).1 ≠ Result.OK) :
    (Node.AllocateRelocatableMemory env s n a dest).1 = Result.Failure ∧
    (Node.AllocateRelocatableMemory env s n a dest).2.1 = dest := by
  revert h
  unfold Node.AllocateRelocatableMemory
  dsimp only
  generalize Node.CallFunction env s "allocateRelocatableMemory" _ = r
  by_cases hr : r.result = Result.OK
  · simp only [hr, ne_eq, not_true_eq_false, if_false]
    split <;> simp
  · simp [hr]

/-- C10. `AllocateRelocatableMemory` fails atomically: it returns Failure if and only if the
host's `allocateRelocatableMemory` is missing (the lookup yields no function), throws, or
answers with something that is not a DataView, and then the destination record is unchanged;
on OK the record has `len = n`, `align = a`, `is_const = false` and `is_comptime = false`. -/
theorem allocateRelocatableMemory_atomic {σ : Type} (env : HostEnv σ) (s : σ) (n a : Nat)
    (dest : Memory) :
    ((Node.AllocateRelocatableMemory env s n a dest).1 = Result.Failure ↔
      ((∀ f, env.get s "allocateRelocatableMemory" = some f → f.IsFunction = false) ∨
       (∃ f, env.get s "allocateRelocatableMemory" = some f ∧ f.IsFunction = true ∧
          (env.call s f [JSValue.number (toDouble n), JSValue.number a]).1 = none) ∨
       (∃ f v, env.get s "allocateRelocatableMemory" = some f ∧ f.IsFunction = true ∧
          (env.call s f [JSValue.number (toDouble n), JSValue.number a]).1 = some v ∧
          v.IsDataView = false))) ∧
    ((Node.AllocateRelocatableMemory env s n a dest).1 = Result.Failure →
      (Node.AllocateRelocatableMemory env s n a dest).2.1 = dest) ∧
    ((Node.AllocateRelocatableMemory env s n a dest).1 = Result.OK →
      (Node.AllocateRelocatableMemory env s n a dest).2.1.len = n ∧
      (Node.AllocateRelocatableMemory env s n a dest).2.1.attributes.align = a ∧
      (Node.AllocateRelocatableMemory env s n a dest).2.1.attributes.is_const = false ∧
      (Node.AllocateRelocatableMemory env s n a dest).2.1.attributes.is_comptime = false) := by
  refine ⟨?_, ?_, ?_⟩
  · unfold Node.AllocateRelocatableMemory Node.CallFunction
    cases hg : env.get s "allocateRelocatableMemory" with
    | none => simp
    | some f =>
      by_cases hf : f.IsFunction = true
      · rcases hc : env.call s f [JSValue.number (toDouble n), JSValue.number a] with ⟨r, s1⟩
        cases r with
        | none => simp [hf, hc]
        | some v => cases v <;> simp [hf, hc, JSValue.IsDataView]
      · simp [hf]
  · intro h
    exact (Node.allocateRelocatableMemory_failure env s n a dest (by rw [h]; decide)).2
  · intro h
    obtain ⟨f, data, off, blen, _, _, _, hd⟩ :=
      (Node.allocateRelocatableMemory_ok_iff env s n a dest).1 h
    rw [hd]
    exact ⟨rfl, rfl, rfl, rfl⟩


/-! ### Releasing relocatable memory -/

theorem log2_eq_of_bounds (n k : Nat) (h1 : 2 ^ k ≤ n) (h2 : n < 2 ^ (k + 1)) :
    Nat.log2 n = k := by
  have hn : n ≠ 0 := by
    have : 0 < 2 ^ k := Nat.two_pow_pos k
    omega
  have hlt : Nat.log2 n < k + 1 := (Nat.log2_lt hn).2 h2
  have hge : ¬ Nat.log2 n < k := fun h => by
    have := (Nat.log2_lt hn).1 h
    omega
  omega

theorem toDouble_of_le (n : Nat) (hn : n ≤ 9007199254740992) : toDouble n = (n : Int) := by
  unfold toDouble
  by_cases h : n < 9007199254740992
  · rw [if_pos h]
  · have hn2 : n = 9007199254740992 := by omega
    subst hn2
    have hl : Nat.log2 9007199254740992 = 53 :=
      log2_eq_of_bounds _ 53 (by norm_num) (by norm_num)
    rw [if_neg h, hl]
    norm_num

theorem toDouble_sample : toDouble 9007199254740993 = 9007199254740992 := by
  unfold toDouble
  have hl : Nat.log2 9007199254740993 = 53 :=
    log2_eq_of_bounds _ 53 (by norm_num) (by norm_num)
  rw [if_neg (by norm_num), hl]
  norm_num

/-! ### Relocatable memory with the host allocator -/

theorem toDouble_ge_of_ge (n : Nat) (hn : 9007199254740992 ≤ n) :
    (9007199254740992 : Int) ≤ toDouble n := by
  unfold toDouble
  rw [if_neg (by omega)]
  have hn0 : n ≠ 0 := by omega
  have hlog : 53 ≤ Nat.log2 n := (Nat.le_log2 hn0).2 (by norm_num; omega)
  have hpow : 2 ^ Nat.log2 n ≤ n := Nat.log2_self_le hn0
  obtain ⟨e, he⟩ : ∃ e, Nat.log2 n = e + 53 := ⟨Nat.log2 n - 53, by omega⟩
  have hsub : Nat.log2 n - 52 = e + 1 := by omega
  rw [hsub]
  dsimp only
  have hq : 4503599627370496 ≤ n / 2 ^ (e + 1) := by
    rw [Nat.le_div_iff_mul_le (Nat.two_pow_pos _)]
    have : 4503599627370496 * 2 ^ (e + 1) = 2 ^ Nat.log2 n := by
      rw [he, show e + 53 = 52 + (e + 1) by omega, Nat.pow_add 2 52 (e + 1)]
    omega
  have hpos : 2 ≤ 2 ^ (e + 1) := by
    have : 2 ^ 1 ≤ 2 ^ (e + 1) := Nat.pow_le_pow_right (by omega) (by omega)
    simpa using this
  have hq1 : n / 2 ^ (e + 1) ≤
      (if n % 2 ^ (e + 1) > 2 ^ (e + 1 - 1) ∨
          (n % 2 ^ (e + 1) = 2 ^ (e + 1 - 1) ∧ n / 2 ^ (e + 1) % 2 = 1)
        then n / 2 ^ (e + 1) + 1 else n / 2 ^ (e + 1)) := by
    split <;> omega
  have hmul : 4503599627370496 * 2 ≤
      (if n % 2 ^ (e + 1) > 2 ^ (e + 1 - 1) ∨
          (n % 2 ^ (e + 1) = 2 ^ (e + 1 - 1) ∧ n / 2 ^ (e + 1) % 2 = 1)
        then n / 2 ^ (e + 1) + 1 else n / 2 ^ (e + 1)) * 2 ^ (e + 1) :=
    Nat.mul_le_mul (Nat.le_trans hq hq1) hpos
  have : (9007199254740992 : Nat) ≤
      (if n % 2 ^ (e + 1) > 2 ^ (e + 1 - 1) ∨
          (n % 2 ^ (e + 1) = 2 ^ (e + 1 - 1) ∧ n / 2 ^ (e + 1) % 2 = 1)
        then n / 2 ^ (e + 1) + 1 else n / 2 ^ (e + 1)) * 2 ^ (e + 1) := by
    omega
  exact_mod_cast this

theorem toDouble_le_limit_iff (n : Nat) :
    (0 ≤ toDouble n ∧ toDouble n ≤ (hostBufferLimit : Int)) ↔ n ≤ hostBufferLimit := by
  unfold hostBufferLimit
  by_cases h : n ≤ 9007199254740991
  · rw [toDouble_of_le n (by omega)]
    constructor
    · intro _; exact h
    · intro _; omega
  · have := toDouble_ge_of_ge n (by omega)
    constructor
    · intro h2; omega
    · intro h2; omega

theorem aligned_offset (n a : Nat) (ha : 0 < a) : (n + (a - n % a) % a) % a = 0 := by
  have hr : n % a < a := Nat.mod_lt n ha
  have hd : a * (n / a) + n % a = n := Nat.div_add_mod n a
  by_cases h0 : n % a = 0
  · rw [h0, Nat.sub_zero, Nat.mod_self, Nat.add_zero]
    exact h0
  · have h1 : (a - n % a) % a = a - n % a := Nat.mod_eq_of_lt (by omega)
    rw [h1]
    have h2 : n + (a - n % a) = a * (n / a + 1) := by
      rw [Nat.mul_add, Nat.mul_one]
      omega
    rw [h2]
    exact Nat.mul_mod_right a _

theorem Node.allocateRelocatableMemory_allocatorHost (st : AllocatorState) (n a : Nat)
    (dest : Memory) :
    Node.AllocateRelocatableMemory allocatorHost st n a dest
      = if 0 < a ∧ n ≤ hostBufferLimit then
          (Result.OK, ⟨st.next + (a - st.next % a) % a, n, ⟨a, false, false⟩⟩,
            ⟨st.next + (a - st.next % a) % a + n,
              ⟨st.next + (a - st.next % a) % a, n, a⟩ :: st.regions⟩)
        else (Result.Failure, dest, st) := by
  by_cases h : 0 < a ∧ n ≤ hostBufferLimit
  · have hlim := (toDouble_le_limit_iff n).2 h.2
    have hval : toDouble n = (n : Int) := by
      have := h.2
      unfold hostBufferLimit at this
      exact toDouble_of_le n (by omega)
    have hcond : 0 ≤ toDouble n ∧ toDouble n ≤ (hostBufferLimit : Int) ∧ 0 < (a : Int) :=
      ⟨hlim.1, hlim.2, by exact_mod_cast h.1⟩
    rw [if_pos h]
    simp only [Node.AllocateRelocatableMemory, Node.CallFunction, allocatorHost,
      JSValue.IsFunction, if_true, if_pos hcond]
    simp [hval]
  · have hcond : ¬ (0 ≤ toDouble n ∧ toDouble n ≤ (hostBufferLimit : Int) ∧ 0 < (a : Int)) := by
      intro hc
      exact h ⟨by exact_mod_cast hc.2.2, (toDouble_le_limit_iff n).1 ⟨hc.1, hc.2.1⟩⟩
    rw [if_neg h]
    simp only [Node.AllocateRelocatableMemory, Node.CallFunction, allocatorHost,
      JSValue.IsFunction, if_true, if_neg hcond]
    simp

theorem Node.callFunction_allocatorHost_allocate (st : AllocatorState) (n a : Nat)
    (h : 0 < a ∧ n ≤ hostBufferLimit) :
    (Node.CallFunction allocatorHost st "allocateRelocatableMemory"
      [JSValue.number (toDouble n), JSValue.number a]).value
      = some (JSValue.dataView st.next ((a - st.next % a) % a) n) := by
  have hlim := (toDouble_le_limit_iff n).2 h.2
  have hval : toDouble n = (n : Int) := by
    have := h.2
    unfold hostBufferLimit at this
    exact toDouble_of_le n (by omega)
  have hcond : 0 ≤ toDouble n ∧ toDouble n ≤ (hostBufferLimit : Int) ∧ 0 < (a : Int) :=
    ⟨hlim.1, hlim.2, by exact_mod_cast h.1⟩
  simp only [Node.CallFunction, allocatorHost, JSValue.IsFunction, if_true, if_pos hcond]
  simp [hval]

/-- C9. With the host allocator of the spec, for every size `n` and alignment `a`: when
`AllocateRelocatableMemory(n, a)` returns OK, the host has answered with a view, the region
starts at the first byte of that view, the region's address is a multiple of `a`, and the
byte length of the view is exactly `n`, as is the region's `len`. OK is returned exactly for
the satisfiable requests (a non-zero alignment and a size within the host's buffer limit). -/
theorem allocateRelocatableMemory_aligned_exact (st : AllocatorState) (n a : Nat)
    (dest : Memory)
    (hok : (Node.AllocateRelocatableMemory allocatorHost st n a dest).1 = Result.OK) :
    ∃ data byteOffset byteLength,
      (Node.CallFunction allocatorHost st "allocateRelocatableMemory"
        [JSValue.number (toDouble n), JSValue.number a]).value
        = some (JSValue.dataView data byteOffset byteLength) ∧
      (Node.AllocateRelocatableMemory allocatorHost st n a dest).2.1.bytes = data + byteOffset ∧
      (Node.AllocateRelocatableMemory allocatorHost st n a dest).2.1.bytes % a = 0 ∧
      byteLength = n ∧
      (Node.AllocateRelocatableMemory allocatorHost st n a dest).2.1.len = n ∧
      (0 < a ∧ n ≤ hostBufferLimit) ∧
      (∀ n2 a2 : Nat, (Node.AllocateRelocatableMemory allocatorHost st n2 a2 dest).1 = Result.OK
        ↔ (0 < a2 ∧ n2 ≤ hostBufferLimit)) := by
  have hiff : ∀ n2 a2 : Nat,
      (Node.AllocateRelocatableMemory allocatorHost st n2 a2 dest).1 = Result.OK
        ↔ (0 < a2 ∧ n2 ≤ hostBufferLimit) := by
    intro n2 a2
    rw [Node.allocateRelocatableMemory_allocatorHost]
    by_cases h : 0 < a2 ∧ n2 ≤ hostBufferLimit
    · rw [if_pos h]; exact ⟨fun _ => h, fun _ => rfl⟩
    · rw [if_neg h]; exact ⟨fun hh => by simp at hh, fun hh => absurd hh h⟩
  have h := (hiff n a).1 hok
  refine ⟨st.next, (a - st.next % a) % a, n,
    Node.callFunction_allocatorHost_allocate st n a h, ?_, ?_, rfl, ?_, h, hiff⟩
  · rw [Node.allocateRelocatableMemory_allocatorHost, if_pos h]
  · rw [Node.allocateRelocatableMemory_allocatorHost, if_pos h]
    exact aligned_offset st.next a h.1
  · rw [Node.allocateRelocatableMemory_allocatorHost, if_pos h]

theorem allocateRelocatableMemory_aligned_exact_witness :
    (Node.AllocateRelocatableMemory allocatorHost ⟨4099, []⟩ 16 8 zeroMemory).2.1
      = ⟨4104, 16, ⟨8, false, false⟩⟩ ∧
    ∃ data byteOffset byteLength,
      (Node.CallFunction allocatorHost ⟨4099, []⟩ "allocateRelocatableMemory"
        [JSValue.number (toDouble 16), JSValue.number (8 : Nat)]).value
        = some (JSValue.dataView data byteOffset byteLength) ∧
      (Node.AllocateRelocatableMemory allocatorHost ⟨4099, []⟩ 16 8 zeroMemory).2.1.bytes
        = data + byteOffset ∧
      (Node.AllocateRelocatableMemory allocatorHost ⟨4099, []⟩ 16 8 zeroMemory).2.1.bytes % 8
        = 0 ∧
      byteLength = 16 ∧
      (Node.AllocateRelocatableMemory allocatorHost ⟨4099, []⟩ 16 8 zeroMemory).2.1.len = 16 ∧
      (0 < 8 ∧ 16 ≤ hostBufferLimit) ∧
      (∀ n2 a2 : Nat,
        (Node.AllocateRelocatableMemory allocatorHost ⟨4099, []⟩ n2 a2 zeroMemory).1 = Result.OK
          ↔ (0 < a2 ∧ n2 ≤ hostBufferLimit)) :=
  ⟨by decide,
    allocateRelocatableMemory_aligned_exact ⟨4099, []⟩ 16 8 zeroMemory (by decide)⟩

theorem Node.freeRelocatableMemory_allocatorHost (st : AllocatorState) (address n a : Nat)
    (attributes : MemoryAttributes) (ha : attributes.align = a)
    (hmem : (⟨address, n, a⟩ : Region) ∈ st.regions) (hn : n ≤ hostBufferLimit) :
    Node.FreeRelocatableMemory allocatorHost st ⟨address, n, attributes⟩
      = (Result.OK, { st with regions := st.regions.erase ⟨address, n, a⟩ }) := by
  have hval : toDouble n = (n : Int) := by
    unfold hostBufferLimit at hn
    exact toDouble_of_le n (by omega)
  subst ha
  simp only [Node.FreeRelocatableMemory, Node.CallFunction, allocatorHost, JSValue.IsFunction,
    hval, Int.toNat_ofNat]
  simp [hmem]

/-- C11. Allocate/free triple agreement, with the host allocator of the spec. For every
region returned by `AllocateRelocatableMemory(n, a)`, `FreeRelocatableMemory` on that region
calls the host's `freeRelocatableMemory`, whatever the host is at that time, with exactly the
three arguments (address of the region, `n`, `a`) and returns OK exactly when that call
succeeds; handed to the allocator that made the region, the triple is the one it holds for
the region, so the release succeeds and leaves the regions that were live before the
allocation. -/
theorem freeRelocatableMemory_forwards_triple (st : AllocatorState) (n a : Nat) (dest : Memory)
    (hok : (Node.AllocateRelocatableMemory allocatorHost st n a dest).1 = Result.OK) :
    (∀ (τ : Type) (env : HostEnv τ) (t : τ),
      Node.FreeRelocatableMemory env t (Node.AllocateRelocatableMemory allocatorHost st n a dest).2.1
        = (if (Node.CallFunction env t "freeRelocatableMemory"
              [JSValue.bigInt (Node.AllocateRelocatableMemory allocatorHost st n a dest).2.1.bytes,
                JSValue.number n, JSValue.number a]).result ≠ Result.OK
            then (Result.Failure, (Node.CallFunction env t "freeRelocatableMemory"
              [JSValue.bigInt (Node.AllocateRelocatableMemory allocatorHost st n a dest).2.1.bytes,
                JSValue.number n, JSValue.number a]).state)
            else (Result.OK, (Node.CallFunction env t "freeRelocatableMemory"
              [JSValue.bigInt (Node.AllocateRelocatableMemory allocatorHost st n a dest).2.1.bytes,
                JSValue.number n, JSValue.number a]).state))) ∧
    (Node.AllocateRelocatableMemory allocatorHost st n a dest).2.2.regions
      = ⟨(Node.AllocateRelocatableMemory allocatorHost st n a dest).2.1.bytes, n, a⟩
        :: st.regions ∧
    Node.FreeRelocatableMemory allocatorHost
        (Node.AllocateRelocatableMemory allocatorHost st n a dest).2.2
        (Node.AllocateRelocatableMemory allocatorHost st n a dest).2.1
      = (Result.OK,
          ⟨(Node.AllocateRelocatableMemory allocatorHost st n a dest).2.2.next, st.regions⟩) := by
  have h : 0 < a ∧ n ≤ hostBufferLimit := by
    rw [Node.allocateRelocatableMemory_allocatorHost] at hok
    by_cases h : 0 < a ∧ n ≤ hostBufferLimit
    · exact h
    · rw [if_neg h] at hok
      simp at hok
  have hval : toDouble n = (n : Int) := by
    have := h.2
    unfold hostBufferLimit at this
    exact toDouble_of_le n (by omega)
  rw [Node.allocateRelocatableMemory_allocatorHost, if_pos h]
  refine ⟨?_, rfl, ?_⟩
  · intro τ env t
    simp only [Node.FreeRelocatableMemory, hval]
  · rw [Node.freeRelocatableMemory_allocatorHost _ (st.next + (a - st.next % a) % a) n a _ rfl
      (List.mem_cons_self _ _) h.2]
    simp

theorem freeRelocatableMemory_forwards_triple_witness :
    Node.FreeRelocatableMemory allocatorHost
        (Node.AllocateRelocatableMemory allocatorHost ⟨4099, []⟩ 16 8 zeroMemory).2.2
        (Node.AllocateRelocatableMemory allocatorHost ⟨4099, []⟩ 16 8 zeroMemory).2.1
      = (Result.OK,
          ⟨(Node.AllocateRelocatableMemory allocatorHost ⟨4099, []⟩ 16 8 zeroMemory).2.2.next,
            []⟩) :=
  (freeRelocatableMemory_forwards_triple ⟨4099, []⟩ 16 8 zeroMemory (by decide)).2.2

/-! ### Structure builder -/

theorem lookup_replace_other (key other : String) (v : JSValue) (h : other ≠ key) :
    ∀ d : List (String × JSValue),
      List.lookup other (d.map (fun p => if p.1 = key then (key, v) else p))
        = List.lookup other d := by
  have hk : (other == key) = false := by simpa using h
  intro d
  induction d with
  | nil => rfl
  | cons q qs ih =>
    obtain ⟨k, b⟩ := q
    by_cases hq : k = key
    · subst hq
      rw [List.map_cons, if_pos rfl, List.lookup_cons, List.lookup_cons, hk, ih]
    · rw [List.map_cons, if_neg (show ¬ (k, b).1 = key from hq), List.lookup_cons,
        List.lookup_cons, ih]

theorem lookup_append_other (key other : String) (v : JSValue) (h : other ≠ key) :
    ∀ d : List (String × JSValue),
      List.lookup other (d ++ [(key, v)]) = List.lookup other d := by
  have hk : (other == key) = false := by simpa using h
  intro d
  induction d with
  | nil => rw [List.nil_append, List.lookup_cons, hk]
  | cons q qs ih =>
    obtain ⟨k, b⟩ := q
    rw [List.cons_append, List.lookup_cons, List.lookup_cons, ih]

theorem lookup_replace_self (key : String) (v : JSValue) :
    ∀ d : List (String × JSValue), d.any (fun p => decide (p.1 = key)) = true →
      List.lookup key (d.map (fun p => if p.1 = key then (key, v) else p)) = some v := by
  intro d
  induction d with
  | nil => intro h; simp at h
  | cons q qs ih =>
    obtain ⟨k, b⟩ := q
    intro h
    by_cases hq : k = key
    · subst hq
      rw [List.map_cons, if_pos rfl, List.lookup_cons, beq_self_eq_true]
    · have hk : (key == k) = false := by
        simp only [beq_eq_false_iff_ne, ne_eq]
        exact fun e => hq e.symm
      have h2 : qs.any (fun p => decide (p.1 = key)) = true := by
        rw [List.any_cons] at h
        simpa [hq] using h
      rw [List.map_cons, if_neg (show ¬ (k, b).1 = key from hq), List.lookup_cons, hk]
      exact ih h2

theorem lookup_append_self (key : String) (v : JSValue) :
    ∀ d : List (String × JSValue), d.any (fun p => decide (p.1 = key)) = false →
      List.lookup key (d ++ [(key, v)]) = some v := by
  intro d
  induction d with
  | nil => intro _; rw [List.nil_append, List.lookup_cons, beq_self_eq_true]
  | cons q qs ih =>
    obtain ⟨k, b⟩ := q
    intro h
    rw [List.any_cons, Bool.or_eq_false_iff] at h
    have hkk : ¬ k = key := by simpa using h.1
    have hk : (key == k) = false := by
      simp only [beq_eq_false_iff_ne, ne_eq]
      exact fun e => hkk e.symm
    rw [List.cons_append, List.lookup_cons, hk]
    exact ih h.2

theorem Definition.get_set_self (d : Definition) (key : String) (v : JSValue) :
    (d.set key v).get key = some v := by
  unfold Definition.set Definition.get
  by_cases hany : d.any (fun p => decide (p.1 = key)) = true
  · rw [if_pos hany]
    exact lookup_replace_self key v d hany
  · rw [if_neg hany]
    exact lookup_append_self key v d (by rwa [Bool.not_eq_true] at hany)

theorem Definition.get_set_other (d : Definition) (key other : String) (v : JSValue)
    (h : other ≠ key) : (d.set key v).get other = d.get other := by
  unfold Definition.set Definition.get
  by_cases hany : d.any (fun p => decide (p.1 = key)) = true
  · rw [if_pos hany]
    exact lookup_replace_other key other v h d
  · rw [if_neg hany]
    exact lookup_append_other key other v h d

theorem any_replace (key other : String) (v : JSValue) :
    ∀ d : List (String × JSValue),
      (d.map (fun p => if p.1 = key then (key, v) else p)).any (fun p => decide (p.1 = other))
        = d.any (fun p => decide (p.1 = other)) := by
  intro d
  induction d with
  | nil => rfl
  | cons q qs ih =>
    obtain ⟨k, b⟩ := q
    by_cases hq : k = key
    · subst hq
      rw [List.map_cons, if_pos rfl, List.any_cons, List.any_cons, ih]
    · rw [List.map_cons, if_neg (show ¬ (k, b).1 = key from hq), List.any_cons, List.any_cons, ih]

theorem Definition.has_set (d : Definition) (key other : String) (v : JSValue) :
    (d.set key v).has other = (decide (other = key) || d.has other) := by
  unfold Definition.set Definition.has
  by_cases hany : d.any (fun q => decide (q.1 = key)) = true
  · rw [if_pos hany, any_replace key other v d]
    by_cases ho : other = key
    · subst ho
      rw [hany]
      simp
    · simp [ho]
  · rw [if_neg hany, List.any_append]
    by_cases ho : other = key
    · subst ho
      simp
    · have ho2 : ¬ key = other := fun e => ho e.symm
      simp [ho, ho2]

theorem builderResult_definition {σ : Type} (r : CallFunctionResult σ) (dest : Handle)
    (D : Definition) :
    (if r.result ≠ Result.OK then (⟨Result.Failure, dest, r.state, D⟩ : BuilderResult σ)
      else
        match r.value with
        | some v =>
          if v.IsObject then ⟨Result.OK, some v, r.state, D⟩
          else ⟨Result.Failure, dest, r.state, D⟩
        | none => ⟨Result.Failure, dest, r.state, D⟩).definition = D := by
  split
  · rfl
  · split
    · split <;> rfl
    · rfl

theorem Node.beginStructure_definition {σ : Type} (env : HostEnv σ) (s : σ) (defId : Nat)
    (options : JSValue) (st : Structure) (dest : Handle) :
    (Node.BeginStructure env s defId options st dest).definition
      = (Node.BeginStructure emptyHost () 0 JSValue.undefined st none).definition :=
  (builderResult_definition _ _ _).trans (builderResult_definition _ _ _).symm

theorem Node.beginStructure_definition_emptyHost (st : Structure) :
    (Node.BeginStructure emptyHost () 0 JSValue.undefined st none).definition
      = (match st.name with
        | some name => Definition.set (Definition.set (Definition.set (Definition.set
            (Definition.set (if st.type = StructureType.Array ∨ st.type = StructureType.Vector
              then Definition.set (Definition.set [] "type" (JSValue.number (toInt32 st.type.code)))
                "length" (JSValue.number (toUint32 st.length))
              else Definition.set [] "type" (JSValue.number (toInt32 st.type.code)))
            "byteSize" (JSValue.number (toUint32 st.byte_size)))
            "align" (JSValue.number (toUint32 st.align)))
            "isConst" (JSValue.boolean st.is_const))
            "hasPointer" (JSValue.boolean st.has_pointer))
            "name" (JSValue.string name)
        | none => Definition.set (Definition.set (Definition.set
            (Definition.set (if st.type = StructureType.Array ∨ st.type = StructureType.Vector
              then Definition.set (Definition.set [] "type" (JSValue.number (toInt32 st.type.code)))
                "length" (JSValue.number (toUint32 st.length))
              else Definition.set [] "type" (JSValue.number (toInt32 st.type.code)))
            "byteSize" (JSValue.number (toUint32 st.byte_size)))
            "align" (JSValue.number (toUint32 st.align)))
            "isConst" (JSValue.boolean st.is_const))
            "hasPointer" (JSValue.boolean st.has_pointer)) := by
  cases hn : st.name <;> simp [Node.BeginStructure, Node.CallFunction, emptyHost,
    JSValue.IsFunction, hn]

theorem toUint32_natCast (n : Nat) : toUint32 (n : Int) = n % 4294967296 := by
  unfold toUint32
  omega

theorem toInt32_structureType_code (t : StructureType) :
    toInt32 (t.code : Int) = (t.code : Int) := by
  cases t <;> decide

theorem toInt32_memberType_code (t : MemberType) : toInt32 (t.code : Int) = (t.code : Int) := by
  cases t <;> decide

/-- C12 (as stated, refuted). For a structure descriptor whose `byte_size` is `2^32`, the
definition object handed to the host has `byteSize` 0: the size is passed through
`Uint32::NewFromUnsigned` and so truncated to 32 bits. -/
theorem beginStructure_truncates_byte_size :
    (Node.BeginStructure emptyHost () 0 JSValue.undefined
      ⟨none, StructureType.Struct, 0, 4294967296, 8, false, false⟩ none).definition.get "byteSize"
      = some (JSValue.number 0) ∧
    (4294967296 : Int) ≠ 0 := by
  refine ⟨?_, by decide⟩
  rw [Node.beginStructure_definition_emptyHost]
  decide

/-- C12 (amended). The definition object `BeginStructure` hands to the host has `type`,
`align`, `isConst` and `hasPointer` equal to the descriptor's `type`, `align`, `is_const` and
`has_pointer`, and `byteSize` equal to `byte_size` modulo `2^32`, hence equal to `byte_size`
whenever `byte_size < 2^32`. -/
theorem beginStructure_layout {σ : Type} (env : HostEnv σ) (s : σ) (defId : Nat)
    (options : JSValue) (st : Structure) (dest : Handle) (halign : st.align < 65536) :
    (Node.BeginStructure env s defId options st dest).definition.get "type"
      = some (JSValue.number st.type.code) ∧
    (Node.BeginStructure env s defId options st dest).definition.get "byteSize"
      = some (JSValue.number (st.byte_size % 4294967296 : Nat)) ∧
    (st.byte_size < 4294967296 →
      (Node.BeginStructure env s defId options st dest).definition.get "byteSize"
        = some (JSValue.number st.byte_size)) ∧
    (Node.BeginStructure env s defId options st dest).definition.get "align"
      = some (JSValue.number st.align) ∧
    (Node.BeginStructure env s defId options st dest).definition.get "isConst"
      = some (JSValue.boolean st.is_const) ∧
    (Node.BeginStructure env s defId options st dest).definition.get "hasPointer"
      = some (JSValue.boolean st.has_pointer) := by
  have ha : st.align % 4294967296 = st.align := Nat.mod_eq_of_lt (by omega)
  rw [Node.beginStructure_definition, Node.beginStructure_definition_emptyHost]
  have key : ∀ (D : Definition),
      D = (if st.type = StructureType.Array ∨ st.type = StructureType.Vector
        then Definition.set (Definition.set [] "type" (JSValue.number (toInt32 st.type.code)))
          "length" (JSValue.number (toUint32 st.length))
        else Definition.set [] "type" (JSValue.number (toInt32 st.type.code))) →
      D.get "type" = some (JSValue.number st.type.code) := by
    intro D hD
    subst hD
    split
    · rw [Definition.get_set_other _ _ _ _ (by decide), Definition.get_set_self,
        toInt32_structureType_code]
    · rw [Definition.get_set_self, toInt32_structureType_code]
  have hty := key _ rfl
  cases hn : st.name with
  | none =>
    simp only []
    refine ⟨?_, ?_, ?_, ?_, ?_, ?_⟩
    · rw [Definition.get_set_other _ _ _ _ (by decide), Definition.get_set_other _ _ _ _ (by decide),
        Definition.get_set_other _ _ _ _ (by decide), Definition.get_set_other _ _ _ _ (by decide)]
      exact hty
    · rw [Definition.get_set_other _ _ _ _ (by decide), Definition.get_set_other _ _ _ _ (by decide),
        Definition.get_set_other _ _ _ _ (by decide), Definition.get_set_self, toUint32_natCast]
    · intro hb
      rw [Definition.get_set_other _ _ _ _ (by decide), Definition.get_set_other _ _ _ _ (by decide),
        Definition.get_set_other _ _ _ _ (by decide), Definition.get_set_self, toUint32_natCast,
        Nat.mod_eq_of_lt hb]
    · rw [Definition.get_set_other _ _ _ _ (by decide), Definition.get_set_other _ _ _ _ (by decide),
        Definition.get_set_self, toUint32_natCast, ha]
    · rw [Definition.get_set_other _ _ _ _ (by decide), Definition.get_set_self]
    · rw [Definition.get_set_self]
  | some name =>
    simp only []
    refine ⟨?_, ?_, ?_, ?_, ?_, ?_⟩
    · rw [Definition.get_set_other _ _ _ _ (by decide), Definition.get_set_other _ _ _ _ (by decide),
        Definition.get_set_other _ _ _ _ (by decide), Definition.get_set_other _ _ _ _ (by decide),
        Definition.get_set_other _ _ _ _ (by decide)]
      exact hty
    · rw [Definition.get_set_other _ _ _ _ (by decide), Definition.get_set_other _ _ _ _ (by decide),
        Definition.get_set_other _ _ _ _ (by decide), Definition.get_set_other _ _ _ _ (by decide),
        Definition.get_set_self, toUint32_natCast]
    · intro hb
      rw [Definition.get_set_other _ _ _ _ (by decide), Definition.get_set_other _ _ _ _ (by decide),
        Definition.get_set_other _ _ _ _ (by decide), Definition.get_set_other _ _ _ _ (by decide),
        Definition.get_set_self, toUint32_natCast, Nat.mod_eq_of_lt hb]
    · rw [Definition.get_set_other _ _ _ _ (by decide), Definition.get_set_other _ _ _ _ (by decide),
        Definition.get_set_other _ _ _ _ (by decide), Definition.get_set_self, toUint32_natCast, ha]
    · rw [Definition.get_set_other _ _ _ _ (by decide), Definition.get_set_other _ _ _ _ (by decide),
        Definition.get_set_self]
    · rw [Definition.get_set_other _ _ _ _ (by decide), Definition.get_set_self]

theorem beginStructure_layout_witness :
    (Node.BeginStructure (constantHost (JSValue.object 30)) () 31 (JSValue.object 32)
      (sampleStructure StructureType.Array (some "Pair")) none).definition.get "byteSize"
      = some (JSValue.number (4 : Nat)) :=
  (beginStructure_layout (constantHost (JSValue.object 30)) () 31 (JSValue.object 32)
    (sampleStructure StructureType.Array (some "Pair")) none (by decide)).2.2.1 (by decide)

theorem Definition.has_nil (key : String) : Definition.has [] key = false := rfl

/-- C13. In the definition object built by `BeginStructure` the field `length` is present if
and only if the structure kind is Array or Vector, and the field `name` is present if and only
if the native name pointer is not null. -/
theorem beginStructure_optional_fields {σ : Type} (env : HostEnv σ) (s : σ) (defId : Nat)
    (options : JSValue) (st : Structure) (dest : Handle) :
    ((Node.BeginStructure env s defId options st dest).definition.has "length" = true ↔
      (st.type = StructureType.Array ∨ st.type = StructureType.Vector)) ∧
    ((Node.BeginStructure env s defId options st dest).definition.has "name" = true ↔
      st.name ≠ none) := by
  rw [Node.beginStructure_definition, Node.beginStructure_definition_emptyHost]
  cases hn : st.name <;>
    by_cases ht : (st.type = StructureType.Array ∨ st.type = StructureType.Vector) <;>
    simp [Definition.has_set, Definition.has_nil, ht]

/-- C17. Two `BeginStructure` calls given the same structure descriptor hand the host
definition objects with the same fields and the same values, whatever the host, its state,
the identity of the new object, the options and the destination are: the definition depends
on the descriptor alone. -/
theorem beginStructure_definition_deterministic {σ τ : Type} (env1 : HostEnv σ) (s1 : σ)
    (env2 : HostEnv τ) (s2 : τ) (id1 id2 : Nat) (options1 options2 : JSValue)
    (dest1 dest2 : Handle) (st : Structure) :
    (Node.BeginStructure env1 s1 id1 options1 st dest1).definition
      = (Node.BeginStructure env2 s2 id2 options2 st dest2).definition := by
  rw [Node.beginStructure_definition env1, Node.beginStructure_definition env2]

theorem Node.callFunction_failure_iff {σ : Type} (env : HostEnv σ) (s : σ) (name : String)
    (argv : List JSValue) :
    (Node.CallFunction env s name argv).result = Result.Failure ↔
      ((∀ f, env.get s name = some f → f.IsFunction = false) ∨
       (∃ f, env.get s name = some f ∧ f.IsFunction = true ∧ (env.call s f argv).1 = none)) := by
  unfold Node.CallFunction
  cases hg : env.get s name with
  | none => simp
  | some f =>
    by_cases hf : f.IsFunction = true
    · rcases hc : env.call s f argv with ⟨r, s1⟩
      cases r <;> simp [hf, hc]
    · simp [hf]

theorem Node.attachMember_has_slot {σ : Type} (env : HostEnv σ) (s : σ) (defId : Nat)
    (target : JSValue) (member : Member) (is_static : Bool) :
    (Node.AttachMember env s defId target member is_static).definition.has "slot"
      = decide (member.slot ≠ missing) := by
  unfold Node.AttachMember
  dsimp only
  cases member.name <;> cases member.structureRef <;>
    by_cases h1 : member.bit_size = missing <;> by_cases h2 : member.bit_offset = missing <;>
    by_cases h3 : member.byte_size = missing <;> by_cases h4 : member.slot = missing <;>
    simp [Definition.has_set, Definition.has_nil, h1, h2, h3, h4]

theorem Node.attachMember_has_bitOffset {σ : Type} (env : HostEnv σ) (s : σ) (defId : Nat)
    (target : JSValue) (member : Member) (is_static : Bool) :
    (Node.AttachMember env s defId target member is_static).definition.has "bitOffset"
      = decide (member.bit_offset ≠ missing) := by
  unfold Node.AttachMember
  dsimp only
  cases member.name <;> cases member.structureRef <;>
    by_cases h1 : member.bit_size = missing <;> by_cases h2 : member.bit_offset = missing <;>
    by_cases h3 : member.byte_size = missing <;> by_cases h4 : member.slot = missing <;>
    simp [Definition.has_set, Definition.has_nil, h1, h2, h3, h4]

/-! ### The structure builder of the host -/

theorem hostBeginStructure_keeps (st : BuilderState) (defId : Nat) :
    (hostBeginStructure st defId).2.finalized = st.finalized ∧
    (hostBeginStructure st defId).2.members = st.members := by
  unfold hostBeginStructure
  dsimp only
  split <;> exact ⟨rfl, rfl⟩

theorem hostAttachMember_finalized (st : BuilderState) (structure_ defId : Nat) :
    (hostAttachMember st structure_ defId).2.finalized = st.finalized := by
  unfold hostAttachMember
  dsimp only
  split
  · rfl
  · split
    · rfl
    · split <;> rfl

theorem hostFinalizeStructure_finalized (st : BuilderState) (structure_ sid : Nat)
    (h : sid ∈ st.finalized) : sid ∈ (hostFinalizeStructure st structure_).2.finalized := by
  unfold hostFinalizeStructure
  split
  · exact h
  · split
    · exact h
    · exact List.mem_cons_of_mem _ h

theorem builderHost_call_finalized (st : BuilderState) (f : JSValue) (argv : List JSValue)
    (sid : Nat) (h : sid ∈ st.finalized) : sid ∈ (builderHost.call st f argv).2.finalized := by
  unfold builderHost
  dsimp only
  split
  · rw [(hostBeginStructure_keeps st _).1]; exact h
  · rw [hostAttachMember_finalized]; exact h
  · exact hostFinalizeStructure_finalized st _ sid h
  · exact h

theorem BuilderState.after_finalized (steps : List BuilderStep) (sid : Nat) :
    ∀ st : BuilderState, sid ∈ st.finalized → sid ∈ (st.after steps).finalized := by
  induction steps with
  | nil => intro st h; exact h
  | cons e es ih =>
    intro st h
    show sid ∈ ((st.step e).after es).finalized
    apply ih
    cases e with
    | newObject id d => exact h
    | call f argv => exact builderHost_call_finalized st f argv sid h

theorem Node.callFunction_builderHost_finalize (st : BuilderState) (sid : Nat) :
    (Node.CallFunction builderHost st "finalizeStructure" [JSValue.object sid]).result
      = (if (hostFinalizeStructure st sid).1.isSome then Result.OK else Result.Failure) ∧
    (Node.CallFunction builderHost st "finalizeStructure" [JSValue.object sid]).state
      = (hostFinalizeStructure st sid).2 := by
  rcases hp : hostFinalizeStructure st sid with ⟨r, s1⟩
  cases r <;> simp [Node.CallFunction, builderHost, JSValue.IsFunction, hp]

theorem Node.callFunction_builderHost_attach (st : BuilderState) (sid defId : Nat)
    (is_static : Bool) :
    (Node.CallFunction builderHost st "attachMember"
        [JSValue.object sid, JSValue.object defId, JSValue.boolean is_static]).result
      = (if (hostAttachMember st sid defId).1.isSome then Result.OK else Result.Failure) ∧
    (Node.CallFunction builderHost st "attachMember"
        [JSValue.object sid, JSValue.object defId, JSValue.boolean is_static]).state
      = (hostAttachMember st sid defId).2 := by
  rcases hp : hostAttachMember st sid defId with ⟨r, s1⟩
  cases r <;> simp [Node.CallFunction, builderHost, JSValue.IsFunction, hp]

theorem Node.callFunction_builderHost_attach_other (st : BuilderState) (structure_ : JSValue)
    (defId : Nat) (is_static : Bool) (h : ∀ sid, structure_ ≠ JSValue.object sid) :
    Node.CallFunction builderHost st "attachMember"
        [structure_, JSValue.object defId, JSValue.boolean is_static]
      = ⟨Result.Failure, none, true, { st with error := some "ProtocolError" }⟩ := by
  cases structure_ with
  | object sid => exact absurd rfl (h sid)
  | _ => simp [Node.CallFunction, builderHost, JSValue.IsFunction]

theorem Node.finalizeStructure_builderHost (st : BuilderState) (structure_ : JSValue)
    (hfin : (Node.FinalizeStructure builderHost st structure_).result = Result.OK) :
    ∃ sid, structure_ = JSValue.object sid ∧
      sid ∈ (Node.FinalizeStructure builderHost st structure_).state.finalized ∧
      (Node.FinalizeStructure builderHost st structure_).state.begun.any (fun b => b.1 = sid)
        = true := by
  cases structure_ with
  | object sid =>
    refine ⟨sid, rfl, ?_⟩
    obtain ⟨e1, e2⟩ := Node.callFunction_builderHost_finalize st sid
    have hres : (Node.FinalizeStructure builderHost st (JSValue.object sid)).result
        = (if (hostFinalizeStructure st sid).1.isSome then Result.OK else Result.Failure) := e1
    have hst : (Node.FinalizeStructure builderHost st (JSValue.object sid)).state
        = (hostFinalizeStructure st sid).2 := e2
    rw [hres] at hfin
    rw [hst]
    revert hfin
    unfold hostFinalizeStructure
    by_cases h1 : (!(st.begun.any (fun b => b.1 = sid))) = true
    · rw [if_pos h1]; intro h; simp at h
    · rw [if_neg h1]
      by_cases h2 : sid ∈ st.finalized
      · rw [if_pos h2]; intro h; simp at h
      · rw [if_neg h2]
        intro _
        refine ⟨List.mem_cons_self _ _, ?_⟩
        simpa using h1
  | _ =>
    exfalso
    revert hfin
    simp [Node.FinalizeStructure, Node.CallFunction, builderHost, JSValue.IsFunction]

theorem hostBeginStructure_begun (st : BuilderState) (defId sid : Nat)
    (h : st.begun.any (fun b => b.1 = sid) = true) :
    (hostBeginStructure st defId).2.begun.any (fun b => b.1 = sid) = true := by
  unfold hostBeginStructure
  dsimp only
  split
  · show ((st.next, _) :: st.begun).any (fun b => b.1 = sid) = true
    rw [List.any_cons, h, Bool.or_true]
  · exact h

theorem hostAttachMember_begun (st : BuilderState) (structure_ defId : Nat) :
    (hostAttachMember st structure_ defId).2.begun = st.begun := by
  unfold hostAttachMember
  dsimp only
  split
  · rfl
  · split
    · rfl
    · split <;> rfl

theorem hostFinalizeStructure_begun (st : BuilderState) (structure_ : Nat) :
    (hostFinalizeStructure st structure_).2.begun = st.begun := by
  unfold hostFinalizeStructure
  split
  · rfl
  · split <;> rfl

theorem builderHost_call_begun (st : BuilderState) (f : JSValue) (argv : List JSValue)
    (sid : Nat) (h : st.begun.any (fun b => b.1 = sid) = true) :
    (builderHost.call st f argv).2.begun.any (fun b => b.1 = sid) = true := by
  unfold builderHost
  dsimp only
  split
  · exact hostBeginStructure_begun st _ sid h
  · rw [hostAttachMember_begun]; exact h
  · rw [hostFinalizeStructure_begun]; exact h
  · exact h

theorem BuilderState.after_begun (steps : List BuilderStep) (sid : Nat) :
    ∀ st : BuilderState, st.begun.any (fun b => b.1 = sid) = true →
      (st.after steps).begun.any (fun b => b.1 = sid) = true := by
  induction steps with
  | nil => intro st h; exact h
  | cons e es ih =>
    intro st h
    show ((st.step e).after es).begun.any (fun b => b.1 = sid) = true
    apply ih
    cases e with
    | newObject id d => exact h
    | call f argv => exact builderHost_call_begun st f argv sid h

theorem hostAttachMember_of_finalized (st : BuilderState) (sid defId : Nat)
    (hb : st.begun.any (fun b => b.1 = sid) = true) (hf : sid ∈ st.finalized) :
    hostAttachMember st sid defId = (none, { st with error := some "AlreadyFinalized" }) := by
  unfold hostAttachMember
  dsimp only
  rw [if_neg (by simp [hb]), if_pos hf]

/-- C14. With the structure builder of the spec as host: once `FinalizeStructure` has
succeeded on a structure, then, whatever objects the bridge creates and whatever host
functions it calls in between, `AttachMember` on that structure returns Failure, the error
the host has raised is `AlreadyFinalized`, and nothing else in the host state has changed:
the structure, its members and its finalization are as they were. -/
theorem attachMember_after_finalize_fails (st : BuilderState) (structure_ : JSValue)
    (steps : List BuilderStep) (defId : Nat) (member : Member) (is_static : Bool)
    (hfin : (Node.FinalizeStructure builderHost st structure_).result = Result.OK) :
    (Node.AttachMember builderHost
      ((Node.FinalizeStructure builderHost st structure_).state.after steps) defId structure_
      member is_static).result = Result.Failure ∧
    (Node.AttachMember builderHost
      ((Node.FinalizeStructure builderHost st structure_).state.after steps) defId structure_
      member is_static).state
      = { (Node.FinalizeStructure builderHost st structure_).state.after steps with
          error := some "AlreadyFinalized" } := by
  obtain ⟨sid, rfl, hmem, hbegun⟩ := Node.finalizeStructure_builderHost st structure_ hfin
  have hf := BuilderState.after_finalized steps sid _ hmem
  have hb := BuilderState.after_begun steps sid _ hbegun
  generalize (Node.FinalizeStructure builderHost st (JSValue.object sid)).state.after steps = t
    at hf hb ⊢
  obtain ⟨e1, e2⟩ := Node.callFunction_builderHost_attach t sid defId is_static
  have hres : (Node.AttachMember builderHost t defId (JSValue.object sid) member is_static).result
      = (if (hostAttachMember t sid defId).1.isSome then Result.OK else Result.Failure) := e1
  have hst : (Node.AttachMember builderHost t defId (JSValue.object sid) member is_static).state
      = (hostAttachMember t sid defId).2 := e2
  rw [hres, hst, hostAttachMember_of_finalized t sid defId hb hf]
  exact ⟨rfl, rfl⟩

theorem attachMember_after_finalize_fails_witness :
    ((Node.FinalizeStructure builderHost begunState (JSValue.object 20)).result = Result.OK ∧
      (Node.AttachMember builderHost begunState 21 (JSValue.object 20)
        (bareMember MemberType.Int) false).result = Result.OK) ∧
    (Node.AttachMember builderHost
      ((Node.FinalizeStructure builderHost begunState (JSValue.object 20)).state.after []) 21
      (JSValue.object 20) (bareMember MemberType.Int) false).result = Result.Failure ∧
    (Node.AttachMember builderHost
      ((Node.FinalizeStructure builderHost begunState (JSValue.object 20)).state.after []) 21
      (JSValue.object 20) (bareMember MemberType.Int) false).state
      = { (Node.FinalizeStructure builderHost begunState (JSValue.object 20)).state.after [] with
          error := some "AlreadyFinalized" } :=
  ⟨by decide, attachMember_after_finalize_fails begunState (JSValue.object 20) [] 21
    (bareMember MemberType.Int) false (by decide)⟩

theorem Node.attachMember_get_type {σ : Type} (env : HostEnv σ) (s : σ) (defId : Nat)
    (target : JSValue) (member : Member) (is_static : Bool) :
    (Node.AttachMember env s defId target member is_static).definition.get "type"
      = some (JSValue.number (member.type.code : Int)) := by
  have hcode := toInt32_memberType_code member.type
  unfold Node.AttachMember
  dsimp only
  rw [hcode]
  cases member.name <;> cases member.structureRef <;>
    by_cases h1 : member.bit_size = missing <;> by_cases h2 : member.bit_offset = missing <;>
    by_cases h3 : member.byte_size = missing <;> by_cases h4 : member.slot = missing <;>
    simp only [h1, h2, h3, h4, ne_eq, not_true_eq_false, not_false_eq_true, if_true, if_false] <;>
    repeat (first
      | rw [Definition.get_set_self]
      | rw [Definition.get_set_other _ _ "type" _ (by decide)])

theorem requiresSlot_of_kind (d : Definition) (type : MemberType)
    (hd : d.get "type" = some (JSValue.number (type.code : Int)))
    (hkind : type = MemberType.Object ∨ type = MemberType.TypeKind ∨ type = MemberType.Comptime) :
    requiresSlot d = true := by
  unfold requiresSlot slotKinds
  rw [hd]
  rcases hkind with h | h | h <;> subst h <;> decide

theorem hostAttachMember_of_missing_slot (st : BuilderState) (sid defId : Nat) (d : Definition)
    (hd : st.objects.lookup defId = some d) (hreq : requiresSlot d = true)
    (hslot : d.has "slot" = false) :
    ∃ message, hostAttachMember st sid defId = (none, { st with error := some message }) := by
  unfold hostAttachMember
  dsimp only
  rw [hd, Option.getD_some]
  split
  · exact ⟨_, rfl⟩
  · split
    · exact ⟨_, rfl⟩
    · rw [if_pos (by simp [hreq, hslot])]
      exact ⟨_, rfl⟩

/-- C15. With the structure builder of the spec as host, `AttachMember` requires a slot for
every member whose kind is Object, Type or Comptime: when the slot of such a member is
missing, the definition the bridge hands over has no `slot` field, the host rejects it, and
`AttachMember` returns Failure; the member is not attached: apart from the error the host
has raised, the host state is as it was. -/
theorem attachMember_requires_slot (st : BuilderState) (defId : Nat) (structure_ : JSValue)
    (member : Member) (is_static : Bool)
    (hkind : member.type = MemberType.Object ∨ member.type = MemberType.TypeKind ∨
      member.type = MemberType.Comptime)
    (hslot : member.slot = missing)
    (hdef : st.objects.lookup defId
      = some (Node.AttachMember builderHost st defId structure_ member is_static).definition) :
    (Node.AttachMember builderHost st defId structure_ member is_static).definition.has "slot"
      = false ∧
    (Node.AttachMember builderHost st defId structure_ member is_static).result
      = Result.Failure ∧
    (Node.AttachMember builderHost st defId structure_ member is_static).state.members
      = st.members ∧
    ∃ message, (Node.AttachMember builderHost st defId structure_ member is_static).state
      = { st with error := some message } := by
  have hhas : (Node.AttachMember builderHost st defId structure_ member is_static).definition.has
      "slot" = false := by
    rw [Node.attachMember_has_slot]
    simp [hslot]
  have hreq := requiresSlot_of_kind _ member.type
    (Node.attachMember_get_type builderHost st defId structure_ member is_static) hkind
  have hres : (Node.AttachMember builderHost st defId structure_ member is_static).result
      = (Node.CallFunction builderHost st "attachMember"
          [structure_, JSValue.object defId, JSValue.boolean is_static]).result := rfl
  have hst : (Node.AttachMember builderHost st defId structure_ member is_static).state
      = (Node.CallFunction builderHost st "attachMember"
          [structure_, JSValue.object defId, JSValue.boolean is_static]).state := rfl
  by_cases hobj : ∀ sid, structure_ ≠ JSValue.object sid
  · have hcall := Node.callFunction_builderHost_attach_other st structure_ defId is_static hobj
    rw [hres, hst, hcall]
    exact ⟨hhas, rfl, rfl, _, rfl⟩
  · obtain ⟨sid, hsid⟩ : ∃ sid, structure_ = JSValue.object sid := by
      by_contra hne
      exact hobj (fun sid h => hne ⟨sid, h⟩)
    obtain ⟨message, hhost⟩ := hostAttachMember_of_missing_slot st sid defId _ hdef hreq hhas
    obtain ⟨e1, e2⟩ := Node.callFunction_builderHost_attach st sid defId is_static
    rw [hres, hst, hsid, e1, e2, hhost]
    exact ⟨hsid ▸ hhas, rfl, rfl, message, rfl⟩

theorem attachMember_requires_slot_witness :
    ((Node.AttachMember builderHost
        (begunState.withObject 21 [("type", JSValue.number 6), ("isRequired", JSValue.boolean true),
          ("slot", JSValue.number 3)]) 21 (JSValue.object 20)
        { bareMember MemberType.Object with slot := 3 } false).result = Result.OK ∧
      (Node.AttachMember builderHost
        (begunState.withObject 21 [("type", JSValue.number 6), ("isRequired", JSValue.boolean true),
          ("slot", JSValue.number 3)]) 21 (JSValue.object 20)
        { bareMember MemberType.Object with slot := 3 } false).state.members
        = [(20, [("type", JSValue.number 6), ("isRequired", JSValue.boolean true),
          ("slot", JSValue.number 3)])]) ∧
    (Node.AttachMember builderHost
      (begunState.withObject 21 [("type", JSValue.number 6), ("isRequired", JSValue.boolean true)])
      21 (JSValue.object 20) (bareMember MemberType.Object) false).definition.has "slot" = false ∧
    (Node.AttachMember builderHost
      (begunState.withObject 21 [("type", JSValue.number 6), ("isRequired", JSValue.boolean true)])
      21 (JSValue.object 20) (bareMember MemberType.Object) false).result = Result.Failure ∧
    (Node.AttachMember builderHost
      (begunState.withObject 21 [("type", JSValue.number 6), ("isRequired", JSValue.boolean true)])
      21 (JSValue.object 20) (bareMember MemberType.Object) false).state.members
      = (begunState.withObject 21
          [("type", JSValue.number 6), ("isRequired", JSValue.boolean true)]).members ∧
    ∃ message, (Node.AttachMember builderHost
      (begunState.withObject 21 [("type", JSValue.number 6), ("isRequired", JSValue.boolean true)])
      21 (JSValue.object 20) (bareMember MemberType.Object) false).state
      = { begunState.withObject 21
            [("type", JSValue.number 6), ("isRequired", JSValue.boolean true)] with
          error := some message } :=
  ⟨by decide, attachMember_requires_slot
    (begunState.withObject 21 [("type", JSValue.number 6), ("isRequired", JSValue.boolean true)])
    21 (JSValue.object 20) (bareMember MemberType.Object) false (Or.inl rfl) rfl (by decide)⟩

/-- C16 (as stated, refuted). A member of kind Literal whose `bit_offset` is 0 is handed to the
host with a `bitOffset` field, of value 0. -/
theorem attachMember_literal_with_bitOffset :
    ({ bareMember MemberType.Literal with bit_offset := 0 } : Member).type = MemberType.Literal ∧
    (Node.AttachMember (constantHost JSValue.undefined) () 21 (JSValue.object 20)
      { bareMember MemberType.Literal with bit_offset := 0 } false).definition.get "bitOffset"
      = some (JSValue.number 0) := by
  refine ⟨rfl, ?_⟩
  decide

/-- C16 (amended). For every member, of whatever kind, the definition `AttachMember` hands to
the host carries a `bitOffset` field if and only if the member's `bit_offset` is not the
missing marker; so a Literal or Static member carries none exactly when its `bit_offset` is
missing. -/
theorem attachMember_bitOffset_field {σ : Type} (env : HostEnv σ) (s : σ) (defId : Nat)
    (target : JSValue) (member : Member) (is_static : Bool) :
    (Node.AttachMember env s defId target member is_static).definition.has "bitOffset" = true ↔
      member.bit_offset ≠ missing := by
  rw [Node.attachMember_has_bitOffset]
  simp


/-! ### Thunks and raw copies -/

/-- C19. A bridged function passes the native thunk the address of the first byte of the
argument view (backing-store base plus byte offset) when its first argument is a DataView of
non-zero byte length and a null pointer in every other case, and the memory after the call is
exactly the memory the thunk left: the bridge itself reads or writes no byte of it. -/
theorem thunkCallback_argument_region (thunk : Thunk) (mem : AddressSpace) :
    (∀ (data byteOffset byteLength : Nat) (rest : List JSValue), 0 < byteLength →
      (Node.thunkCallback thunk mem
        (JSValue.dataView data byteOffset byteLength :: rest)).arg_ptr = data + byteOffset) ∧
    (∀ info : List JSValue,
      (∀ data byteOffset byteLength, argAt info 0 = JSValue.dataView data byteOffset byteLength →
        byteLength = 0) →
      (Node.thunkCallback thunk mem info).arg_ptr = nullptr) ∧
    (∀ info : List JSValue,
      (Node.thunkCallback thunk mem info).memory
        = (thunk mem (Node.thunkCallback thunk mem info).arg_ptr).1) := by
  refine ⟨?_, ?_, ?_⟩
  · intro data off len rest hlen
    unfold Node.thunkCallback
    dsimp only
    split <;> simp [argAt, hlen]
  · intro info h
    unfold Node.thunkCallback
    dsimp only
    cases hv : argAt info 0 with
    | dataView data off len =>
      have := h data off len hv
      subst this
      split <;> simp
    | _ => split <;> rfl
  · intro info
    unfold Node.thunkCallback
    dsimp only
    split <;> rfl


/-- C20. `copyBytes(dst, address, len)` for a view `dst` (the byte length of a view is below
`2^53`): when the byte length of `dst` differs from `len` it throws "Length mismatch" and
changes no byte; otherwise it throws nothing, afterwards the `len` bytes of the view, starting
at the view's byte offset in its buffer, are the `len` bytes that were at `address`, and every
byte outside the view, in the destination buffer or elsewhere, is unchanged. -/
theorem copyBytes_frame (mem : AddressSpace) (data byteOffset byteLength : Nat) (a len : Int)
    (rest : List JSValue) (hview : byteLength < 9007199254740992) :
    (len ≠ byteLength →
      Node.copyBytes mem (JSValue.dataView data byteOffset byteLength :: JSValue.bigInt a ::
        JSValue.number len :: rest) = (⟨some "Length mismatch", none⟩, mem)) ∧
    (len = byteLength →
      (Node.copyBytes mem (JSValue.dataView data byteOffset byteLength :: JSValue.bigInt a ::
        JSValue.number len :: rest)).1 = ⟨none, none⟩ ∧
      (∀ t : Nat, t < byteLength →
        (Node.copyBytes mem (JSValue.dataView data byteOffset byteLength :: JSValue.bigInt a ::
          JSValue.number len :: rest)).2 ((data : Int) + byteOffset + t)
          = mem ((toUint64 a : Int) + t)) ∧
      (∀ p : Int, p < (data : Int) + byteOffset ∨ (data : Int) + byteOffset + byteLength ≤ p →
        (Node.copyBytes mem (JSValue.dataView data byteOffset byteLength :: JSValue.bigInt a ::
          JSValue.number len :: rest)).2 p = mem p)) := by
  have hd : toDouble byteLength = (byteLength : Int) := toDouble_of_le byteLength (by omega)
  refine ⟨?_, ?_⟩
  · intro hne
    have hne2 : ¬ (byteLength : Int) = len := fun e => hne e.symm
    simp [Node.copyBytes, argAt, hd, hne2]
  · intro heq
    subst heq
    refine ⟨?_, ?_, ?_⟩
    · simp [Node.copyBytes, argAt, hd]
    · intro t ht
      have h1 : (data : Int) + byteOffset ≤ (data : Int) + byteOffset + t := by omega
      have h2 : (data : Int) + byteOffset + t < (data : Int) + byteOffset + byteLength := by omega
      simp only [Node.copyBytes, argAt, List.getD_cons_zero, List.getD_cons_succ, hd, ne_eq,
        not_true_eq_false, if_false, Int.toNat_ofNat, memcpy]
      rw [if_pos ⟨h1, h2⟩]
      congr 1
      omega
    · intro p hp
      have h3 : ¬ ((data : Int) + byteOffset ≤ p ∧ p < (data : Int) + byteOffset + byteLength) := by
        omega
      simp only [Node.copyBytes, argAt, List.getD_cons_zero, List.getD_cons_succ, hd, ne_eq,
        not_true_eq_false, if_false, Int.toNat_ofNat, memcpy]
      rw [if_neg h3]

theorem copyBytes_frame_witness :
    (Node.copyBytes sampleMemory [JSValue.dataView 300 4 2, JSValue.bigInt 100,
        JSValue.number 2]).1 = ⟨none, none⟩ ∧
      (∀ t : Nat, t < 2 →
        (Node.copyBytes sampleMemory [JSValue.dataView 300 4 2, JSValue.bigInt 100,
          JSValue.number 2]).2 (((300 : Nat) : Int) + (4 : Nat) + t)
          = sampleMemory ((toUint64 100 : Int) + t)) ∧
      (∀ p : Int, p < ((300 : Nat) : Int) + (4 : Nat) ∨ ((300 : Nat) : Int) + (4 : Nat) + (2 : Nat) ≤ p →
        (Node.copyBytes sampleMemory [JSValue.dataView 300 4 2, JSValue.bigInt 100,
          JSValue.number 2]).2 p = sampleMemory p) :=
  (copyBytes_frame sampleMemory 300 4 2 100 2 [] (by decide)).2 rfl


/-! ### Shared views -/

theorem map_filter_aligned {α β : Type} (f : α → Nat) (g : β → Nat) (d : Nat) :
    ∀ (l1 : List α) (l2 : List β), l1.map f = l2.map g →
      (l1.filter (fun x => f x ≠ d)).map f = (l2.filter (fun y => g y ≠ d)).map g := by
  intro l1
  induction l1 with
  | nil =>
    intro l2 h
    cases l2 with
    | nil => rfl
    | cons y ys => simp at h
  | cons x xs ih =>
    intro l2 h
    cases l2 with
    | nil => simp at h
    | cons y ys =>
      simp only [List.map_cons, List.cons.injEq] at h
      obtain ⟨hxy, hrest⟩ := h
      have := ih ys hrest
      by_cases hx : f x = d
      · have hy : g y = d := by rw [← hxy]; exact hx
        simp only [List.filter_cons, hx, hy, ne_eq, not_true_eq_false, decide_False,
          Bool.false_eq_true, if_false]
        exact this
      · have hy : ¬ g y = d := by rw [← hxy]; exact hx
        simp only [List.filter_cons, hx, hy, ne_eq, not_false_eq_true, decide_True, if_true,
          List.map_cons, List.cons.injEq]
        exact ⟨hxy, this⟩

theorem SharedHeap.inv_initial : SharedHeap.initial.Inv := by
  refine ⟨rfl, ?_, ?_, ?_, rfl⟩
  · intro r hr; simp [SharedHeap.initial] at hr
  · simp [SharedHeap.initial]
  · intro r hr; simp [SharedHeap.initial] at hr

theorem SharedHeap.inv_create (heap : SharedHeap) (h : heap.Inv) (data len module_data : Nat)
    (hm : module_data ∉ heap.unloaded) :
    SharedHeap.Inv { heap with
      records := ⟨heap.next, module_data⟩ :: heap.records,
      stores := ⟨data, len, heap.next⟩ :: heap.stores,
      next := heap.next + 1 } := by
  obtain ⟨h1, h2, h3, h4, h5⟩ := h
  refine ⟨?_, ?_, ?_, ?_, h5⟩
  · simp only [List.map_cons, h1]
  · intro r hr
    simp only [List.mem_cons] at hr
    rcases hr with rfl | hr
    · exact Nat.lt_succ_self _
    · exact Nat.lt_succ_of_lt (h2 r hr)
  · simp only [List.map_cons, List.nodup_cons]
    refine ⟨?_, h3⟩
    intro hmem
    rw [List.mem_map] at hmem
    obtain ⟨r, hr, hid⟩ := hmem
    have := h2 r hr
    omega
  · intro r hr
    simp only [List.mem_cons] at hr
    rcases hr with rfl | hr
    · exact hm
    · exact h4 r hr

theorem releaseStore_of_live (heap : SharedHeap) (d : Nat) (store : SharedStore)
    (hfind : heap.stores.find? (fun st => st.deleter_data = d) = some store) :
    releaseStore heap d =
      { heap with stores := heap.stores.filter (fun st => st.deleter_data ≠ d),
                  records := heap.records.filter (fun r => r.id ≠ d) } := by
  have hd : store.deleter_data = d := by simpa using List.find?_some hfind
  unfold releaseStore
  rw [hfind]
  simp only [sharedDeleter, hd]

theorem releaseStore_of_not_live (heap : SharedHeap) (d : Nat)
    (hfind : heap.stores.find? (fun st => st.deleter_data = d) = none) :
    releaseStore heap d = heap := by
  unfold releaseStore
  rw [hfind]

theorem SharedHeap.inv_release (heap : SharedHeap) (h : heap.Inv) (d : Nat) :
    (releaseStore heap d).Inv := by
  obtain ⟨h1, h2, h3, h4, h5⟩ := h
  cases hfind : heap.stores.find? (fun st => st.deleter_data = d) with
  | none =>
    rw [releaseStore_of_not_live heap d hfind]
    exact ⟨h1, h2, h3, h4, h5⟩
  | some store =>
    rw [releaseStore_of_live heap d store hfind]
    refine ⟨?_, ?_, ?_, ?_, h5⟩
    · exact map_filter_aligned (fun st : SharedStore => st.deleter_data)
        (fun r : ExternalMemoryData => r.id) d heap.stores heap.records h1
    · intro r hr
      exact h2 r (List.mem_of_mem_filter hr)
    · exact ((List.filter_sublist _).map _).nodup h3
    · intro r hr
      exact h4 r (List.mem_of_mem_filter hr)

theorem SharedHeap.inv_unload (heap : SharedHeap) (h : heap.Inv) (m : Nat) :
    (unloadModule heap m).Inv := by
  obtain ⟨h1, h2, h3, h4, h5⟩ := h
  unfold unloadModule
  split
  · exact ⟨h1, h2, h3, h4, h5⟩
  · rename_i hany
    refine ⟨h1, h2, h3, ?_, h5⟩
    intro r hr hmem
    simp only [List.mem_cons] at hmem
    rcases hmem with hm | hm
    · apply hany
      rw [List.any_eq_true]
      exact ⟨r, hr, by simpa using hm⟩
    · exact h4 r hr hm

theorem SharedHeap.inv_step (heap : SharedHeap) (h : heap.Inv) (e : HeapEvent) :
    (heap.step e).Inv := by
  cases e with
  | createView data len m =>
    show SharedHeap.Inv (if m ∈ heap.unloaded then heap
      else (Node.CreateSharedView heap data len m).2)
    by_cases hm : m ∈ heap.unloaded
    · rw [if_pos hm]; exact h
    · rw [if_neg hm]
      exact SharedHeap.inv_create heap h data len m hm
  | createBuffer m memory =>
    show SharedHeap.Inv (if m ∈ heap.unloaded then heap
      else (Legacy.CreateSharedBuffer heap m memory).2.2)
    by_cases hm : m ∈ heap.unloaded
    · rw [if_pos hm]; exact h
    · rw [if_neg hm]
      exact SharedHeap.inv_create heap h memory.bytes memory.len m hm
  | release d => exact SharedHeap.inv_release heap h d
  | unload m => exact SharedHeap.inv_unload heap h m

theorem SharedHeap.inv_foldl (events : List HeapEvent) :
    ∀ heap : SharedHeap, heap.Inv → (events.foldl SharedHeap.step heap).Inv := by
  induction events with
  | nil => intro heap h; exact h
  | cons e es ih =>
    intro heap h
    exact ih (heap.step e) (SharedHeap.inv_step heap h e)

theorem SharedHeap.inv_run (events : List HeapEvent) : (SharedHeap.run events).Inv :=
  SharedHeap.inv_foldl events SharedHeap.initial SharedHeap.inv_initial

theorem length_filter_ne_of_nodup {α : Type} (f : α → Nat) :
    ∀ (l : List α) (x : α), (l.map f).Nodup → x ∈ l →
      (l.filter (fun y => f y ≠ f x)).length + 1 = l.length := by
  intro l
  induction l with
  | nil => intro x _ hx; simp at hx
  | cons y ys ih =>
    intro x hnd hx
    rw [List.map_cons, List.nodup_cons] at hnd
    obtain ⟨hy, hnd⟩ := hnd
    rcases List.mem_cons.1 hx with rfl | hxs
    · have hall : ys.filter (fun z => f z ≠ f x) = ys := by
        rw [List.filter_eq_self]
        intro z hz
        have : f z ≠ f x := fun e => hy (by rw [← e]; exact List.mem_map_of_mem f hz)
        simpa using this
      simp only [List.filter_cons, ne_eq, not_true_eq_false, decide_False, Bool.false_eq_true,
        if_false, List.length_cons]
      have hall2 : ys.filter (fun z => !decide (f z = f x)) = ys := by
        simpa using hall
      simp only [ne_eq, decide_not]
      rw [hall2]
    · have hne : f y ≠ f x := fun e => hy (by rw [e]; exact List.mem_map_of_mem f hxs)
      have := ih x hnd hxs
      simp only [List.filter_cons, hne, ne_eq, not_false_eq_true, decide_True, if_true,
        List.length_cons]
      simp only [ne_eq] at this
      omega

/-- C18. Shared-view lifetime. In every state reached by creating shared views (with
`CreateSharedView` or `CreateSharedBuffer`), releasing them and attempting to unload modules:
every live view has exactly one live `ExternalMemoryData` record, which holds the reference
to its owning module, and that module is not unloaded (an attempt to unload it changes
nothing); creating a view, with `CreateSharedView` or with `CreateSharedBuffer`, adds exactly
one record, on the given module, and one store over the given range, which carries that
record as its deleter data; releasing a view deletes exactly the record it took, leaves every
other record, and frees no native range; and a module to which no record refers any more is
unloaded by the next attempt. -/
theorem shared_view_lifetime (events : List HeapEvent) :
    (∀ store ∈ (SharedHeap.run events).stores,
      ∃ r ∈ (SharedHeap.run events).records, r.id = store.deleter_data ∧
        (∀ r2 ∈ (SharedHeap.run events).records, r2.id = store.deleter_data → r2 = r) ∧
        r.module_data ∉ (SharedHeap.run events).unloaded ∧
        (SharedHeap.run events).step (HeapEvent.unload r.module_data) = SharedHeap.run events) ∧
    (SharedHeap.run events).records.length = (SharedHeap.run events).stores.length ∧
    (∀ src_bytes len module_data, module_data ∉ (SharedHeap.run events).unloaded →
      ((SharedHeap.run events).step (HeapEvent.createView src_bytes len module_data)).records
        = ⟨(SharedHeap.run events).next, module_data⟩ :: (SharedHeap.run events).records ∧
      ((SharedHeap.run events).step (HeapEvent.createView src_bytes len module_data)).stores
        = ⟨src_bytes, len, (SharedHeap.run events).next⟩ :: (SharedHeap.run events).stores) ∧
    (∀ store ∈ (SharedHeap.run events).stores,
      ((SharedHeap.run events).step (HeapEvent.release store.deleter_data)).records
        = (SharedHeap.run events).records.filter (fun r => r.id ≠ store.deleter_data) ∧
      ((SharedHeap.run events).step (HeapEvent.release store.deleter_data)).records.length + 1
        = (SharedHeap.run events).records.length ∧
      ((SharedHeap.run events).step (HeapEvent.release store.deleter_data)).stores.length + 1
        = (SharedHeap.run events).stores.length ∧
      ((SharedHeap.run events).step (HeapEvent.release store.deleter_data)).unloaded
        = (SharedHeap.run events).unloaded ∧
      ((SharedHeap.run events).step (HeapEvent.release store.deleter_data)).freed = []) ∧
    (∀ module_data memory, module_data ∉ (SharedHeap.run events).unloaded →
      (Legacy.CreateSharedBuffer (SharedHeap.run events) module_data memory).1 = Result.OK ∧
      (Legacy.CreateSharedBuffer (SharedHeap.run events) module_data memory).2.1
        = ⟨memory.bytes, memory.len, (SharedHeap.run events).next⟩ ∧
      ((SharedHeap.run events).step (HeapEvent.createBuffer module_data memory)).records
        = ⟨(SharedHeap.run events).next, module_data⟩ :: (SharedHeap.run events).records ∧
      ((SharedHeap.run events).step (HeapEvent.createBuffer module_data memory)).stores
        = ⟨memory.bytes, memory.len, (SharedHeap.run events).next⟩
          :: (SharedHeap.run events).stores) ∧
    (∀ src_bytes len module_data,
      (Node.CreateSharedView (SharedHeap.run events) src_bytes len module_data).1
        = JSValue.dataView src_bytes 0 len) ∧
    (∀ module_data, (∀ r ∈ (SharedHeap.run events).records, r.module_data ≠ module_data) →
      ((SharedHeap.run events).step (HeapEvent.unload module_data)).unloaded
        = module_data :: (SharedHeap.run events).unloaded) ∧
    (SharedHeap.run events).freed = [] := by
  obtain ⟨h1, h2, h3, h4, h5⟩ := SharedHeap.inv_run events
  generalize SharedHeap.run events = heap at h1 h2 h3 h4 h5 ⊢
  have hrec : ∀ store ∈ heap.stores, ∃ r ∈ heap.records, r.id = store.deleter_data := by
    intro store hs
    have : store.deleter_data ∈ heap.records.map (fun r => r.id) := by
      rw [← h1]
      exact List.mem_map_of_mem (fun st : SharedStore => st.deleter_data) hs
    obtain ⟨r, hr, hid⟩ := List.mem_map.1 this
    exact ⟨r, hr, hid⟩
  refine ⟨?_, ?_, ?_, ?_, ?_, ?_, ?_, h5⟩
  · intro store hs
    obtain ⟨r, hr, hid⟩ := hrec store hs
    refine ⟨r, hr, hid, ?_, h4 r hr, ?_⟩
    · intro r2 hr2 hid2
      exact List.inj_on_of_nodup_map h3 hr2 hr (by rw [hid2, hid])
    · show unloadModule heap r.module_data = heap
      unfold unloadModule
      rw [if_pos]
      rw [List.any_eq_true]
      exact ⟨r, hr, by simp⟩
  · have := congrArg List.length h1
    simpa using this.symm
  · intro src len m hm
    have hstep : heap.step (HeapEvent.createView src len m)
        = (Node.CreateSharedView heap src len m).2 := by
      show (if m ∈ heap.unloaded then heap else (Node.CreateSharedView heap src len m).2) = _
      rw [if_neg hm]
    rw [hstep]
    exact ⟨rfl, rfl⟩
  · intro store hs
    obtain ⟨r, hr, hid⟩ := hrec store hs
    have hsome : (heap.stores.find? (fun st => st.deleter_data = store.deleter_data)).isSome := by
      rw [List.find?_isSome]
      exact ⟨store, hs, by simp⟩
    obtain ⟨st2, hfind⟩ := Option.isSome_iff_exists.1 hsome
    have hstep : heap.step (HeapEvent.release store.deleter_data)
        = releaseStore heap store.deleter_data := rfl
    rw [hstep, releaseStore_of_live heap store.deleter_data st2 hfind]
    refine ⟨rfl, ?_, ?_, rfl, h5⟩
    · have := length_filter_ne_of_nodup (fun r : ExternalMemoryData => r.id) heap.records r h3 hr
      simp only [hid] at this
      exact this
    · have hnd : (heap.stores.map (fun st : SharedStore => st.deleter_data)).Nodup := by
        rw [h1]; exact h3
      exact length_filter_ne_of_nodup (fun st : SharedStore => st.deleter_data) heap.stores store
        hnd hs
  · intro m memory hm
    have hstep : heap.step (HeapEvent.createBuffer m memory)
        = (Legacy.CreateSharedBuffer heap m memory).2.2 := by
      show (if m ∈ heap.unloaded then heap else (Legacy.CreateSharedBuffer heap m memory).2.2) = _
      rw [if_neg hm]
    rw [hstep]
    exact ⟨rfl, rfl, rfl, rfl⟩
  · intro src len m
    rfl
  · intro m hm
    show (unloadModule heap m).unloaded = m :: heap.unloaded
    unfold unloadModule
    rw [if_neg]
    intro hany
    rw [List.any_eq_true] at hany
    obtain ⟨r, hr, hrm⟩ := hany
    exact hm r hr (by simpa using hrm)

theorem shared_view_lifetime_sample :
    (SharedHeap.run [HeapEvent.createView 4096 16 7, HeapEvent.unload 7]).unloaded = [] ∧
    (SharedHeap.run [HeapEvent.createView 4096 16 7, HeapEvent.unload 7]).stores
      = [⟨4096, 16, 1⟩] ∧
    (SharedHeap.run [HeapEvent.createView 4096 16 7, HeapEvent.unload 7,
      HeapEvent.release 1]).records = [] ∧
    (SharedHeap.run [HeapEvent.createView 4096 16 7, HeapEvent.unload 7, HeapEvent.release 1,
      HeapEvent.unload 7]).unloaded = [7] ∧
    (SharedHeap.run [HeapEvent.createView 4096 16 7, HeapEvent.unload 7, HeapEvent.release 1,
      HeapEvent.unload 7]).freed = [] := by
  decide


/-! ### Slot writes leave the other slots alone -/

/-- C26. `WriteSlot` of the earlier bridge changes one slot only: for every slot table, slot
ids `s ≠ t` and value `X`, `WriteSlot(s, X)` returns `OK` and `ReadSlot(t)` gives the same
result code and the same destination after it as before it. -/
theorem writeSlot_other_slot (call : Legacy.Host) (s t : Nat) (X : JSValue) (dest : Handle)
    (hst : s ≠ t) :
    (Legacy.WriteSlot call s X).1 = Result.OK ∧
    Legacy.ReadSlot (Legacy.WriteSlot call s X).2 t dest = Legacy.ReadSlot call t dest := by
  refine ⟨rfl, ?_⟩
  have hts : ¬ t = s := fun h => hst h.symm
  simp only [Legacy.ReadSlot, Legacy.WriteSlot, Legacy.objectGet, Legacy.objectSet, if_neg hts]

theorem writeSlot_other_slot_witness :
    (Legacy.WriteSlot (Legacy.WriteSlot Legacy.newSlots 2 (JSValue.object 7)).2 1
      (JSValue.object 5)).1 = Result.OK ∧
    Legacy.ReadSlot (Legacy.WriteSlot (Legacy.WriteSlot Legacy.newSlots 2 (JSValue.object 7)).2 1
      (JSValue.object 5)).2 2 none
      = Legacy.ReadSlot (Legacy.WriteSlot Legacy.newSlots 2 (JSValue.object 7)).2 2 none :=
  writeSlot_other_slot (Legacy.WriteSlot Legacy.newSlots 2 (JSValue.object 7)).2 1 2
    (JSValue.object 5) none (by decide)

/-! ### The memory pool of a call -/

theorem arraySet_length (a : List JSValue) (value : JSValue) :
    arraySet a a.length value = a ++ [value] := by
  unfold arraySet
  rw [if_neg (Nat.lt_irrefl _), Nat.sub_self]
  simp

theorem Legacy.allocateMemory_appends (mem_pool : Option (List JSValue)) (data size : Nat) :
    Legacy.AllocateMemory mem_pool data size
      = (Result.OK, ⟨data, size⟩, some (mem_pool.getD [] ++ [JSValue.arrayBuffer data size])) := by
  cases mem_pool with
  | none => simp [Legacy.AllocateMemory, arraySet]
  | some p => simp [Legacy.AllocateMemory, arraySet_length]

theorem CC.allocateMemory_cc_appends (mem_pool : Option (List JSValue)) (data size : Nat) :
    CC.AllocateMemory mem_pool data size
      = (CC.Result.ok, ⟨CC.ElementType.u8, data, size⟩,
          some (mem_pool.getD [] ++ [JSValue.arrayBuffer data size])) := by
  cases mem_pool with
  | none => simp [CC.AllocateMemory, CC.GetMemory, arraySet]
  | some p => simp [CC.AllocateMemory, CC.GetMemory, arraySet_length]

theorem Legacy.allocateAll_pool (requests : List (Nat × Nat)) :
    ∀ mem_pool : Option (List JSValue),
      (Legacy.allocateAll mem_pool requests).getD []
        = mem_pool.getD [] ++ requests.map (fun r => JSValue.arrayBuffer r.1 r.2) := by
  induction requests with
  | nil => intro mem_pool; simp [Legacy.allocateAll]
  | cons r rs ih =>
    intro mem_pool
    have h := ih (Legacy.AllocateMemory mem_pool r.1 r.2).2.2
    simp only [Legacy.allocateAll, List.foldl_cons, Legacy.allocateMemory_appends] at h ⊢
    rw [h]
    simp

theorem CC.allocateAll_cc_pool (requests : List (Nat × Nat)) :
    ∀ mem_pool : Option (List JSValue),
      (CC.allocateAll mem_pool requests).getD []
        = mem_pool.getD [] ++ requests.map (fun r => JSValue.arrayBuffer r.1 r.2) := by
  induction requests with
  | nil => intro mem_pool; simp [CC.allocateAll]
  | cons r rs ih =>
    intro mem_pool
    have h := ih (CC.AllocateMemory mem_pool r.1 r.2).2.2
    simp only [CC.allocateAll, List.foldl_cons, CC.allocateMemory_cc_appends] at h ⊢
    rw [h]
    simp

/-- C24. Per-call memory pool, in both earlier bridges. Starting from the empty `mem_pool`
handle of a new call context, after the `AllocateMemory` calls for a list of requests the
pool holds exactly one buffer per call, in allocation order, the i-th of the size requested
by the i-th call. Each call returns the success code, appends its buffer at the end of the
pool leaving the earlier entries as they were, and returns a region whose `len` is the
requested size (and whose `bytes` is the start of the new buffer). -/
theorem memory_pool_allocation_order (requests : List (Nat × Nat))
    (mem_pool : Option (List JSValue)) (data size : Nat) :
    ((Legacy.allocateAll none requests).getD []
        = requests.map (fun r => JSValue.arrayBuffer r.1 r.2) ∧
      ((Legacy.allocateAll none requests).getD []).length = requests.length ∧
      (Legacy.AllocateMemory mem_pool data size).1 = Result.OK ∧
      (Legacy.AllocateMemory mem_pool data size).2.1.len = size ∧
      (Legacy.AllocateMemory mem_pool data size).2.1.bytes = data ∧
      (Legacy.AllocateMemory mem_pool data size).2.2
        = some (mem_pool.getD [] ++ [JSValue.arrayBuffer data size])) ∧
    ((CC.allocateAll none requests).getD []
        = requests.map (fun r => JSValue.arrayBuffer r.1 r.2) ∧
      ((CC.allocateAll none requests).getD []).length = requests.length ∧
      (CC.AllocateMemory mem_pool data size).1 = CC.Result.ok ∧
      (CC.AllocateMemory mem_pool data size).2.1.len = size ∧
      (CC.AllocateMemory mem_pool data size).2.1.bytes = data ∧
      (CC.AllocateMemory mem_pool data size).2.2
        = some (mem_pool.getD [] ++ [JSValue.arrayBuffer data size])) := by
  have h1 := Legacy.allocateAll_pool requests none
  have h2 := CC.allocateAll_cc_pool requests none
  simp only [Option.getD_none, List.nil_append] at h1 h2
  rw [Legacy.allocateMemory_appends, CC.allocateMemory_cc_appends, h1, h2]
  simp

/-! ### Value conversions of the oldest bridge -/

theorem CC.convertToInteger_number (n dest : Int) :
    CC.ConvertToInteger (JSValue.number n) dest
      = (CC.Result.ok, if INT32_MIN ≤ n ∧ n ≤ INT32_MAX then n else doubleToInt64 n) := by
  by_cases h : INT32_MIN ≤ n ∧ n ≤ INT32_MAX
  · simp [CC.ConvertToInteger, JSValue.IsInt32, h]
  · simp [CC.ConvertToInteger, JSValue.IsInt32, JSValue.IsNumber, h]

theorem CC.convertToInteger_bigInt (n dest : Int) :
    CC.ConvertToInteger (JSValue.bigInt n) dest
      = if INT64_MIN ≤ n ∧ n ≤ INT64_MAX then (CC.Result.ok, toInt64 n)
        else (CC.Result.eOverflow, dest) := by
  by_cases h : INT64_MIN ≤ n ∧ n ≤ INT64_MAX
  · simp [CC.ConvertToInteger, JSValue.IsInt32, JSValue.IsNumber, JSValue.IsBigInt, h]
  · simp [CC.ConvertToInteger, JSValue.IsInt32, JSValue.IsNumber, JSValue.IsBigInt, h]

theorem toInt64_of_range (v : Int) (h0 : INT64_MIN ≤ v) (h1 : v ≤ INT64_MAX) : toInt64 v = v := by
  unfold toInt64
  unfold INT64_MIN at h0
  unfold INT64_MAX at h1
  omega

theorem int64ToDouble_of_safe (v : Int) (h0 : MIN_SAFE_INTEGER ≤ v) (h1 : v ≤ MAX_SAFE_INTEGER) :
    int64ToDouble v = v := by
  unfold MIN_SAFE_INTEGER at h0
  unfold MAX_SAFE_INTEGER at h1
  unfold int64ToDouble
  by_cases h : 0 ≤ v
  · rw [if_pos h, toDouble_of_le _ (by omega)]
    omega
  · rw [if_neg h, toDouble_of_le _ (by omega)]
    omega

/-- C21. `ConvertToInteger` checks the range of a BigInt only. A BigInt outside the signed
64-bit range gives the overflow error and leaves the destination alone, and a Number or
BigInt inside the range gives `ok` with that value; but every Number gives `ok`, also one
outside the signed 64-bit range such as `10^19`. -/
theorem convertToInteger_number_unchecked :
    INT64_MAX < 10000000000000000000 ∧
    (∀ dest : Int,
      (CC.ConvertToInteger (JSValue.number 10000000000000000000) dest).1 = CC.Result.ok) ∧
    (∀ dest : Int,
      CC.ConvertToInteger (JSValue.bigInt 10000000000000000000) dest
        = (CC.Result.eOverflow, dest)) ∧
    (∀ n dest : Int, (CC.ConvertToInteger (JSValue.number n) dest).1 = CC.Result.ok) ∧
    (∀ n dest : Int, ¬ (INT64_MIN ≤ n ∧ n ≤ INT64_MAX) →
      CC.ConvertToInteger (JSValue.bigInt n) dest = (CC.Result.eOverflow, dest)) ∧
    (∀ n dest : Int, INT64_MIN ≤ n → n ≤ INT64_MAX →
      CC.ConvertToInteger (JSValue.bigInt n) dest = (CC.Result.ok, n) ∧
      CC.ConvertToInteger (JSValue.number n) dest = (CC.Result.ok, n)) := by
  refine ⟨by decide, ?_, ?_, ?_, ?_, ?_⟩
  · intro dest
    rw [CC.convertToInteger_number]
  · intro dest
    rw [CC.convertToInteger_bigInt, if_neg (by decide)]
  · intro n dest
    rw [CC.convertToInteger_number]
  · intro n dest h
    rw [CC.convertToInteger_bigInt, if_neg h]
  · intro n dest h0 h1
    rw [CC.convertToInteger_bigInt, if_pos ⟨h0, h1⟩, toInt64_of_range n h0 h1,
      CC.convertToInteger_number]
    refine ⟨rfl, ?_⟩
    by_cases h : INT32_MIN ≤ n ∧ n ≤ INT32_MAX
    · rw [if_pos h]
    · rw [if_neg h]
      unfold doubleToInt64
      rw [if_pos ⟨h0, h1⟩]

/-- C27. Integer conversion round trip. For every signed 64-bit integer `v`,
`ConvertFromInteger(v)` returns `ok`; it produces a Number that is an Int32 when `v` is in the
32-bit range, otherwise a Number that is not an Int32 when `v` is in the safe-integer range,
otherwise a BigInt, each of the value `v`; and `ConvertToInteger` applied to that host value
returns `ok` with exactly `v`. -/
theorem integer_round_trip (v dest : Int) (h0 : INT64_MIN ≤ v) (h1 : v ≤ INT64_MAX) :
    (CC.ConvertFromInteger v).1 = CC.Result.ok ∧
    ((INT32_MIN ≤ v ∧ v ≤ INT32_MAX) →
      (CC.ConvertFromInteger v).2 = JSValue.number v ∧
      (CC.ConvertFromInteger v).2.IsInt32 = true) ∧
    (¬ (INT32_MIN ≤ v ∧ v ≤ INT32_MAX) → (MIN_SAFE_INTEGER ≤ v ∧ v ≤ MAX_SAFE_INTEGER) →
      (CC.ConvertFromInteger v).2 = JSValue.number v ∧
      (CC.ConvertFromInteger v).2.IsInt32 = false) ∧
    (¬ (MIN_SAFE_INTEGER ≤ v ∧ v ≤ MAX_SAFE_INTEGER) →
      (CC.ConvertFromInteger v).2 = JSValue.bigInt v) ∧
    CC.ConvertToInteger (CC.ConvertFromInteger v).2 dest = (CC.Result.ok, v) := by
  by_cases h32 : INT32_MIN ≤ v ∧ v ≤ INT32_MAX
  · have hsafe : MIN_SAFE_INTEGER ≤ v ∧ v ≤ MAX_SAFE_INTEGER := by
      have a := h32.1
      have b := h32.2
      unfold INT32_MIN at a
      unfold INT32_MAX at b
      unfold MIN_SAFE_INTEGER MAX_SAFE_INTEGER
      omega
    have e : CC.ConvertFromInteger v = (CC.Result.ok, JSValue.number v) := by
      unfold CC.ConvertFromInteger
      rw [if_pos h32]
    rw [e]
    refine ⟨rfl, fun _ => ⟨rfl, ?_⟩, fun h => absurd h32 h, fun h => absurd hsafe h, ?_⟩
    · simp [JSValue.IsInt32, h32]
    · show CC.ConvertToInteger (JSValue.number v) dest = _
      rw [CC.convertToInteger_number, if_pos h32]
  · by_cases hsafe : MIN_SAFE_INTEGER ≤ v ∧ v ≤ MAX_SAFE_INTEGER
    · have e : CC.ConvertFromInteger v = (CC.Result.ok, JSValue.number v) := by
        unfold CC.ConvertFromInteger
        rw [if_neg h32, if_pos hsafe, int64ToDouble_of_safe v hsafe.1 hsafe.2]
      rw [e]
      refine ⟨rfl, fun h => absurd h h32, fun _ _ => ⟨rfl, ?_⟩, fun h => absurd hsafe h, ?_⟩
      · simp [JSValue.IsInt32, h32]
      · show CC.ConvertToInteger (JSValue.number v) dest = _
        rw [CC.convertToInteger_number, if_neg h32]
        unfold doubleToInt64
        rw [if_pos ⟨h0, h1⟩]
    · have h32b : ¬ (INT32_MIN ≤ v ∧ v ≤ INT32_MAX) := h32
      have e : CC.ConvertFromInteger v = (CC.Result.ok, JSValue.bigInt v) := by
        unfold CC.ConvertFromInteger
        rw [if_neg h32, if_neg hsafe]
      rw [e]
      refine ⟨rfl, fun h => absurd h h32, fun _ h => absurd h hsafe, fun _ => rfl, ?_⟩
      show CC.ConvertToInteger (JSValue.bigInt v) dest = _
      rw [CC.convertToInteger_bigInt, if_pos ⟨h0, h1⟩, toInt64_of_range v h0 h1]

theorem integer_round_trip_witness :
    CC.ConvertToInteger (CC.ConvertFromInteger 5000000000).2 0 = (CC.Result.ok, 5000000000) :=
  (integer_round_trip 5000000000 0 (by decide) (by decide)).2.2.2.2

/-- C28. `ConvertToFloat` has no branch for other values: for every host value that is
neither a Number nor a BigInt it returns `ok` and leaves the destination as it was. -/
theorem convertToFloat_ok_without_write (toNumber : Int → Option Double) (value : JSValue)
    (dest : Double) (hn : value.IsNumber = false) (hb : value.IsBigInt = false) :
    CC.ConvertToFloat toNumber value dest = (CC.Result.ok, dest) := by
  cases value <;> simp_all [JSValue.IsNumber, JSValue.IsBigInt, CC.ConvertToFloat]

theorem convertToFloat_ok_without_write_witness :
    CC.ConvertToFloat (fun n => some (Double.finite n)) (JSValue.string "abc") Double.notFinite
      = (CC.Result.ok, Double.notFinite) :=
  convertToFloat_ok_without_write (fun n => some (Double.finite n)) (JSValue.string "abc")
    Double.notFinite rfl rfl

/-- C29. `ConvertToUTF8` sizes its buffer by UTF-16 code units: for the one-character string
U+00E9, whatever the pool and the destination before, it returns `ok` with a region of 2
bytes at the start of the new buffer, while `WriteUtf8` has written 3 bytes (the two bytes of
the encoding and the terminating zero) from that start on. -/
theorem convertToUTF8_writes_past_buffer (toStringOf : JSValue → Option String)
    (mem_pool : Option (List JSValue)) (data : Nat) (dest : CC.TypedArray) :
    (CC.ConvertToUTF8 toStringOf mem_pool data (JSValue.string (String.mk [Char.ofNat 233]))
      dest).result = CC.Result.ok ∧
    (CC.ConvertToUTF8 toStringOf mem_pool data (JSValue.string (String.mk [Char.ofNat 233]))
      dest).dest = ⟨CC.ElementType.u8, data, 2⟩ ∧
    (CC.ConvertToUTF8 toStringOf mem_pool data (JSValue.string (String.mk [Char.ofNat 233]))
      dest).written = 3 := by
  have hlen : utf16Length (String.mk [Char.ofNat 233]) = 1 := by decide
  have hlen8 : utf8Length (String.mk [Char.ofNat 233]) = 2 := by decide
  simp only [CC.ConvertToUTF8, CC.allocateMemory_cc_appends, hlen, hlen8]
  simp

/-- C30. `ConvertToTypedArray` measures the region from the buffer, not from the view: for
every typed array with byte offset `o` and byte length `n` over a buffer of length `B` at
`data` it returns `ok` with a region that starts at `data + o` and has `len = B - o`,
whatever `n` is; for a view of 4 bytes at offset 4 of a 16-byte buffer that is 12. For a bare
ArrayBuffer the region is the whole buffer, and a value that is neither gives an error. -/
theorem convertToTypedArray_length_to_buffer_end :
    (∀ (data B o n : Nat) (dest : CC.TypedArray),
      CC.ConvertToTypedArray (JSValue.typedArray data B o n) dest
        = (CC.Result.ok, ⟨CC.ElementType.u8, data + o, B - o⟩)) ∧
    (∀ dest : CC.TypedArray,
      CC.ConvertToTypedArray (JSValue.typedArray 4096 16 4 4) dest
        = (CC.Result.ok, ⟨CC.ElementType.u8, 4100, 12⟩)) ∧
    (∀ (data B : Nat) (dest : CC.TypedArray),
      CC.ConvertToTypedArray (JSValue.arrayBuffer data B) dest
        = (CC.Result.ok, ⟨CC.ElementType.u8, data, B⟩)) ∧
    (∀ (value : JSValue) (dest : CC.TypedArray),
      value.IsArrayBuffer = false → value.IsTypedArray = false →
      CC.ConvertToTypedArray value dest = (CC.Result.eGeneric, dest)) := by
  have hgen : ∀ (data B o n : Nat) (dest : CC.TypedArray),
      CC.ConvertToTypedArray (JSValue.typedArray data B o n) dest
        = (CC.Result.ok, ⟨CC.ElementType.u8, data + o, B - o⟩) := by
    intro data B o n dest
    by_cases h : o > 0
    · simp [CC.ConvertToTypedArray, CC.GetMemory, h]
    · have h0 : o = 0 := by omega
      subst h0
      simp [CC.ConvertToTypedArray, CC.GetMemory]
  refine ⟨hgen, fun dest => hgen 4096 16 4 4 dest, ?_, ?_⟩
  · intro data B dest
    rfl
  · intro value dest ha ht
    cases value <;>
      simp_all [JSValue.IsArrayBuffer, JSValue.IsTypedArray, CC.ConvertToTypedArray]

/-! ### Live-object counters -/

theorem toInt32_succ (x : Int) : toInt32 (toInt32 x + 1) = toInt32 (x + 1) := by
  unfold toInt32
  omega

theorem toInt32_pred (x : Int) : toInt32 (toInt32 x - 1) = toInt32 (x - 1) := by
  unfold toInt32
  omega

theorem counters_track_live (events : List ObjectEvent) :
    ∀ (c : Counters) (l : LiveObjects),
      c.ModuleData_count = toInt32 (l.modules.length : Int) →
      c.FunctionData_count = toInt32 (l.functions.length : Int) →
      reachableFrom l events = true →
      (events.foldl Counters.step c).ModuleData_count
        = toInt32 ((events.foldl LiveObjects.step l).modules.length : Int) ∧
      (events.foldl Counters.step c).FunctionData_count
        = toInt32 ((events.foldl LiveObjects.step l).functions.length : Int) := by
  induction events with
  | nil => intro c l h1 h2 _; exact ⟨h1, h2⟩
  | cons e es ih =>
    intro c l h1 h2 hr
    unfold reachableFrom at hr
    rw [Bool.and_eq_true] at hr
    obtain ⟨he, hes⟩ := hr
    rw [List.foldl_cons, List.foldl_cons]
    apply ih (c.step e) (l.step e) ?_ ?_ hes
    · cases e with
      | newModuleData =>
        show toInt32 (c.ModuleData_count + 1) = toInt32 ((l.next :: l.modules).length : Int)
        rw [h1, toInt32_succ, List.length_cons]
        push_cast
        rfl
      | deleteModuleData object =>
        have hm : object ∈ l.modules := of_decide_eq_true he
        show toInt32 (c.ModuleData_count - 1) = toInt32 ((l.modules.erase object).length : Int)
        have hpos : 0 < l.modules.length := List.length_pos_of_mem hm
        rw [h1, toInt32_pred, List.length_erase_of_mem hm]
        have e : ((l.modules.length - 1 : Nat) : Int) = (l.modules.length : Int) - 1 := by omega
        rw [e]
      | newFunctionData => exact h1
      | deleteFunctionData object => exact h1
    · cases e with
      | newModuleData => exact h2
      | deleteModuleData object => exact h2
      | newFunctionData =>
        show toInt32 (c.FunctionData_count + 1)
          = toInt32 ((l.next :: l.functions).length : Int)
        rw [h2, toInt32_succ, List.length_cons]
        push_cast
        rfl
      | deleteFunctionData object =>
        have hm : object ∈ l.functions := of_decide_eq_true he
        show toInt32 (c.FunctionData_count - 1)
          = toInt32 ((l.functions.erase object).length : Int)
        have hpos : 0 < l.functions.length := List.length_pos_of_mem hm
        rw [h2, toInt32_pred, List.length_erase_of_mem hm]
        have e : ((l.functions.length - 1 : Nat) : Int) = (l.functions.length : Int) - 1 := by
          omega
        rw [e]

theorem liveObjects_distinct (events : List ObjectEvent) :
    ∀ l : LiveObjects, l.modules.Nodup → l.functions.Nodup →
      (∀ o ∈ l.modules, o < l.next) → (∀ o ∈ l.functions, o < l.next) →
      (events.foldl LiveObjects.step l).modules.Nodup ∧
      (events.foldl LiveObjects.step l).functions.Nodup := by
  induction events with
  | nil => intro l h1 h2 _ _; exact ⟨h1, h2⟩
  | cons e es ih =>
    intro l h1 h2 h3 h4
    rw [List.foldl_cons]
    cases e with
    | newModuleData =>
      apply ih
      · exact List.nodup_cons.2 ⟨fun hm => Nat.lt_irrefl _ (h3 _ hm), h1⟩
      · exact h2
      · intro o ho
        show o < l.next + 1
        rcases List.mem_cons.1 ho with rfl | hm
        · omega
        · have := h3 o hm
          omega
      · intro o ho
        show o < l.next + 1
        have := h4 o ho
        omega
    | deleteModuleData object =>
      apply ih
      · exact h1.erase object
      · exact h2
      · intro o ho
        exact h3 o (List.mem_of_mem_erase ho)
      · exact h4
    | newFunctionData =>
      apply ih
      · exact h1
      · exact List.nodup_cons.2 ⟨fun hm => Nat.lt_irrefl _ (h4 _ hm), h2⟩
      · intro o ho
        show o < l.next + 1
        have := h3 o ho
        omega
      · intro o ho
        show o < l.next + 1
        rcases List.mem_cons.1 ho with rfl | hm
        · omega
        · have := h4 o hm
          omega
    | deleteFunctionData object =>
      apply ih
      · exact h1
      · exact h2.erase object
      · exact h3
      · intro o ho
        exact h4 o (List.mem_of_mem_erase ho)

theorem toInt32_length (n : Nat) (h : (n : Int) ≤ INT32_MAX) : toInt32 (n : Int) = (n : Int) := by
  unfold INT32_MAX at h
  unfold toInt32
  omega

theorem toUint32_length (n : Nat) (h : (n : Int) ≤ INT32_MAX) :
    ((toUint32 (n : Int) : Nat) : Int) = (n : Int) := by
  unfold INT32_MAX at h
  rw [toUint32_natCast]
  omega

theorem getGCStatistics_modules (c : Counters) :
    (GetGCStatistics c).get "modules" = some (JSValue.number (toUint32 c.ModuleData_count)) := by
  unfold GetGCStatistics
  dsimp only
  rw [Definition.get_set_other _ "buffers" "modules" _ (by decide),
    Definition.get_set_other _ "functions" "modules" _ (by decide),
    Definition.get_set_self]

theorem getGCStatistics_functions (c : Counters) :
    (GetGCStatistics c).get "functions"
      = some (JSValue.number (toUint32 c.FunctionData_count)) := by
  unfold GetGCStatistics
  dsimp only
  rw [Definition.get_set_other _ "buffers" "functions" _ (by decide),
    Definition.get_set_self]

/-- C22. The statistics counters are live counts. After every sequence of constructions and
destructions of `ModuleData` and `FunctionData` objects a program can perform (a destructor
runs on an object constructed and not yet destroyed), `ModuleData::count` and
`FunctionData::count`, as the constructors and destructors have left them, are the numbers of
objects constructed and not yet destroyed, taken as an `int`; these objects are distinct; and
as long as such a number fits an `int`, the counter equals it, is not negative, and
`GetGCStatistics` reports it under `modules`, respectively `functions`. -/
theorem statistics_live_counts (events : List ObjectEvent) (hr : reachable events = true) :
    (Counters.run events).ModuleData_count
      = toInt32 ((liveObjects events).modules.length : Int) ∧
    (Counters.run events).FunctionData_count
      = toInt32 ((liveObjects events).functions.length : Int) ∧
    (liveObjects events).modules.Nodup ∧ (liveObjects events).functions.Nodup ∧
    ((((liveObjects events).modules.length : Nat) : Int) ≤ INT32_MAX →
      (Counters.run events).ModuleData_count = ((liveObjects events).modules.length : Int) ∧
      0 ≤ (Counters.run events).ModuleData_count ∧
      (GetGCStatistics (Counters.run events)).get "modules"
        = some (JSValue.number ((liveObjects events).modules.length : Int))) ∧
    ((((liveObjects events).functions.length : Nat) : Int) ≤ INT32_MAX →
      (Counters.run events).FunctionData_count
        = ((liveObjects events).functions.length : Int) ∧
      0 ≤ (Counters.run events).FunctionData_count ∧
      (GetGCStatistics (Counters.run events)).get "functions"
        = some (JSValue.number ((liveObjects events).functions.length : Int))) := by
  obtain ⟨h1, h2⟩ := counters_track_live events Counters.initial LiveObjects.initial
    (by decide) (by decide) hr
  obtain ⟨h3, h4⟩ := liveObjects_distinct events LiveObjects.initial List.nodup_nil
    List.nodup_nil (fun o ho => absurd ho (List.not_mem_nil o))
    (fun o ho => absurd ho (List.not_mem_nil o))
  have e1 : Counters.run events = events.foldl Counters.step Counters.initial := rfl
  have e2 : liveObjects events = events.foldl LiveObjects.step LiveObjects.initial := rfl
  rw [← e1, ← e2] at h1 h2
  rw [← e2] at h3 h4
  generalize Counters.run events = c at h1 h2 ⊢
  generalize liveObjects events = l at h1 h2 h3 h4 ⊢
  refine ⟨h1, h2, h3, h4, ?_, ?_⟩
  · intro hb
    have e : c.ModuleData_count = (l.modules.length : Int) := by
      rw [h1]; exact toInt32_length _ hb
    refine ⟨e, ?_, ?_⟩
    · rw [e]; exact Int.natCast_nonneg _
    · rw [getGCStatistics_modules, e, toUint32_length _ hb]
  · intro hb
    have e : c.FunctionData_count = (l.functions.length : Int) := by
      rw [h2]; exact toInt32_length _ hb
    refine ⟨e, ?_, ?_⟩
    · rw [e]; exact Int.natCast_nonneg _
    · rw [getGCStatistics_functions, e, toUint32_length _ hb]

theorem statistics_live_counts_witness :
    ((Counters.run [ObjectEvent.newModuleData, ObjectEvent.newFunctionData,
        ObjectEvent.newFunctionData, ObjectEvent.deleteFunctionData 2]).ModuleData_count = 1 ∧
      (Counters.run [ObjectEvent.newModuleData, ObjectEvent.newFunctionData,
        ObjectEvent.newFunctionData, ObjectEvent.deleteFunctionData 2]).FunctionData_count = 1 ∧
      (liveObjects [ObjectEvent.newModuleData, ObjectEvent.newFunctionData,
        ObjectEvent.newFunctionData, ObjectEvent.deleteFunctionData 2]).modules = [1] ∧
      (liveObjects [ObjectEvent.newModuleData, ObjectEvent.newFunctionData,
        ObjectEvent.newFunctionData, ObjectEvent.deleteFunctionData 2]).functions = [3] ∧
      GetGCStatistics (Counters.run [ObjectEvent.newModuleData, ObjectEvent.newFunctionData,
        ObjectEvent.newFunctionData, ObjectEvent.deleteFunctionData 2])
        = [("scripts", JSValue.number 0), ("modules", JSValue.number 1),
           ("functions", JSValue.number 1), ("buffers", JSValue.number 0)]) ∧
    (Counters.run [ObjectEvent.newModuleData, ObjectEvent.newFunctionData,
      ObjectEvent.newFunctionData, ObjectEvent.deleteFunctionData 2]).FunctionData_count
      = toInt32 ((liveObjects [ObjectEvent.newModuleData, ObjectEvent.newFunctionData,
          ObjectEvent.newFunctionData, ObjectEvent.deleteFunctionData 2]).functions.length : Int) :=
  ⟨by decide, (statistics_live_counts [ObjectEvent.newModuleData, ObjectEvent.newFunctionData,
    ObjectEvent.newFunctionData, ObjectEvent.deleteFunctionData 2] (by decide)).2.1⟩

/-! ### A version mismatch leaves the module untouched -/

theorem Node.loadSteps_sample :
    Node.LoadSteps (nodeInput 2)
      = Node.exportAssignments.map (fun p => LoadStep.assignExport p.1 p.2)
        ++ [LoadStep.newModuleData, LoadStep.overrideEnvironmentFunctions,
            LoadStep.newFunctionData, LoadStep.createThunk, LoadStep.constructEnvironment,
            LoadStep.callFunction "invokeFactory", LoadStep.setReturnValue] := by
  decide

theorem Node.load_of_mismatch {σ : Type} (inp : Node.LoadInput σ) (module : Module)
    (hsym : inp.symbol = some module) (hv : module.version ≠ 2) :
    ∃ message, Node.LoadSteps inp = [LoadStep.throwError message] ∧
      (Node.Load inp).thrown = some message ∧ (Node.Load inp).returnValue = none ∧
      ((Node.Load inp).module = none ∨ (Node.Load inp).module = some module) := by
  unfold Node.Load Node.LoadSteps
  rw [hsym]
  by_cases h1 : (inp.info.length < 1 || !(argAt inp.info 0).IsString) = true
  · rw [if_pos h1, if_pos h1]
    exact ⟨_, rfl, rfl, rfl, Or.inl rfl⟩
  · rw [if_neg h1, if_neg h1]
    cases inp.handle with
    | none => exact ⟨_, rfl, rfl, rfl, Or.inl rfl⟩
    | some h =>
      cases inp.script with
      | none => exact ⟨_, rfl, rfl, rfl, Or.inr rfl⟩
      | some script =>
        cases hso : script.IsObject with
        | false =>
          simp only [hso]
          exact ⟨_, rfl, rfl, rfl, Or.inr rfl⟩
        | true =>
          cases inp.envClass with
          | none =>
            simp only [hso]
            exact ⟨_, rfl, rfl, rfl, Or.inr rfl⟩
          | some envClass =>
            cases hco : envClass.IsObject with
            | false =>
              simp only [hso, hco]
              exact ⟨_, rfl, rfl, rfl, Or.inr rfl⟩
            | true =>
              simp only [hso, hco]
              refine ⟨Node.versionMismatch, ?_, ?_, ?_, Or.inr ?_⟩ <;> simp [hv]

/-- C23. On a version mismatch `Load` of the current bridge has written nothing into the
native module. For every module of a version different from 2 that `dlsym` yields, the only
effect of `Load` is one thrown error: no `exports->... = ...` assignment is made, no
`ModuleData`, no `FunctionData` and no factory thunk is created, no return value is set, and
the module `Load` leaves behind is the module as found, every entry of its exports table
included. -/
theorem load_version_mismatch_writes_nothing {σ : Type} (inp : Node.LoadInput σ)
    (module : Module) (hsym : inp.symbol = some module)
    (hv : module.version ≠ Node.hostVersion) :
    (∃ message, Node.LoadSteps inp = [LoadStep.throwError message] ∧
      (Node.Load inp).thrown = some message) ∧
    (∀ field value, LoadStep.assignExport field value ∉ Node.LoadSteps inp) ∧
    LoadStep.newModuleData ∉ Node.LoadSteps inp ∧
    LoadStep.newFunctionData ∉ Node.LoadSteps inp ∧
    LoadStep.createThunk ∉ Node.LoadSteps inp ∧
    (Node.Load inp).returnValue = none ∧
    (∀ m1, (Node.Load inp).module = some m1 →
      m1 = module ∧ ∀ field, m1.table field = module.table field) := by
  obtain ⟨message, hsteps, hthrown, hret, hmod⟩ := Node.load_of_mismatch inp module hsym hv
  refine ⟨⟨message, hsteps, hthrown⟩, ?_, ?_, ?_, ?_, hret, ?_⟩
  · intro field value
    rw [hsteps]
    simp
  · rw [hsteps]
    simp
  · rw [hsteps]
    simp
  · rw [hsteps]
    simp
  · intro m1 hm1
    rcases hmod with hnone | hsome
    · rw [hnone] at hm1
      exact absurd hm1 (by simp)
    · rw [hsome] at hm1
      have e : m1 = module := (Option.some.inj hm1).symm
      subst e
      exact ⟨rfl, fun _ => rfl⟩

theorem load_version_mismatch_writes_nothing_witness :
    ((∃ message, Node.LoadSteps (nodeInput 3) = [LoadStep.throwError message] ∧
      (Node.Load (nodeInput 3)).thrown = some message) ∧
    (∀ field value, LoadStep.assignExport field value ∉ Node.LoadSteps (nodeInput 3)) ∧
    LoadStep.newModuleData ∉ Node.LoadSteps (nodeInput 3) ∧
    LoadStep.newFunctionData ∉ Node.LoadSteps (nodeInput 3) ∧
    LoadStep.createThunk ∉ Node.LoadSteps (nodeInput 3) ∧
    (Node.Load (nodeInput 3)).returnValue = none ∧
    (∀ m1, (Node.Load (nodeInput 3)).module = some m1 →
      m1 = blankModule 3 ∧ ∀ field, m1.table field = (blankModule 3).table field)) ∧
    Node.LoadSteps (nodeInput 3) = [LoadStep.throwError Node.versionMismatch] :=
  ⟨load_version_mismatch_writes_nothing (nodeInput 3) (blankModule 3) rfl (by decide),
    by decide⟩

/-! ### The scan of `findSentinel` with a stride of two -/

theorem scanLoop_stride_two_running (mem : AddressSpace) (src sentinel : Int)
    (hne : ∀ i : Int, -2147483648 ≤ i → i ≤ 2147483646 →
      memcmp mem (src + i) sentinel 2 ≠ 0) :
    ∀ (fuel : Nat) (i j : Int) (n : Nat), i % 2 = 0 → -2147483648 ≤ i → i ≤ 2147483646 →
      scanLoop mem src sentinel 2 fuel i j n = Scan.outOfFuel := by
  intro fuel
  induction fuel with
  | zero =>
    intro i j n _ _ h2
    have hlt : i < INT32_MAX := by unfold INT32_MAX; omega
    unfold scanLoop
    rw [if_pos hlt]
  | succ fuel ih =>
    intro i j n h0 h1 h2
    have hlt : i < INT32_MAX := by unfold INT32_MAX; omega
    have hm : ¬ memcmp mem (src + i) sentinel 2 = 0 := hne i h1 h2
    have a0 : toInt32 (i + ((2 : Nat) : Int)) % 2 = 0 := by
      unfold toInt32; push_cast; omega
    have a1 : -2147483648 ≤ toInt32 (i + ((2 : Nat) : Int)) := by
      unfold toInt32; push_cast; omega
    have a2 : toInt32 (i + ((2 : Nat) : Int)) ≤ 2147483646 := by
      unfold toInt32; push_cast; omega
    have step := ih (toInt32 (i + ((2 : Nat) : Int))) (toInt32 (j + 1)) (n + 1) a0 a1 a2
    unfold scanLoop
    rw [if_pos hlt, if_neg hm]
    exact step

theorem scanLoop_stride_two_match (mem : AddressSpace) (src sentinel t : Int) (k : Nat)
    (hk : (k : Int) < INT32_MAX)
    (hmatch : memcmp mem (src + t) sentinel 2 = 0)
    (hne : ∀ x : Int, x ≠ t → x % 2 = 0 → -2147483648 ≤ x → x ≤ 2147483646 →
      memcmp mem (src + x) sentinel 2 ≠ 0) :
    ∀ (d j fuel n : Nat) (i c : Int), i % 2 = 0 → -2147483648 ≤ i → i ≤ 2147483646 →
      (i + 2 * (d : Int) + 2147483648) % 4294967296 - 2147483648 = t →
      c = (j : Int) → j + d = k → d < fuel →
      scanLoop mem src sentinel 2 fuel i c n = Scan.found k (n + d + 1) := by
  unfold INT32_MAX at hk
  intro d
  induction d with
  | zero =>
    intro j fuel n i c h0 h1 h2 ht hc hj hf
    obtain ⟨f, rfl⟩ : ∃ f, fuel = f + 1 := ⟨fuel - 1, by omega⟩
    have hjk : j = k := by omega
    subst hjk
    subst hc
    have hlt : i < INT32_MAX := by unfold INT32_MAX; omega
    have hit : i = t := by
      push_cast at ht
      omega
    have hm : memcmp mem (src + i) sentinel 2 = 0 := by rw [hit]; exact hmatch
    unfold scanLoop
    rw [if_pos hlt, if_pos hm]
  | succ d ih =>
    intro j fuel n i c h0 h1 h2 ht hc hj hf
    obtain ⟨f, rfl⟩ : ∃ f, fuel = f + 1 := ⟨fuel - 1, by omega⟩
    have hlt : i < INT32_MAX := by unfold INT32_MAX; omega
    have hit : i ≠ t := by
      push_cast at ht
      omega
    have hm : ¬ memcmp mem (src + i) sentinel 2 = 0 := hne i hit h0 h1 h2
    have a0 : toInt32 (i + ((2 : Nat) : Int)) % 2 = 0 := by
      unfold toInt32; push_cast; omega
    have a1 : -2147483648 ≤ toInt32 (i + ((2 : Nat) : Int)) := by
      unfold toInt32; push_cast; omega
    have a2 : toInt32 (i + ((2 : Nat) : Int)) ≤ 2147483646 := by
      unfold toInt32; push_cast; omega
    have a3 : (toInt32 (i + ((2 : Nat) : Int)) + 2 * (d : Int) + 2147483648) % 4294967296
        - 2147483648 = t := by
      push_cast at ht
      unfold toInt32; push_cast; omega
    have e2 : toInt32 (c + 1) = ((j + 1 : Nat) : Int) := by
      rw [hc]
      unfold toInt32; push_cast; omega
    have step := ih (j + 1) f (n + 1) (toInt32 (i + ((2 : Nat) : Int))) (toInt32 (c + 1))
      a0 a1 a2 a3 e2 (by omega) (by omega)
    have hn : n + 1 + d + 1 = n + (d + 1) + 1 := by omega
    unfold scanLoop
    rw [if_pos hlt, if_neg hm, step, hn]

theorem plainMemory_no_match (i : Int) (h0 : -2147483648 ≤ i) :
    memcmp plainMemory (4294967296 + i) 1 2 ≠ 0 := by
  intro h
  have h2 := (memcmp_eq_zero_iff plainMemory 2 _ _).1 h 0 (by omega)
  have e1 : plainMemory (4294967296 + i + ((0 : Nat) : Int)) = 1 := by
    unfold plainMemory
    rw [if_neg (by push_cast; omega)]
  have e2 : plainMemory (1 + ((0 : Nat) : Int)) = 0 := by decide
  rw [e1, e2] at h2
  exact absurd h2 (by decide)

theorem wrappedMemory_no_match (i : Int) (h0 : -2147483646 ≤ i) :
    memcmp wrappedMemory (4294967296 + i) 1 2 ≠ 0 := by
  intro h
  have h2 := (memcmp_eq_zero_iff wrappedMemory 2 _ _).1 h 0 (by omega)
  have e1 : wrappedMemory (4294967296 + i + ((0 : Nat) : Int)) = 1 := by
    unfold wrappedMemory
    rw [if_neg (by push_cast; omega)]
  have e2 : wrappedMemory (1 + ((0 : Nat) : Int)) = 0 := by decide
  rw [e1, e2] at h2
  exact absurd h2 (by decide)

theorem wrappedMemory_match : memcmp wrappedMemory (4294967296 + -2147483648) 1 2 = 0 := by
  decide

/-- C25. With a stride that does not lead the 32-bit counter to `INT32_MAX` the scan of
`findSentinel` goes past it. For the two-byte sentinel `0, 0` and a memory in which no block
at an offset from `-2^31` on matches (so none in `[0, INT32_MAX)`), the scan from address
`2^32` is still running after any number of iterations: it never returns `not_found`. And in
a memory in which no block at an offset `≥ 0` matches but the two bytes `2^31` below the
address do, the scan returns block index `2^30` after `2^30 + 1` comparisons: the counter has
wrapped from `2147483646` to `-2147483648` and the match is `2^31` bytes before `address`. -/
theorem findSentinel_even_stride_wraps :
    (∀ o : Int, 0 ≤ o → o < INT32_MAX → memcmp plainMemory (4294967296 + o) 1 2 ≠ 0) ∧
    (∀ fuel : Nat,
      findSentinel plainMemory [JSValue.bigInt 4294967296, JSValue.dataView 1 0 2] fuel = none) ∧
    (∀ o : Int, 0 ≤ o → o < INT32_MAX → memcmp wrappedMemory (4294967296 + o) 1 2 ≠ 0) ∧
    toInt32 (2147483646 + 2) = -2147483648 ∧
    memcmp wrappedMemory (4294967296 + -2147483648) 1 2 = 0 ∧
    (∀ extra : Nat,
      findSentinel wrappedMemory [JSValue.bigInt 4294967296, JSValue.dataView 1 0 2]
        (1073741825 + extra)
        = some (⟨none, some (JSValue.number 1073741824)⟩, 1073741825)) := by
  have haddr : ((toUint64 4294967296 : Nat) : Int) = 4294967296 := by
    unfold toUint64
    omega
  have hwrap : toInt32 (2147483646 + 2) = -2147483648 := by
    unfold toInt32
    omega
  refine ⟨fun o h0 _ => plainMemory_no_match o (by omega), ?_,
    fun o h0 _ => wrappedMemory_no_match o (by omega), hwrap, wrappedMemory_match, ?_⟩
  · intro fuel
    have hloop := scanLoop_stride_two_running plainMemory 4294967296 1
      (fun i h0 _ => plainMemory_no_match i h0) fuel 0 0 0 (by omega) (by omega) (by omega)
    simp only [findSentinel, argAt, List.getD_cons_zero, List.getD_cons_succ]
    rw [if_pos (by omega), haddr]
    simp only [Nat.cast_one, Nat.cast_zero, add_zero]
    rw [hloop]
  · intro extra
    have hk : ((1073741824 : Nat) : Int) < INT32_MAX := by
      unfold INT32_MAX
      omega
    have hloop := scanLoop_stride_two_match wrappedMemory 4294967296 1 (-2147483648)
      1073741824 hk wrappedMemory_match
      (fun x hx _ h1 _ => wrappedMemory_no_match x (by omega))
      1073741824 0 (1073741825 + extra) 0 0 0 (by omega) (by omega) (by omega) (by omega)
      (by simp) (by omega) (by omega)
    simp only [findSentinel, argAt, List.getD_cons_zero, List.getD_cons_succ]
    rw [if_pos (by omega), haddr]
    simp only [Nat.cast_one, Nat.cast_zero, add_zero]
    rw [hloop]
    simp

end Zigar
